import Mathlib

/-!
# The emeus simplex solver (`src/emeus-simplex-solver.c`)

A shallow embedding of the tableau engine and of the public entry points that
the test-suite (`src/tests/solver.c`) drives.

Modelling conventions.

* C `double` values are rationals (`ℚ`).
* A `GHashTable` is an association list; iteration visits the entries in list
  order, `g_hash_table_insert` overwrites the value of a present key in place
  and appends an absent one, `g_hash_table_remove` drops the key.  A hash set
  is a list of keys.
* Objects that the C code shares through pointers are kept in explicit
  stores: `Expression` objects live in `SimplexSolver.expressions` and are
  referred to by address, so that `rows` and `external_rows` can alias the
  same object; the `value` field of the `Variable` objects is the store
  `SimplexSolver.values`.  Reference counting and deallocation are not
  modelled.
* A function returns `none` when the C code dereferences a `NULL` or dangling
  pointer, trips a `g_assert`, reads past the end of an array, or when a loop
  runs out of the fuel it was given.
* `g_critical` messages are appended to `SimplexSolver.criticals`, those GLib
  emits itself included: a hash-table call on `NULL`, and
  `g_hash_table_iter_next` on a table that has gained or lost a key behind the
  iterator, which also ends the iteration.
-/

namespace Emeus

/-! ## Hash tables and hash sets -/

section Tables

variable {α β : Type} [DecidableEq α]

/-- The `g_hash_table_lookup` operation: the value stored under `k`, if any. -/
def ht_lookup (k : α) : List (α × β) → Option β
  | [] => none
  | (k', v) :: t => if k' = k then some v else ht_lookup k t

/-- The `g_hash_table_insert` operation. -/
def ht_insert (k : α) (v : β) : List (α × β) → List (α × β)
  | [] => [(k, v)]
  | (k', v') :: t => if k' = k then (k, v) :: t else (k', v') :: ht_insert k v t

/-- The `g_hash_table_remove` operation on a table. -/
def ht_remove (k : α) (t : List (α × β)) : List (α × β) :=
  t.filter (fun p => decide (p.1 ≠ k))

/-- The `g_hash_table_add` operation on a set. -/
def set_add (k : α) (s : List α) : List α :=
  if k ∈ s then s else s ++ [k]

/-- The `g_hash_table_remove` operation on a set. -/
def set_remove (k : α) (s : List α) : List α :=
  s.filter (fun x => decide (x ≠ k))

end Tables

/-! ## Variables -/

/-- Modelled from the spec: the enumeration `VariableType` is declared in
`emeus-types-private.h`, which is not part of the source file; its members are
the kinds of §3, under the names the source file uses. -/
inductive VariableType where
  | VARIABLE_REGULAR
  | VARIABLE_SLACK
  | VARIABLE_DUMMY
  | VARIABLE_OBJECTIVE
deriving DecidableEq, Repr

/-- Modelled from the spec: the struct `Variable` is declared in
`emeus-types-private.h`, which is not part of the source file.  A `Variable *`
is the address of the object together with its (immutable) kind (§3); the
mutable `value` field is kept in `SimplexSolver.values`. -/
structure Variable where
  addr : Nat
  kind : VariableType
deriving DecidableEq, Repr

/-- Modelled from the spec: `variable_new` is declared in
`emeus-variable-private.h`, which is not part of the source file.  The registry
issues a variable of the requested kind; its identity is the address the
allocator hands out, passed in as `addr`. -/
def variable_new (addr : Nat) (kind : VariableType) : Variable :=
  ⟨addr, kind⟩

/-- Modelled from the spec: `variable_is_external` (§3: external = kind
External, the `VARIABLE_REGULAR` of the source). -/
def variable_is_external (v : Variable) : Bool :=
  decide (v.kind = VariableType.VARIABLE_REGULAR)

/-- Modelled from the spec: `variable_is_pivotable` (§3: pivotable = kind Slack). -/
def variable_is_pivotable (v : Variable) : Bool :=
  decide (v.kind = VariableType.VARIABLE_SLACK)

/-- Modelled from the spec: `variable_is_dummy` (§3: dummy = kind Dummy). -/
def variable_is_dummy (v : Variable) : Bool :=
  decide (v.kind = VariableType.VARIABLE_DUMMY)

/-- Modelled from the spec: `variable_is_restricted` (§3: restricted = kind
Slack or Dummy). -/
def variable_is_restricted (v : Variable) : Bool :=
  decide (v.kind = VariableType.VARIABLE_SLACK) || decide (v.kind = VariableType.VARIABLE_DUMMY)

/-! ## Linear expressions (spec §4.1) -/

/-- Modelled from the spec: the epsilon `APPROX_EPS` of §4.1, `1e-8`. -/
def APPROX_EPS : ℚ := 1 / 100000000

/-- Modelled from the spec: `approx_val` of `emeus-utils-private.h`; two doubles
are near-equal when their absolute difference is below `APPROX_EPS`. -/
def approx_val (a b : ℚ) : Bool :=
  decide (|a - b| < APPROX_EPS)

/-- The largest finite `double` (`DBL_MAX` of `<float.h>`). -/
def DBL_MAX : ℚ := 2 ^ 1024 - 2 ^ 971

/-- Modelled from the spec: the struct `Expression` is declared in
`emeus-types-private.h`, which is not part of the source file.  An object is a
constant and the table of terms (§3). -/
structure Expression where
  constant : ℚ
  terms : List (Variable × ℚ)
deriving DecidableEq

/-- Modelled from the spec: `expression_new` (`new(constant)`). -/
def expression_new (constant : ℚ) : Expression :=
  ⟨constant, []⟩

/-- Modelled from the spec: `expression_new_from_variable` (`1·v + 0`). -/
def expression_new_from_variable (v : Variable) : Expression :=
  ⟨0, [(v, 1)]⟩

/-- Modelled from the spec: `expression_get_constant`. -/
def expression_get_constant (e : Expression) : ℚ :=
  e.constant

/-- Modelled from the spec: `expression_set_constant`. -/
def expression_set_constant (e : Expression) (c : ℚ) : Expression :=
  { e with constant := c }

/-- Modelled from the spec: `expression_get_coefficient`, the coefficient
lookup; a variable without a term has coefficient `0`. -/
def expression_get_coefficient (e : Expression) (v : Variable) : ℚ :=
  (ht_lookup v e.terms).getD 0

/-- Modelled from the spec: `expression_remove_variable`. -/
def expression_remove_variable (e : Expression) (v : Variable) : Expression :=
  { e with terms := ht_remove v e.terms }

/-- Modelled from the spec: `expression_set_variable`
(`set_coefficient(v, c)`: inserts or overwrites; removes the term if
`|c| < ε`). -/
def expression_set_variable (e : Expression) (v : Variable) (c : ℚ) : Expression :=
  if |c| < APPROX_EPS then { e with terms := ht_remove v e.terms }
  else { e with terms := ht_insert v c e.terms }

/-- Modelled from the spec: `expression_add_variable` (fused add-then-prune:
the new coefficient is `c₀ + c`, pruned when near zero). -/
def expression_add_variable (e : Expression) (v : Variable) (c : ℚ) : Expression :=
  expression_set_variable e v (expression_get_coefficient e v + c)

/-- Modelled from the spec: `expression_add_expression`
(`add_expression(other, multiplier)`). -/
def expression_add_expression (e other : Expression) (multiplier : ℚ) : Expression :=
  let e1 := other.terms.foldl (fun acc t => expression_add_variable acc t.1 (t.2 * multiplier)) e
  { e1 with constant := e1.constant + other.constant * multiplier }

/-- Modelled from the spec: `expression_plus` of
`emeus-expression-private.h` is not part of the source file; it is the in-place
add of §2, here of a constant, which is how the comment in
`simplex_solver_add_stay_variable` (`attr - value == 0`) uses it. -/
def expression_plus (e : Expression) (c : ℚ) : Expression :=
  { e with constant := e.constant + c }

/-- Modelled from the spec: `expression_times` (`scale(f)`: multiply the
constant and every coefficient by `f`; `f = 0` gives the zero expression). -/
def expression_times (e : Expression) (f : ℚ) : Expression :=
  if f = 0 then ⟨0, []⟩
  else ⟨e.constant * f, e.terms.map (fun t => (t.1, t.2 * f))⟩

/-- Modelled from the spec: `expression_new_subject` (`new_subject(v)`:
divides by `−coefficient_of(v)` and removes `v`). -/
def expression_new_subject (e : Expression) (v : Variable) : Expression :=
  let c := expression_get_coefficient e v
  expression_remove_variable (expression_times e (1 / (-c))) v

/-- Modelled from the spec: `expression_change_subject`: divide the whole
expression by the negation of the coefficient of `new_subject`, set the
coefficient of `old_subject` to `1/(−c_new)`, and remove `new_subject`. -/
def expression_change_subject (e : Expression) (old_subject new_subject : Variable) :
    Expression :=
  let c := expression_get_coefficient e new_subject
  let e1 := expression_times e (1 / (-c))
  let e2 := expression_set_variable e1 old_subject (1 / (-c))
  expression_remove_variable e2 new_subject

/-! ## Constraints -/

/-- Modelled from the spec: the enumeration `OperatorType` (`≤`, `=`, `≥` of
§3) is declared in `emeus-types-private.h`, which is not part of the source
file; the members carry the names the source file and the tests use. -/
inductive OperatorType where
  | OPERATOR_TYPE_LE
  | OPERATOR_TYPE_EQ
  | OPERATOR_TYPE_GE
deriving DecidableEq, Repr

/-- Modelled from the spec: the enumeration `StrengthType` (Required,
Strong, Medium, Weak of §3) is declared in `emeus-types-private.h`, which is
not part of the source file; the members carry the names the source file and
the tests use. -/
inductive StrengthType where
  | STRENGTH_REQUIRED
  | STRENGTH_STRONG
  | STRENGTH_MEDIUM
  | STRENGTH_WEAK
deriving DecidableEq, Repr

/-- Modelled from the spec: the struct `Constraint` is declared in
`emeus-types-private.h`, which is not part of the source file; the fields are
those the source file assigns.  `addr` is the address `g_slice_new` returned
(the identity under which `marker_vars` files the constraint), `expression` the
address of the residual expression. -/
structure Constraint where
  addr : Nat
  expression : Nat
  op_type : OperatorType
  strength : StrengthType
  is_stay : Bool
  is_edit : Bool
deriving DecidableEq, Repr

/-! ## The solver state -/

/-- The messages the solver hands to `g_critical`; `null_hash_table` is the
message GLib itself emits when a hash-table call is given `NULL`, and
`iter_invalid` the one `g_hash_table_iter_next` emits when the table was
modified behind the iterator (`ri->version == ri->hash_table->version`
failed). -/
inductive Critical where
  | unbounded_objective
  | unsatisfiable_required
  | columns_unset
  | null_hash_table
  | iter_invalid
deriving DecidableEq, Repr

/-- Modelled from the spec: the struct `SimplexSolver` is declared in
`emeus-types-private.h`, which is not part of the source file; the fields are
those the source file uses, the collections of §3 among them.  They are
followed by the object stores and the message log.  `external_vars` and
`error_vars` are `none` while the pointer is `NULL`. -/
structure SimplexSolver where
  columns : List (Variable × List Variable)
  rows : List (Variable × Nat)
  external_rows : List (Variable × Nat)
  infeasible_rows : List Variable
  updated_externals : List Variable
  external_vars : Option (List Variable)
  error_vars : Option (List (Constraint × List Variable))
  stay_plus_error_vars : List Variable
  stay_minus_error_vars : List Variable
  marker_vars : List (Constraint × Variable)
  objective : Variable
  slack_counter : Nat
  dummy_counter : Nat
  artificial_counter : Nat
  optimize_count : Nat
  needs_solving : Bool
  auto_solve : Bool
  expressions : List (Nat × Expression)
  values : List (Variable × ℚ)
  criticals : List Critical
deriving DecidableEq

/-- Dereference an `Expression *`. -/
def expr_read (solver : SimplexSolver) (a : Nat) : Option Expression :=
  ht_lookup a solver.expressions

/-- Store into the object an `Expression *` points to. -/
def expr_write (solver : SimplexSolver) (a : Nat) (e : Expression) : SimplexSolver :=
  { solver with expressions := ht_insert a e solver.expressions }

/-- Apply an in-place operation to the object an `Expression *` points to. -/
def expr_modify (solver : SimplexSolver) (a : Nat) (f : Expression → Expression) :
    Option SimplexSolver :=
  match expr_read solver a with
  | none => none
  | some e => some (expr_write solver a (f e))

/-- An address no expression object occupies. -/
def expr_fresh (solver : SimplexSolver) : Nat :=
  (solver.expressions.map Prod.fst).foldr max 0 + 1

/-- Allocate a new expression object. -/
def expr_alloc (solver : SimplexSolver) (e : Expression) : Nat × SimplexSolver :=
  (expr_fresh solver, expr_write solver (expr_fresh solver) e)

/-- Modelled from the spec: `variable_get_value`, the current value of a
variable (`0` until one is assigned). -/
def variable_get_value (solver : SimplexSolver) (v : Variable) : ℚ :=
  (ht_lookup v solver.values).getD 0

/-- Modelled from the spec: `variable_set_value`. -/
def variable_set_value (solver : SimplexSolver) (v : Variable) (x : ℚ) : SimplexSolver :=
  { solver with values := ht_insert v x solver.values }

/-- Append a `g_critical` message to the log. -/
def g_critical (solver : SimplexSolver) (c : Critical) : SimplexSolver :=
  { solver with criticals := solver.criticals ++ [c] }

/-! ## The tableau -/

/-- The function `simplex_solver_init`.  The objective variable is allocated at
`objective_addr`; `external_vars` and `error_vars` are left `NULL` by the
`memset`. -/
def simplex_solver_init (objective_addr : Nat) : SimplexSolver :=
  { columns := []
    rows := [(variable_new objective_addr VariableType.VARIABLE_OBJECTIVE, 1)]
    external_rows := []
    infeasible_rows := []
    updated_externals := []
    external_vars := none
    error_vars := none
    stay_plus_error_vars := []
    stay_minus_error_vars := []
    marker_vars := []
    objective := variable_new objective_addr VariableType.VARIABLE_OBJECTIVE
    slack_counter := 0
    dummy_counter := 0
    artificial_counter := 0
    optimize_count := 0
    needs_solving := false
    auto_solve := false
    expressions := [(1, expression_new 0)]
    values := []
    criticals := [] }

/-- The function `simplex_solver_get_column_set`. -/
def simplex_solver_get_column_set (solver : SimplexSolver) (param_var : Variable) :
    Option (List Variable) :=
  ht_lookup param_var solver.columns

/-- The function `simplex_solver_column_has_key`. -/
def simplex_solver_column_has_key (solver : SimplexSolver) (subject : Variable) : Bool :=
  (ht_lookup subject solver.columns).isSome

/-- The function `simplex_solver_insert_column_variable`; `row_var` is `none`
for a `NULL` argument. -/
def simplex_solver_insert_column_variable (solver : SimplexSolver) (param_var : Variable)
    (row_var : Option Variable) : SimplexSolver :=
  let solver1 :=
    match simplex_solver_get_column_set solver param_var with
    | none => { solver with columns := ht_insert param_var [] solver.columns }
    | some _ => solver
  match row_var with
  | none => solver1
  | some rv =>
    { solver1 with
      columns := ht_insert param_var
        (set_add rv ((ht_lookup param_var solver1.columns).getD [])) solver1.columns }

/-- The expression an iteration of `simplex_solver_reset_stay_constraints`
selects: the row of `stay_plus_error_vars[i]` (here `var`) or, failing that, the
row of `stay_minus_error_vars[i]`.  The result is `some none` when neither is
basic and `none` when the second array is too short. -/
def reset_stay_select (solver : SimplexSolver) (var : Variable) (i : Nat) :
    Option (Option Nat) :=
  match ht_lookup var solver.rows with
  | some expression => some (some expression)
  | none =>
    match solver.stay_minus_error_vars[i]? with
    | none => none
    | some var1 => some (ht_lookup var1 solver.rows)

/-- The loop of `simplex_solver_reset_stay_constraints`, at index `i` with
`plus` the part of `stay_plus_error_vars` from `i` on. -/
def reset_stay_loop : List Variable → Nat → SimplexSolver → Option SimplexSolver
  | [], _, solver => some solver
  | var :: plus, i, solver =>
    match reset_stay_select solver var i with
    | none => none
    | some none => reset_stay_loop plus (i + 1) solver
    | some (some expression) =>
      match expr_modify solver expression (fun e => expression_set_constant e 0) with
      | none => none
      | some solver1 => reset_stay_loop plus (i + 1) solver1

/-- The function `simplex_solver_reset_stay_constraints`. -/
def simplex_solver_reset_stay_constraints (solver : SimplexSolver) : Option SimplexSolver :=
  reset_stay_loop solver.stay_plus_error_vars 0 solver

/-- The loop of `simplex_solver_set_external_variables` over the members of
`updated_externals` still to visit.  A member without an external row gets the
value `0` and the function returns on the spot; when the loop completes, the
set is emptied and `needs_solving` cleared. -/
def set_external_loop : List Variable → SimplexSolver → Option SimplexSolver
  | [], solver => some { solver with updated_externals := [], needs_solving := false }
  | var :: rest, solver =>
    match ht_lookup var solver.external_rows with
    | none => some (variable_set_value solver var 0)
    | some expression =>
      match expr_read solver expression with
      | none => none
      | some e =>
        set_external_loop rest (variable_set_value solver var (expression_get_constant e))

/-- The function `simplex_solver_set_external_variables`. -/
def simplex_solver_set_external_variables (solver : SimplexSolver) : Option SimplexSolver :=
  set_external_loop solver.updated_externals solver

/-- The callback `insert_expression_columns`. -/
def insert_expression_columns (var : Variable) (solver : SimplexSolver)
    (term : Variable × ℚ) : SimplexSolver :=
  simplex_solver_insert_column_variable solver term.1 (some var)

/-- The function `simplex_solver_add_row`. -/
def simplex_solver_add_row (solver : SimplexSolver) (var : Variable) (expression : Nat) :
    Option SimplexSolver :=
  let solver1 := { solver with rows := ht_insert var expression solver.rows }
  match expr_read solver1 expression with
  | none => none
  | some e =>
    let solver2 := e.terms.foldl (insert_expression_columns var) solver1
    if variable_is_external var then
      some { solver2 with
             external_rows := ht_insert var expression solver2.external_rows }
    else some solver2

/-- The callback `remove_expression_columns`. -/
def remove_expression_columns (var : Variable) (solver : SimplexSolver)
    (term : Variable × ℚ) : SimplexSolver :=
  match ht_lookup term.1 solver.columns with
  | none => solver
  | some row_set =>
    { solver with columns := ht_insert term.1 (set_remove var row_set) solver.columns }

/-- The function `simplex_solver_remove_row`; returns the address of the
expression that was the row. -/
def simplex_solver_remove_row (solver : SimplexSolver) (var : Variable) :
    Option (Nat × SimplexSolver) :=
  match ht_lookup var solver.rows with
  | none => none
  | some a =>
    match expr_read solver a with
    | none => none
    | some e =>
      let solver1 := e.terms.foldl (remove_expression_columns var) solver
      let solver2 :=
        { solver1 with infeasible_rows := set_remove var solver1.infeasible_rows }
      let solver3 :=
        if variable_is_external var then
          { solver2 with external_rows := ht_remove var solver2.external_rows }
        else solver2
      some (a, { solver3 with rows := ht_remove var solver3.rows })

/-- The function `expression_substitute_out` of the source file: it removes
`out_variable` from `expression` and adds `coefficient * constant` of
`new_expression` to the constant. -/
def expression_substitute_out (solver : SimplexSolver) (expression : Nat)
    (out_variable : Variable) (new_expression : Nat) : Option SimplexSolver :=
  match expr_read solver expression with
  | none => none
  | some e =>
    let coefficient := expression_get_coefficient e out_variable
    let solver1 := expr_write solver expression (expression_remove_variable e out_variable)
    match expr_read solver1 expression, expr_read solver1 new_expression with
    | some e1, some ne =>
      some (expr_write solver1 expression
        { e1 with constant := e1.constant + coefficient * ne.constant })
    | _, _ => none

/-- The body of the loop of `simplex_solver_substitute_out`, for the member
`var` of the column set of `old_variable`. -/
def substitute_out_body (old_variable : Variable) (expression : Nat)
    (solver : SimplexSolver) (var : Variable) : Option SimplexSolver :=
  match ht_lookup var solver.rows with
  | none => none
  | some e =>
    match expression_substitute_out solver e old_variable expression with
    | none => none
    | some solver1 =>
      let solver2 :=
        if variable_is_external var then
          { solver1 with updated_externals := set_add var solver1.updated_externals }
        else solver1
      match expr_read solver2 e with
      | none => none
      | some e1 =>
        if variable_is_restricted var && decide (expression_get_constant e1 < 0) then
          some { solver2 with infeasible_rows := set_add var solver2.infeasible_rows }
        else some solver2

/-- The loop of `simplex_solver_substitute_out` over the members of the column
set of `old_variable`. -/
def substitute_out_loop (old_variable : Variable) (expression : Nat) :
    List Variable → SimplexSolver → Option SimplexSolver
  | [], solver => some solver
  | var :: rest, solver =>
    match substitute_out_body old_variable expression solver var with
    | none => none
    | some solver3 => substitute_out_loop old_variable expression rest solver3

/-- The function `simplex_solver_substitute_out`. -/
def simplex_solver_substitute_out (solver : SimplexSolver) (old_variable : Variable)
    (expression : Nat) : Option SimplexSolver :=
  (match ht_lookup old_variable solver.columns with
    | none => some solver
    | some row_set => substitute_out_loop old_variable expression row_set solver).bind
  fun solver1 =>
    let solver2 :=
      if variable_is_external old_variable then
        { solver1 with
          external_rows := ht_insert old_variable expression solver1.external_rows }
      else solver1
    some { solver2 with columns := ht_remove old_variable solver2.columns }

/-- The function `simplex_solver_pivot`. -/
def simplex_solver_pivot (solver : SimplexSolver) (entry_var exit_var : Variable) :
    Option SimplexSolver :=
  match simplex_solver_remove_row solver exit_var with
  | none => none
  | some (expr, solver1) =>
    match expr_modify solver1 expr (fun e => expression_change_subject e exit_var entry_var) with
    | none => none
    | some solver2 =>
      match simplex_solver_substitute_out solver2 entry_var expr with
      | none => none
      | some solver3 => simplex_solver_add_row solver3 entry_var expr

/-! ## Primal optimisation -/

/-- The constant `DBL_EPSILON` of `<float.h>`. -/
def DBL_EPSILON : ℚ := 1 / 2 ^ 52

/-- The closure `NegativeClosure`; `entry_variable` is `none` for `NULL`. -/
structure NegativeClosure where
  objective_coefficient : ℚ
  entry_variable : Option Variable
deriving DecidableEq

/-- The callback `find_negative_coefficient`. -/
def find_negative_coefficient (data : NegativeClosure) (term : Variable × ℚ) :
    NegativeClosure :=
  let var := term.1
  let coefficient := term.2
  if variable_is_pivotable var && decide (coefficient < data.objective_coefficient) then
    { objective_coefficient := coefficient, entry_variable := some var }
  else data

/-- The inner loop of `simplex_solver_optimize` over the members of the column
set of `entry` still to visit; the state is the pair of the locals `min_ratio`
and `exit`. -/
def optimize_exit_loop (solver : SimplexSolver) (entry : Variable) :
    List Variable → ℚ × Option Variable → Option (ℚ × Option Variable)
  | [], state => some state
  | v :: rest, (min_ratio, exit) =>
    if !variable_is_pivotable v then optimize_exit_loop solver entry rest (min_ratio, exit)
    else
      match ht_lookup v solver.rows with
      | none => none
      | some a =>
        match expr_read solver a with
        | none => none
        | some expr =>
          let coeff := expression_get_coefficient expr entry
          if coeff < 0 then
            let r := -1 * expression_get_constant expr / coeff
            if decide (r < min_ratio) ||
                (approx_val r min_ratio && decide (v.addr < entry.addr)) then
              optimize_exit_loop solver entry rest (r, some v)
            else optimize_exit_loop solver entry rest (min_ratio, exit)
          else optimize_exit_loop solver entry rest (min_ratio, exit)

/-- The `while (true)` loop of `simplex_solver_optimize`; `z_row` is the
address looked up before the loop and `exit` the local of that name, which
keeps its value from one iteration to the next.  One unit of fuel is spent
per iteration. -/
def optimize_loop (z_row : Nat) : Nat → Option Variable → SimplexSolver → Option SimplexSolver
  | 0, _, _ => none
  | fuel + 1, exit, solver =>
    match expr_read solver z_row with
    | none => none
    | some z =>
      let data := z.terms.foldl find_negative_coefficient
        { objective_coefficient := 0, entry_variable := none }
      if data.objective_coefficient ≥ -DBL_EPSILON then some solver
      else
        match data.entry_variable with
        | none => none
        | some entry =>
          match simplex_solver_get_column_set solver entry with
          | none => none
          | some column_vars =>
            match optimize_exit_loop solver entry column_vars (DBL_MAX, exit) with
            | none => none
            | some (min_ratio, exit1) =>
              if approx_val min_ratio DBL_MAX then
                optimize_loop z_row fuel exit1
                  (g_critical solver Critical.unbounded_objective)
              else
                match exit1 with
                | none => none
                | some exit_var =>
                  match simplex_solver_pivot solver entry exit_var with
                  | none => none
                  | some solver1 => optimize_loop z_row fuel exit1 solver1

/-- The function `simplex_solver_optimize`. -/
def simplex_solver_optimize (fuel : Nat) (solver : SimplexSolver) (z : Variable) :
    Option SimplexSolver :=
  let solver1 := { solver with optimize_count := solver.optimize_count + 1 }
  match ht_lookup z solver1.rows with
  | none => none
  | some z_row => optimize_loop z_row fuel none solver1

/-! ## Dual optimisation -/

/-- The closure `RatioClosure`; `entry` and `z_row` are `none` for `NULL`. -/
structure RatioClosure where
  entry : Option Variable
  ratio : ℚ
  z_row : Option Nat
deriving DecidableEq

/-- The pointer comparison `v < data->entry`. -/
def variable_before (v : Variable) (entry : Option Variable) : Bool :=
  match entry with
  | none => false
  | some w => decide (v.addr < w.addr)

/-- The callback `find_ratio`. -/
def find_ratio (solver : SimplexSolver) (data : RatioClosure) (term : Variable × ℚ) :
    Option RatioClosure :=
  let v := term.1
  let cd := term.2
  if decide (cd > 0) && variable_is_pivotable v then
    match data.z_row with
    | none => none
    | some za =>
      match expr_read solver za with
      | none => none
      | some z =>
        let zc := expression_get_coefficient z v
        let r := if !approx_val cd 0 then zc / cd else 0
        if decide (r < data.ratio) ||
            (approx_val r data.ratio && data.entry.isSome && variable_before v data.entry) then
          some { data with entry := some v, ratio := r }
        else some data
  else some data

/-- The call `expression_terms_foreach (expr, find_ratio, &data)`. -/
def find_ratio_foreach (solver : SimplexSolver) :
    List (Variable × ℚ) → RatioClosure → Option RatioClosure
  | [], data => some data
  | term :: rest, data =>
    match find_ratio solver data term with
    | none => none
    | some data1 => find_ratio_foreach solver rest data1

/-- The test `ri->version == ri->hash_table->version` of
`g_hash_table_iter_next` fails: GLib changes the version of a table when a
call other than `g_hash_table_iter_remove` inserts a key the table does not
hold or removes one it holds; inserting a member again changes nothing.
`before` are the members when the iterator last moved, its own removal done,
and `after` the members now.  Between two moves of the iterator of
`dual_optimize` the set is only added to (`remove_row` removes the key the
iterator has already taken out), so the version has changed exactly when
the members differ. -/
def iter_invalidated (before after : List Variable) : Bool :=
  after.any (fun k => !decide (k ∈ before)) || before.any (fun k => !decide (k ∈ after))

/-- The loop of `simplex_solver_dual_optimize`.  The iterator hands out the
first member still in `infeasible_rows`, which `g_hash_table_iter_remove`
takes out of the set.  When the pivot of an iteration has filed a variable in
`infeasible_rows` that was not a member, the iterator is no longer valid: the
next `g_hash_table_iter_next` emits GLib's critical message and returns
`FALSE`, so the loop ends with the remaining members unvisited.  One unit of
fuel is spent per iteration. -/
def dual_optimize_loop (z_row : Option Nat) : Nat → SimplexSolver → Option SimplexSolver
  | fuel, solver =>
    match solver.infeasible_rows with
    | [] => some solver
    | exit_var :: _ =>
      match fuel with
      | 0 => none
      | fuel1 + 1 =>
        let solver1 :=
          { solver with infeasible_rows := set_remove exit_var solver.infeasible_rows }
        match ht_lookup exit_var solver1.rows with
        | none => dual_optimize_loop z_row fuel1 solver1
        | some expr =>
          match expr_read solver1 expr with
          | none => none
          | some e =>
            if expression_get_constant e ≥ 0 then dual_optimize_loop z_row fuel1 solver1
            else
              match find_ratio_foreach solver1 e.terms
                  { entry := none, ratio := DBL_MAX, z_row := z_row } with
              | none => none
              | some data =>
                match data.entry with
                | none => dual_optimize_loop z_row fuel1 solver1
                | some entry_var =>
                  if !approx_val data.ratio DBL_MAX then
                    match simplex_solver_pivot solver1 entry_var exit_var with
                    | none => none
                    | some solver2 =>
                      if iter_invalidated solver1.infeasible_rows solver2.infeasible_rows then
                        some (g_critical solver2 Critical.iter_invalid)
                      else dual_optimize_loop z_row fuel1 solver2
                  else dual_optimize_loop z_row fuel1 solver1

/-- The function `simplex_solver_dual_optimize`. -/
def simplex_solver_dual_optimize (fuel : Nat) (solver : SimplexSolver) :
    Option SimplexSolver :=
  dual_optimize_loop (ht_lookup solver.objective solver.rows) fuel solver

/-! ## Choosing a subject -/

/-- The closure `ChooseClosure` (without the back pointer to the solver). -/
structure ChooseClosure where
  subject : Option Variable
  found_unrestricted : Bool
  found_new_restricted : Bool
  retval : Option Variable
  coefficient : ℚ
deriving DecidableEq

/-- The initial contents `simplex_solver_choose_subject` gives the closure. -/
def ChooseClosure.init : ChooseClosure :=
  { subject := none, found_unrestricted := false, found_new_restricted := false,
    retval := none, coefficient := 0 }

/-- The callback `find_subject_restricted`. -/
def find_subject_restricted (solver : SimplexSolver) (data : ChooseClosure)
    (term : Variable × ℚ) : ChooseClosure :=
  let v := term.1
  let c := term.2
  if data.found_unrestricted then
    if !variable_is_restricted v then
      if !simplex_solver_column_has_key solver v then { data with retval := some v }
      else data
    else data
  else
    if variable_is_restricted v then
      if !data.found_new_restricted && !variable_is_dummy v && decide (c < 0) then
        match ht_lookup v solver.columns with
        | none => { data with subject := some v, found_new_restricted := true }
        | some col =>
          if decide (col.length = 1) &&
              simplex_solver_column_has_key solver solver.objective then
            { data with subject := some v, found_new_restricted := true }
          else data
      else data
    else { data with subject := some v, found_unrestricted := true }

/-- The callback `find_subject_dummy`. -/
def find_subject_dummy (solver : SimplexSolver) (data : ChooseClosure)
    (term : Variable × ℚ) : ChooseClosure :=
  let v := term.1
  let c := term.2
  if !variable_is_dummy v then { data with retval := some v }
  else if !simplex_solver_column_has_key solver v then
    { data with subject := some v, coefficient := c }
  else data

/-- The function `simplex_solver_choose_subject`; the result is `none` for a
`NULL` return. -/
def simplex_solver_choose_subject (solver : SimplexSolver) (expression : Nat) :
    Option (Option Variable × SimplexSolver) :=
  match expr_read solver expression with
  | none => none
  | some e =>
    let data := e.terms.foldl (find_subject_restricted solver) ChooseClosure.init
    if data.retval.isSome then some (data.retval, solver)
    else if data.subject.isSome then some (data.subject, solver)
    else
      let data1 := e.terms.foldl (find_subject_dummy solver) ChooseClosure.init
      if data1.retval.isSome then some (data1.retval, solver)
      else if approx_val (expression_get_constant e) 0 then
        some (none, g_critical solver Critical.unsatisfiable_required)
      else if data1.coefficient > 0 then
        some (data1.subject, expr_write solver expression (expression_times e (-1)))
      else some (data1.subject, solver)

/-- The function `simplex_solver_try_adding_directly`. -/
def simplex_solver_try_adding_directly (solver : SimplexSolver) (expression : Nat) :
    Option (Bool × SimplexSolver) :=
  match simplex_solver_choose_subject solver expression with
  | none => none
  | some (none, solver1) => some (false, solver1)
  | some (some subject, solver1) =>
    match expr_modify solver1 expression (fun e => expression_new_subject e subject) with
    | none => none
    | some solver2 =>
      (if simplex_solver_column_has_key solver2 subject then
        simplex_solver_substitute_out solver2 subject expression
      else some solver2).bind fun solver3 =>
      match simplex_solver_add_row solver3 subject expression with
      | none => none
      | some solver4 => some (true, solver4)

/-! ## The public entry points -/

/-- The function `simplex_solver_update_variable`.  It files the variable in
`external_vars`; while that pointer is `NULL`, `g_hash_table_add` only emits
a critical message. -/
def simplex_solver_update_variable (solver : SimplexSolver) (var : Variable) :
    SimplexSolver :=
  if variable_is_external var then
    match solver.external_vars with
    | none => g_critical solver Critical.null_hash_table
    | some set => { solver with external_vars := some (set_add var set) }
  else solver

/-- The function `simplex_solver_create_variable`
(`variable_new (solver, VARIABLE_REGULAR)`).  The callers in the test-suite
also pass the initial value (spec §6, `create_variable(name?, initial_value)`),
which becomes the value of the new object. -/
def simplex_solver_create_variable (solver : SimplexSolver) (addr : Nat) (value : ℚ) :
    Variable × SimplexSolver :=
  (variable_new addr VariableType.VARIABLE_REGULAR,
   variable_set_value solver (variable_new addr VariableType.VARIABLE_REGULAR) value)

/-- The function `simplex_solver_create_expression`. -/
def simplex_solver_create_expression (solver : SimplexSolver) (constant : ℚ) :
    Nat × SimplexSolver :=
  expr_alloc solver (expression_new constant)

/-- The function `simplex_solver_resolve`. -/
def simplex_solver_resolve (fuel : Nat) (solver : SimplexSolver) : Option SimplexSolver :=
  if !solver.needs_solving then some solver
  else
    match simplex_solver_dual_optimize fuel solver with
    | none => none
    | some solver1 =>
      match simplex_solver_set_external_variables solver1 with
      | none => none
      | some solver2 =>
        match simplex_solver_reset_stay_constraints { solver2 with infeasible_rows := [] } with
        | none => none
        | some solver3 => some { solver3 with needs_solving := false }

/-- The function `simplex_solver_add_constraint_internal`. -/
def simplex_solver_add_constraint_internal (fuel : Nat) (solver : SimplexSolver)
    (_constraint : Constraint) : Option SimplexSolver :=
  let solver1 := { solver with needs_solving := true }
  if solver1.auto_solve then simplex_solver_resolve fuel solver1 else some solver1

/-- The callback `update_externals`. -/
def update_externals (solver : SimplexSolver) (term : Variable × ℚ) : SimplexSolver :=
  if variable_is_external term.1 then simplex_solver_update_variable solver term.1
  else solver

/-- The function `simplex_solver_add_constraint`; `res_addr` is the address
`g_slice_new` returns for the new constraint. -/
def simplex_solver_add_constraint (fuel : Nat) (solver : SimplexSolver) (res_addr : Nat)
    (var : Variable) (op : OperatorType) (expression : Nat) (strength : StrengthType) :
    Option (Constraint × SimplexSolver) :=
  match expr_read solver expression with
  | none => none
  | some rhs =>
    let alloc := expr_alloc solver
      (expression_add_expression (expression_new_from_variable var) rhs (-1))
    let solver2 := rhs.terms.foldl update_externals alloc.2
    let res : Constraint :=
      { addr := res_addr, expression := alloc.1, op_type := op, strength := strength,
        is_stay := false, is_edit := false }
    match simplex_solver_add_constraint_internal fuel solver2 res with
    | none => none
    | some solver3 => some (res, solver3)

/-- The function `simplex_solver_add_stay_variable`. -/
def simplex_solver_add_stay_variable (fuel : Nat) (solver : SimplexSolver) (res_addr : Nat)
    (var : Variable) (strength : StrengthType) : Option (Constraint × SimplexSolver) :=
  let alloc := expr_alloc solver
    (expression_plus (expression_new_from_variable var) (variable_get_value solver var * -1))
  let res : Constraint :=
    { addr := res_addr, expression := alloc.1, op_type := OperatorType.OPERATOR_TYPE_EQ,
      strength := strength, is_stay := true, is_edit := false }
  match simplex_solver_add_constraint_internal fuel alloc.2 res with
  | none => none
  | some solver1 => some (res, solver1)

/-- The function `simplex_solver_add_edit_variable`. -/
def simplex_solver_add_edit_variable (fuel : Nat) (solver : SimplexSolver) (res_addr : Nat)
    (var : Variable) (strength : StrengthType) : Option (Constraint × SimplexSolver) :=
  let alloc := expr_alloc solver (expression_new_from_variable var)
  let res : Constraint :=
    { addr := res_addr, expression := alloc.1, op_type := OperatorType.OPERATOR_TYPE_EQ,
      strength := strength, is_stay := false, is_edit := true }
  match simplex_solver_add_constraint_internal fuel alloc.2 res with
  | none => none
  | some solver1 => some (res, solver1)

/-- Modelled from the spec: `simplex_solver_begin_edit` is called by the
test-suite but not defined in the source file; §6 lets it be a no-op beyond
bookkeeping. -/
def simplex_solver_begin_edit (solver : SimplexSolver) : SimplexSolver :=
  solver

/-- The function `simplex_solver_suggest_value`: its body is empty. -/
def simplex_solver_suggest_value (solver : SimplexSolver) (_var : Variable) (_value : ℚ) :
    SimplexSolver :=
  solver

/-! ## The scenarios of the test-suite (`src/tests/solver.c`) -/

/-- The test `emeus_solver_simple` up to its assertions, for initial values
`x0` and `y0`: the solver after `x == y` was added as a required constraint,
with the two variables. -/
def emeus_solver_simple (fuel : Nat) (x0 y0 : ℚ) :
    Option (SimplexSolver × Variable × Variable) :=
  let solver := simplex_solver_init 0
  let x := simplex_solver_create_variable solver 1 x0
  let y := simplex_solver_create_variable x.2 2 y0
  let e := expr_alloc y.2 (expression_new_from_variable y.1)
  match simplex_solver_add_constraint fuel e.2 0 x.1 OperatorType.OPERATOR_TYPE_EQ e.1
      StrengthType.STRENGTH_REQUIRED with
  | none => none
  | some r => some (r.2, x.1, y.1)

/-- The tests `emeus_solver_variable_geq_constant`, `..._leq_constant` and
`..._eq_constant` up to their assertions, for operator `op`, constant `c` and
initial value `x0`. -/
def emeus_solver_variable_op_constant (fuel : Nat) (op : OperatorType) (c x0 : ℚ) :
    Option (SimplexSolver × Variable) :=
  let solver := simplex_solver_init 0
  let x := simplex_solver_create_variable solver 1 x0
  let e := simplex_solver_create_expression x.2 c
  match simplex_solver_add_constraint fuel e.2 0 x.1 op e.1 StrengthType.STRENGTH_REQUIRED with
  | none => none
  | some r => some (r.2, x.1)

/-- The test `emeus_solver_stay` up to its assertions, for initial values `x0`
and `y0` and the two strengths. -/
def emeus_solver_stay (fuel : Nat) (x0 y0 : ℚ) (sx sy : StrengthType) :
    Option (SimplexSolver × Variable × Variable) :=
  let solver := simplex_solver_init 0
  let x := simplex_solver_create_variable solver 1 x0
  let y := simplex_solver_create_variable x.2 2 y0
  match simplex_solver_add_stay_variable fuel y.2 0 x.1 sx with
  | none => none
  | some r1 =>
    match simplex_solver_add_stay_variable fuel r1.2 1 y.1 sy with
    | none => none
    | some r2 => some (r2.2, x.1, y.1)

/-- The set-up of the test `emeus_solver_edit_var_suggest`, without its
intermediate `resolve` and assertions: `stay(a, Strong)`, `a == b` required,
`edit(a, Required)`, `begin_edit`. -/
def emeus_solver_edit_var_setup (fuel : Nat) :
    Option (SimplexSolver × Variable × Variable) :=
  let solver := simplex_solver_init 0
  let a := simplex_solver_create_variable solver 1 0
  let b := simplex_solver_create_variable a.2 2 0
  match simplex_solver_add_stay_variable fuel b.2 0 a.1 StrengthType.STRENGTH_STRONG with
  | none => none
  | some r1 =>
    let e := expr_alloc r1.2 (expression_new_from_variable b.1)
    match simplex_solver_add_constraint fuel e.2 1 a.1 OperatorType.OPERATOR_TYPE_EQ e.1
        StrengthType.STRENGTH_REQUIRED with
    | none => none
    | some r2 =>
      match simplex_solver_add_edit_variable fuel r2.2 2 a.1 StrengthType.STRENGTH_REQUIRED with
      | none => none
      | some r3 => some (simplex_solver_begin_edit r3.2, a.1, b.1)

/-- One round of the test `emeus_solver_edit_var_suggest`:
`suggest_value (a, v)` followed by `resolve`. -/
def emeus_solver_suggest_resolve (fuel : Nat) (solver : SimplexSolver) (a : Variable)
    (v : ℚ) : Option SimplexSolver :=
  simplex_solver_resolve fuel (simplex_solver_suggest_value solver a v)

/-! ## A worked tableau -/

/-- The objective variable of the worked tableau. -/
def ex_z : Variable := ⟨0, VariableType.VARIABLE_OBJECTIVE⟩

/-- The external variable of the worked tableau. -/
def ex_x : Variable := ⟨1, VariableType.VARIABLE_REGULAR⟩

/-- The first slack variable of the worked tableau. -/
def ex_s1 : Variable := ⟨2, VariableType.VARIABLE_SLACK⟩

/-- The second slack variable of the worked tableau. -/
def ex_s2 : Variable := ⟨3, VariableType.VARIABLE_SLACK⟩

/-- A tableau in dictionary form with one infeasible row:
`z = 0 + s2`, `x = 3 + 2·s2`, `s1 = -5 + s2`, where `x` currently holds `3`,
`s1` is filed in `infeasible_rows` and `needs_solving` is set. -/
def ex_tableau : SimplexSolver :=
  { simplex_solver_init 0 with
    columns := [(ex_s2, [ex_z, ex_x, ex_s1])]
    rows := [(ex_z, 1), (ex_x, 2), (ex_s1, 3)]
    external_rows := [(ex_x, 2)]
    infeasible_rows := [ex_s1]
    needs_solving := true
    expressions := [(1, ⟨0, [(ex_s2, 1)]⟩), (2, ⟨3, [(ex_s2, 2)]⟩), (3, ⟨-5, [(ex_s2, 1)]⟩)]
    values := [(ex_x, 3)] }

/-- The worked tableau with one more expression object, the constant `7`,
which no variable can be made the subject of. -/
def ex_unsat : Nat × SimplexSolver :=
  expr_alloc ex_tableau (expression_new 7)

/-- The solver of the test `emeus_solver_simple` (`x = 167`, `y = 2`) after
`try_adding_directly` has added the row for `x - y + d = 0`, the normal form
of the required `x == y` with dummy marker `d`, and `needs_solving` was set. -/
def ex_direct : Option SimplexSolver :=
  let solver := simplex_solver_init 0
  let x := simplex_solver_create_variable solver 1 167
  let y := simplex_solver_create_variable x.2 2 2
  let e := expr_alloc y.2
    ⟨0, [(x.1, 1), (y.1, -1), (variable_new 3 VariableType.VARIABLE_DUMMY, 1)]⟩
  match simplex_solver_try_adding_directly e.2 e.1 with
  | some (true, s) => some { s with needs_solving := true }
  | _ => none

/-- The variable `y` of `ex_direct`. -/
def ex_y : Variable := ⟨2, VariableType.VARIABLE_REGULAR⟩

/-- A tableau with a row that cannot be repaired: `z = 0` and
`s1 = -1 - s2` for slack variables `s1` and `s2`, with `s1` filed in
`infeasible_rows` and `needs_solving` set. -/
def ex_stuck : SimplexSolver :=
  { simplex_solver_init 0 with
    columns := [(ex_s2, [ex_s1])]
    rows := [(ex_z, 1), (ex_s1, 2)]
    infeasible_rows := [ex_s1]
    needs_solving := true
    expressions := [(1, ⟨0, []⟩), (2, ⟨-1, [(ex_s2, -1)]⟩)] }

/-- The third slack variable of the worked tableaux. -/
def ex_s3 : Variable := ⟨4, VariableType.VARIABLE_SLACK⟩

/-- The fourth slack variable of the worked tableaux. -/
def ex_s4 : Variable := ⟨5, VariableType.VARIABLE_SLACK⟩

/-! ## Constraint normalisation -/

/-- The file-scope variable `internal_expression`; the pointers are `none`
while `NULL`. -/
structure InternalExpression where
  eplus : Option Variable
  eminus : Option Variable
  prev_constant : ℚ
deriving DecidableEq

/-- The initial contents of `internal_expression`. -/
def InternalExpression.init : InternalExpression :=
  { eplus := none, eminus := none, prev_constant := 0 }

/-- Modelled from the spec: `constraint_is_inequality` is declared in
`emeus-types-private.h`, which is not part of the source file; an inequality
is a constraint whose operator is `≤` or `≥` (§4.3). -/
def constraint_is_inequality (constraint : Constraint) : Bool :=
  decide (constraint.op_type ≠ OperatorType.OPERATOR_TYPE_EQ)

/-- Modelled from the spec: `constraint_is_required` (strength Required, §3). -/
def constraint_is_required (constraint : Constraint) : Bool :=
  decide (constraint.strength = StrengthType.STRENGTH_REQUIRED)

/-- Modelled from the spec: `constraint_is_stay` (the flag *is_stay* of §3). -/
def constraint_is_stay (constraint : Constraint) : Bool :=
  constraint.is_stay

/-- Modelled from the spec: `constraint_is_edit` (the flag *is_edit* of §3). -/
def constraint_is_edit (constraint : Constraint) : Bool :=
  constraint.is_edit

/-- The function `simplex_solver_insert_error_variable`.  While `error_vars`
is `NULL`, `g_hash_table_lookup` and `g_hash_table_insert` each emit a critical
message and do nothing else, and the set the function has created is not
filed anywhere. -/
def simplex_solver_insert_error_variable (solver : SimplexSolver) (constraint : Constraint)
    (var : Variable) : SimplexSolver :=
  match solver.error_vars with
  | none => g_critical (g_critical solver Critical.null_hash_table) Critical.null_hash_table
  | some table =>
    let table1 :=
      match ht_lookup constraint table with
      | none => ht_insert constraint [] table
      | some _ => table
    { solver with
      error_vars := some (ht_insert constraint
        (set_add var ((ht_lookup constraint table1).getD [])) table1) }

/-- The function `simplex_solver_add_variable`; `subject` is `none` for
`NULL`. -/
def simplex_solver_add_variable (solver : SimplexSolver) (var : Variable)
    (subject : Option Variable) : SimplexSolver :=
  match subject with
  | none => solver
  | some row_var => simplex_solver_insert_column_variable solver var (some row_var)

/-- The callback `replace_terms`, with `expr` the expression under
construction.  When the variable of the term is basic, the term itself is
added to `expr`; when it is not, the callback hands the `NULL` it has looked
up to `expression_add_expression`, which reads the constant and the terms of
its argument: the call dereferences `NULL`. -/
def replace_terms (solver : SimplexSolver) (expr : Nat) (term : Variable × ℚ) :
    Option SimplexSolver :=
  match ht_lookup term.1 solver.rows with
  | some _ => expr_modify solver expr (fun x => expression_add_variable x term.1 term.2)
  | none => none

/-- The call `expression_terms_foreach (cn_expr, replace_terms, &data)`. -/
def replace_terms_foreach (expr : Nat) :
    List (Variable × ℚ) → SimplexSolver → Option SimplexSolver
  | [], solver => some solver
  | term :: rest, solver =>
    match replace_terms solver expr term with
    | none => none
    | some solver1 => replace_terms_foreach expr rest solver1

/-- The function `simplex_solver_normalize_expression`.  The value of
`internal_expression` is passed in and returned with the result.  `weight`
gives the number an enumerator of `StrengthType` converts to (the enumeration
is declared in `emeus-types-private.h`, which is not part of the source file);
`addr1` and `addr2` are the addresses the first and the second call of
`variable_new` return. -/
def simplex_solver_normalize_expression (weight : StrengthType → ℚ) (solver : SimplexSolver)
    (internal : InternalExpression) (constraint : Constraint) (addr1 addr2 : Nat) :
    Option (Nat × SimplexSolver × InternalExpression) :=
  match expr_read solver constraint.expression with
  | none => none
  | some cn_expr =>
    let alloc := expr_alloc solver (expression_new (expression_get_constant cn_expr))
    let expr := alloc.1
    match replace_terms_foreach expr cn_expr.terms alloc.2 with
    | none => none
    | some solver1 =>
      if constraint_is_inequality constraint then
        let solver2 := { solver1 with slack_counter := solver1.slack_counter + 1 }
        let slack_var := variable_new addr1 VariableType.VARIABLE_SLACK
        match expr_modify solver2 expr (fun e => expression_set_variable e slack_var (-1)) with
        | none => none
        | some solver3 =>
          let solver4 :=
            { solver3 with marker_vars := ht_insert constraint slack_var solver3.marker_vars }
          if constraint.strength ≠ StrengthType.STRENGTH_REQUIRED then
            let solver5 := { solver4 with slack_counter := solver4.slack_counter + 1 }
            let eminus := variable_new addr2 VariableType.VARIABLE_SLACK
            match expr_modify solver5 expr (fun e => expression_set_variable e eminus 1) with
            | none => none
            | some solver6 =>
              match ht_lookup solver6.objective solver6.rows with
              | none => none
              | some z_row =>
                match expr_modify solver6 z_row
                    (fun e => expression_set_variable e eminus (weight constraint.strength)) with
                | none => none
                | some solver7 =>
                  let solver8 := simplex_solver_insert_error_variable solver7 constraint eminus
                  some (expr,
                    simplex_solver_add_variable solver8 eminus (some solver8.objective),
                    internal)
          else some (expr, solver4, internal)
      else if constraint_is_required constraint then
        let solver2 := { solver1 with dummy_counter := solver1.dummy_counter + 1 }
        let dummy_var := variable_new addr1 VariableType.VARIABLE_DUMMY
        let internal1 : InternalExpression :=
          { eplus := some dummy_var, eminus := some dummy_var,
            prev_constant := expression_get_constant cn_expr }
        match expr_modify solver2 expr (fun e => expression_set_variable e dummy_var 1) with
        | none => none
        | some solver3 =>
          some (expr,
            { solver3 with marker_vars := ht_insert constraint dummy_var solver3.marker_vars },
            internal1)
      else
        let solver2 := { solver1 with slack_counter := solver1.slack_counter + 1 }
        let eplus := variable_new addr1 VariableType.VARIABLE_SLACK
        let eminus := variable_new addr2 VariableType.VARIABLE_SLACK
        match expr_modify solver2 expr (fun e => expression_set_variable e eplus (-1)) with
        | none => none
        | some solver3 =>
          match expr_modify solver3 expr (fun e => expression_set_variable e eminus 1) with
          | none => none
          | some solver4 =>
            let solver5 :=
              { solver4 with marker_vars := ht_insert constraint eplus solver4.marker_vars }
            match ht_lookup solver5.objective solver5.rows with
            | none => none
            | some z_row =>
              match expr_modify solver5 z_row
                  (fun e => expression_set_variable e eplus (weight constraint.strength)) with
              | none => none
              | some solver6 =>
                match expr_modify solver6 z_row
                    (fun e => expression_set_variable e eminus (weight constraint.strength)) with
                | none => none
                | some solver7 =>
                  let solver8 := simplex_solver_add_variable solver7 eplus (some solver7.objective)
                  let solver9 := simplex_solver_add_variable solver8 eminus (some solver8.objective)
                  let solver10 := simplex_solver_insert_error_variable solver9 constraint eplus
                  let solver11 := simplex_solver_insert_error_variable solver10 constraint eminus
                  if constraint_is_stay constraint then
                    some (expr,
                      { solver11 with
                        stay_plus_error_vars := solver11.stay_plus_error_vars ++ [eplus]
                        stay_minus_error_vars := solver11.stay_minus_error_vars ++ [eminus] },
                      internal)
                  else if constraint_is_edit constraint then
                    some (expr, solver11,
                      { eplus := some eplus, eminus := some eminus,
                        prev_constant := expression_get_constant cn_expr })
                  else some (expr, solver11, internal)

/-! ## Delta edits -/

/-- The loop of `simplex_solver_delta_edit_constant` over the members of the
column set of `minus_error_var` still to visit. -/
def delta_edit_loop (delta : ℚ) (minus_error_var : Variable) :
    List Variable → SimplexSolver → Option SimplexSolver
  | [], solver => some solver
  | basic_var :: rest, solver =>
    match ht_lookup basic_var solver.rows with
    | none => none
    | some expr =>
      match expr_read solver expr with
      | none => none
      | some e =>
        let c := expression_get_coefficient e minus_error_var
        let new_constant := expression_get_constant e + c * delta
        let solver1 := expr_write solver expr (expression_set_constant e new_constant)
        let solver2 :=
          if variable_is_external basic_var then simplex_solver_update_variable solver1 basic_var
          else solver1
        let solver3 :=
          if variable_is_restricted basic_var && decide (new_constant < 0) then
            { solver2 with infeasible_rows := set_add basic_var solver2.infeasible_rows }
          else solver2
        delta_edit_loop delta minus_error_var rest solver3

/-- The function `simplex_solver_delta_edit_constant`.  When neither variable
is basic and `minus_error_var` has no column set, the function logs a message
and goes on to iterate over the `NULL` table: `g_hash_table_iter_init` refuses
it and `g_hash_table_iter_next` runs on an iterator that was never set up. -/
def simplex_solver_delta_edit_constant (solver : SimplexSolver) (delta : ℚ)
    (plus_error_var minus_error_var : Variable) : Option SimplexSolver :=
  match ht_lookup plus_error_var solver.rows with
  | some plus_expr =>
    match expr_read solver plus_expr with
    | none => none
    | some e =>
      let new_constant := expression_get_constant e + delta
      let solver1 := expr_write solver plus_expr (expression_set_constant e new_constant)
      if new_constant < 0 then
        some { solver1 with infeasible_rows := set_add plus_error_var solver1.infeasible_rows }
      else some solver1
  | none =>
    match ht_lookup minus_error_var solver.rows with
    | some minus_expr =>
      match expr_read solver minus_expr with
      | none => none
      | some e =>
        let new_constant := expression_get_constant e - delta
        let solver1 := expr_write solver minus_expr (expression_set_constant e new_constant)
        if new_constant < 0 then
          some { solver1 with
                 infeasible_rows := set_add minus_error_var solver1.infeasible_rows }
        else some solver1
    | none =>
      match ht_lookup minus_error_var solver.columns with
      | none => none
      | some column_set => delta_edit_loop delta minus_error_var column_set solver

/-! ## The artificial-variable phase -/

/-- The function `simplex_solver_remove_column`.  The loop hands every member
of the column set, a `Variable *`, to `expression_remove_variable` as if it
were an `Expression *`: with a non-empty set the call works on an object of
the wrong type.  After the loop the function removes `variable` from its own
column set; the key stays in `columns`. -/
def simplex_solver_remove_column (solver : SimplexSolver) (var : Variable) :
    Option SimplexSolver :=
  (match ht_lookup var solver.columns with
    | none => some solver
    | some row_set =>
      match row_set with
      | _ :: _ => none
      | [] =>
        some { solver with
               columns := ht_insert var (set_remove var row_set) solver.columns }).bind
  fun solver1 =>
    if variable_is_external var then
      some { solver1 with external_rows := ht_remove var solver1.external_rows }
    else some solver1

/-- Modelled from the spec: `expression_clone` (`clone`, §4.1) is declared in
`emeus-expression-private.h`, which is not part of the source file: a new
object with the constant and the terms of the original. -/
def expression_clone (solver : SimplexSolver) (expression : Nat) :
    Option (Nat × SimplexSolver) :=
  match expr_read solver expression with
  | none => none
  | some e => some (expr_alloc solver e)

/-- Modelled from the spec: `expression_is_constant`, the test for "a pure
constant" of §4.6: the expression has no terms. -/
def expression_is_constant (e : Expression) : Bool :=
  e.terms.isEmpty

/-- Modelled from the spec: `expression_get_pivotable_variable`
(`pick_pivotable()`, §4.1): a pivotable term, here the first, or none. -/
def expression_get_pivotable_variable (e : Expression) : Option Variable :=
  (e.terms.find? (fun t => variable_is_pivotable t.1)).map Prod.fst

/-- The end of `simplex_solver_add_with_artificial_variable`: the assertion
that `av` is not basic, then `remove_column (av)` and `remove_row (az)`. -/
def artificial_finish (solver : SimplexSolver) (av az : Variable) : Option SimplexSolver :=
  match ht_lookup av solver.rows with
  | some _ => none
  | none =>
    match simplex_solver_remove_column solver av with
    | none => none
    | some solver1 =>
      match simplex_solver_remove_row solver1 az with
      | none => none
      | some (_, solver2) => some solver2

/-- The function `simplex_solver_add_with_artificial_variable`; `av_addr` and
`az_addr` are the addresses `variable_new` returns for `av` and `az`. -/
def simplex_solver_add_with_artificial_variable (fuel : Nat) (solver : SimplexSolver)
    (expression : Nat) (av_addr az_addr : Nat) : Option SimplexSolver :=
  let av := variable_new av_addr VariableType.VARIABLE_SLACK
  let solver1 := { solver with artificial_counter := solver.artificial_counter + 1 }
  let az := variable_new az_addr VariableType.VARIABLE_OBJECTIVE
  match expression_clone solver1 expression with
  | none => none
  | some (az_row, solver2) =>
    match simplex_solver_add_row solver2 az az_row with
    | none => none
    | some solver3 =>
      match simplex_solver_add_row solver3 av expression with
      | none => none
      | some solver4 =>
        match simplex_solver_optimize fuel solver4 az with
        | none => none
        | some solver5 =>
          match ht_lookup az solver5.rows with
          | none => none
          | some az_tableau_row =>
            match expr_read solver5 az_tableau_row with
            | none => none
            | some azt =>
              if !approx_val (expression_get_constant azt) 0 then
                match simplex_solver_remove_row solver5 az with
                | none => none
                | some (_, solver6) =>
                  match simplex_solver_remove_column solver6 av with
                  | none => none
                  | some solver7 => some (g_critical solver7 Critical.unsatisfiable_required)
              else
                match ht_lookup av solver5.rows with
                | none => artificial_finish solver5 av az
                | some ea =>
                  match expr_read solver5 ea with
                  | none => none
                  | some e =>
                    if expression_is_constant e then
                      match simplex_solver_remove_row solver5 av with
                      | none => none
                      | some (_, solver6) =>
                        match simplex_solver_remove_row solver6 az with
                        | none => none
                        | some (_, solver7) => some solver7
                    else
                      match expression_get_pivotable_variable e with
                      | none => none
                      | some entry_var =>
                        match simplex_solver_pivot solver5 entry_var av with
                        | none => none
                        | some solver6 => artificial_finish solver6 av az

/-! ## The pivots a run issues -/

/-- The `while (true)` loop of `simplex_solver_optimize` as in `optimize_loop`,
together with the calls `simplex_solver_pivot (solver, entry, exit)` it issues,
in order.  A call is recorded with its arguments as the loop passes them, the
local `exit` being `none` for `NULL`.  The list is kept when the loop does not
return: it then holds the calls issued until the fuel ran out or the run
stopped, the last of them being the one that stopped it if a pivot did. -/
def optimize_loop_pivots (z_row : Nat) :
    Nat → Option Variable → SimplexSolver →
      List (Variable × Option Variable) × Option SimplexSolver
  | 0, _, _ => ([], none)
  | fuel + 1, exit, solver =>
    match expr_read solver z_row with
    | none => ([], none)
    | some z =>
      let data := z.terms.foldl find_negative_coefficient
        { objective_coefficient := 0, entry_variable := none }
      if data.objective_coefficient ≥ -DBL_EPSILON then ([], some solver)
      else
        match data.entry_variable with
        | none => ([], none)
        | some entry =>
          match simplex_solver_get_column_set solver entry with
          | none => ([], none)
          | some column_vars =>
            match optimize_exit_loop solver entry column_vars (DBL_MAX, exit) with
            | none => ([], none)
            | some (min_ratio, exit1) =>
              if approx_val min_ratio DBL_MAX then
                optimize_loop_pivots z_row fuel exit1
                  (g_critical solver Critical.unbounded_objective)
              else
                match exit1 with
                | none => ([(entry, none)], none)
                | some exit_var =>
                  match simplex_solver_pivot solver entry exit_var with
                  | none => ([(entry, exit1)], none)
                  | some solver1 =>
                    let run := optimize_loop_pivots z_row fuel exit1 solver1
                    ((entry, exit1) :: run.1, run.2)

/-- The function `simplex_solver_optimize`, together with the pivots it
issues. -/
def simplex_solver_optimize_pivots (fuel : Nat) (solver : SimplexSolver) (z : Variable) :
    List (Variable × Option Variable) × Option SimplexSolver :=
  let solver1 := { solver with optimize_count := solver.optimize_count + 1 }
  match ht_lookup z solver1.rows with
  | none => ([], none)
  | some z_row => optimize_loop_pivots z_row fuel none solver1

/-- The loop of `simplex_solver_dual_optimize` as in `dual_optimize_loop`,
together with the calls `simplex_solver_pivot (solver, entry_var, exit_var)` it
issues, in order.  The list is kept when the loop does not return, and it ends
with the pivot that made the iterator invalid when one did. -/
def dual_optimize_loop_pivots (z_row : Option Nat) :
    Nat → SimplexSolver → List (Variable × Variable) × Option SimplexSolver
  | fuel, solver =>
    match solver.infeasible_rows with
    | [] => ([], some solver)
    | exit_var :: _ =>
      match fuel with
      | 0 => ([], none)
      | fuel1 + 1 =>
        let solver1 :=
          { solver with infeasible_rows := set_remove exit_var solver.infeasible_rows }
        match ht_lookup exit_var solver1.rows with
        | none => dual_optimize_loop_pivots z_row fuel1 solver1
        | some expr =>
          match expr_read solver1 expr with
          | none => ([], none)
          | some e =>
            if expression_get_constant e ≥ 0 then dual_optimize_loop_pivots z_row fuel1 solver1
            else
              match find_ratio_foreach solver1 e.terms
                  { entry := none, ratio := DBL_MAX, z_row := z_row } with
              | none => ([], none)
              | some data =>
                match data.entry with
                | none => dual_optimize_loop_pivots z_row fuel1 solver1
                | some entry_var =>
                  if !approx_val data.ratio DBL_MAX then
                    match simplex_solver_pivot solver1 entry_var exit_var with
                    | none => ([(entry_var, exit_var)], none)
                    | some solver2 =>
                      if iter_invalidated solver1.infeasible_rows solver2.infeasible_rows then
                        ([(entry_var, exit_var)],
                          some (g_critical solver2 Critical.iter_invalid))
                      else
                        let run := dual_optimize_loop_pivots z_row fuel1 solver2
                        ((entry_var, exit_var) :: run.1, run.2)
                  else dual_optimize_loop_pivots z_row fuel1 solver1

/-- The function `simplex_solver_dual_optimize`, together with the pivots it
issues. -/
def simplex_solver_dual_optimize_pivots (fuel : Nat) (solver : SimplexSolver) :
    List (Variable × Variable) × Option SimplexSolver :=
  dual_optimize_loop_pivots (ht_lookup solver.objective solver.rows) fuel solver

/-- Carry out the listed calls of `simplex_solver_pivot` one after the other,
starting from `solver`; a call with `NULL` for `exit` is not carried out. -/
def pivots_apply : List (Variable × Option Variable) → SimplexSolver → Option SimplexSolver
  | [], solver => some solver
  | (_, none) :: _, _ => none
  | (entry, some exit) :: rest, solver =>
    match simplex_solver_pivot solver entry exit with
    | none => none
    | some solver1 => pivots_apply rest solver1

/-! ## Further worked states -/

/-- A tableau about to receive the row `s2 = 5 + s1`: `z = 0 + s2` and
`x = 3 + 2·s2` are rows, both filed in the column of `s2`, and the expression
object at address `3` is `5 + s1`. -/
def ex_subst : SimplexSolver :=
  { simplex_solver_init 0 with
    columns := [(ex_s2, [ex_z, ex_x])]
    rows := [(ex_z, 1), (ex_x, 2)]
    external_rows := [(ex_x, 2)]
    expressions := [(1, ⟨0, [(ex_s2, 1)]⟩), (2, ⟨3, [(ex_s2, 2)]⟩), (3, ⟨5, [(ex_s1, 1)]⟩)]
    values := [(ex_x, 3)] }

/-- The worked tableau with stale externals: `y` (no external row, value `2`)
and `x` (external row with constant `3`, value `7`) are filed in
`updated_externals`, in this order. -/
def ex_stale : SimplexSolver :=
  { ex_tableau with
    infeasible_rows := []
    updated_externals := [ex_y, ex_x]
    values := [(ex_x, 7), (ex_y, 2)] }

/-- A dummy variable. -/
def ex_d : Variable := ⟨6, VariableType.VARIABLE_DUMMY⟩

/-- A freshly initialised solver with one more expression object, `0 + d` for
the dummy variable `d`, which is not a key of `columns`. -/
def ex_dummy_row : Nat × SimplexSolver :=
  expr_alloc (simplex_solver_init 0) ⟨0, [(ex_d, 1)]⟩

/-- A freshly initialised solver with one more expression object, `5 + s1`
for the slack variable `s1`. -/
def ex_slack_row : Nat × SimplexSolver :=
  expr_alloc (simplex_solver_init 0) ⟨5, [(ex_s1, 1)]⟩

/-- A freshly initialised solver with one more expression object,
`0 + x - y + d`: the normal form of the required `x == y`. -/
def ex_equality_row : Nat × SimplexSolver :=
  expr_alloc (simplex_solver_init 0) ⟨0, [(ex_x, 1), (ex_y, -1), (ex_d, 1)]⟩

/-- A tableau whose objective can be lowered without bound: `z = 0 - s2` is
the only row, and the column of `s2` holds `z` alone. -/
def ex_unbounded : SimplexSolver :=
  { simplex_solver_init 0 with
    columns := [(ex_s2, [ex_z])]
    expressions := [(1, ⟨0, [(ex_s2, -1)]⟩)] }

/-- A tableau with two exit candidates of equal ratio: `z = 0 - s2`,
`s4 = 2 - s2` and `s3 = 2 - s2`; the column of `s2` lists `z`, `s4`, `s3` in
this order.  The address of `s3` is below that of `s4`, and both are above
that of `s2`. -/
def ex_tie : SimplexSolver :=
  { simplex_solver_init 0 with
    columns := [(ex_s2, [ex_z, ex_s4, ex_s3])]
    rows := [(ex_z, 1), (ex_s3, 2), (ex_s4, 3)]
    expressions := [(1, ⟨0, [(ex_s2, -1)]⟩), (2, ⟨2, [(ex_s2, -1)]⟩), (3, ⟨2, [(ex_s2, -1)]⟩)] }

/-- The tableau `ex_tie` with the column of `s2` listed as `z`, `s3`, `s4`. -/
def ex_tie_swapped : SimplexSolver :=
  { ex_tie with columns := [(ex_s2, [ex_z, ex_s3, ex_s4])] }

/-- A slack variable at address `9`. -/
def ex_t1 : Variable := ⟨9, VariableType.VARIABLE_SLACK⟩

/-- A slack variable at address `8`. -/
def ex_t2 : Variable := ⟨8, VariableType.VARIABLE_SLACK⟩

/-- A slack variable at address `7`. -/
def ex_t3 : Variable := ⟨7, VariableType.VARIABLE_SLACK⟩

/-- A tableau with an infeasible row and three candidates whose ratios are
close: `z = 0 + t1 + (1 + 9e-9)·t2 + (1 + 1.8e-8)·t3` and
`s1 = -1 + t1 + t2 + t3`, with `s1` filed in `infeasible_rows`. -/
def ex_drift : SimplexSolver :=
  { simplex_solver_init 0 with
    columns := [(ex_t1, [ex_z, ex_s1]), (ex_t2, [ex_z, ex_s1]), (ex_t3, [ex_z, ex_s1])]
    rows := [(ex_z, 1), (ex_s1, 2)]
    infeasible_rows := [ex_s1]
    needs_solving := true
    expressions :=
      [(1, ⟨0, [(ex_t1, 1), (ex_t2, 1 + 9 / 1000000000), (ex_t3, 1 + 18 / 1000000000)]⟩),
       (2, ⟨-1, [(ex_t1, 1), (ex_t2, 1), (ex_t3, 1)]⟩)] }

/-- A choice of numbers for the enumerators of `StrengthType`, with the
separation §4.3 asks for. -/
def ex_weight : StrengthType → ℚ
  | StrengthType.STRENGTH_REQUIRED => 1001001000
  | StrengthType.STRENGTH_STRONG => 1000000
  | StrengthType.STRENGTH_MEDIUM => 1000
  | StrengthType.STRENGTH_WEAK => 1

/-- A freshly initialised solver with the external variable `x` (value `10`)
and a residual expression `e` at address `2`; the objective variable is the
only basic variable. -/
def ex_residual_of (e : Expression) : SimplexSolver :=
  expr_write (simplex_solver_create_variable (simplex_solver_init 0) 1 10).2 2 e

/-- A constraint over the residual at address `2`. -/
def ex_constraint (op : OperatorType) (strength : StrengthType) (is_stay is_edit : Bool) :
    Constraint :=
  { addr := 0, expression := 2, op_type := op, strength := strength, is_stay := is_stay,
    is_edit := is_edit }

/-- The worked tableau, in which `x` is basic, with the residual `x - 10` at
address `4`. -/
def ex_basic_residual : SimplexSolver :=
  expr_write ex_tableau 4 ⟨-10, [(ex_x, 1)]⟩

/-- The slack variable the examples let `variable_new` return first. -/
def ex_n1 : Variable := ⟨10, VariableType.VARIABLE_SLACK⟩

/-- The slack variable the examples let `variable_new` return second. -/
def ex_n2 : Variable := ⟨11, VariableType.VARIABLE_SLACK⟩

/-- The dummy variable the examples let `variable_new` return. -/
def ex_nd : Variable := ⟨10, VariableType.VARIABLE_DUMMY⟩

/-- The weak constraint `x == x` added to a freshly initialised solver with
`simplex_solver_add_constraint`: the two terms on `x` cancel, and the residual
is the constant `0` without terms. -/
def ex_weak_self : Option (Constraint × SimplexSolver) :=
  let x := simplex_solver_create_variable (simplex_solver_init 0) 1 10
  let e := expr_alloc x.2 (expression_new_from_variable x.1)
  simplex_solver_add_constraint 0 e.2 0 x.1 OperatorType.OPERATOR_TYPE_EQ e.1
    StrengthType.STRENGTH_WEAK

/-- The constraint and the solver of `ex_weak_self`, with what
`normalize_expression` returns for them. -/
def ex_weak_self_normalized :
    Option (Constraint × SimplexSolver × Nat × SimplexSolver × InternalExpression) :=
  match ex_weak_self with
  | none => none
  | some (cn, s) =>
    match simplex_solver_normalize_expression ex_weight s InternalExpression.init cn 10 11 with
    | none => none
    | some r => some (cn, s, r)

/-- The plus error variable of the edit examples. -/
def ex_ep : Variable := ⟨12, VariableType.VARIABLE_SLACK⟩

/-- The minus error variable of the edit examples. -/
def ex_em : Variable := ⟨13, VariableType.VARIABLE_SLACK⟩

/-- A tableau in which the error variable `ep` is basic:
`z = 0 + em`, `x = 3 + 2·em`, `ep = 1 + em`. -/
def ex_edit_basic : SimplexSolver :=
  { simplex_solver_init 0 with
    columns := [(ex_em, [ex_z, ex_x, ex_ep])]
    rows := [(ex_z, 1), (ex_x, 2), (ex_ep, 3)]
    external_rows := [(ex_x, 2)]
    expressions := [(1, ⟨0, [(ex_em, 1)]⟩), (2, ⟨3, [(ex_em, 2)]⟩), (3, ⟨1, [(ex_em, 1)]⟩)]
    values := [(ex_x, 3)] }

/-- A tableau in which neither error variable is basic:
`z = 0 + ep + em` and `x = 3 - ep + 2·em`, where `x` holds the value `3`. -/
def ex_edit : SimplexSolver :=
  { simplex_solver_init 0 with
    columns := [(ex_ep, [ex_z, ex_x]), (ex_em, [ex_z, ex_x])]
    rows := [(ex_z, 1), (ex_x, 2)]
    external_rows := [(ex_x, 2)]
    expressions := [(1, ⟨0, [(ex_ep, 1), (ex_em, 1)]⟩), (2, ⟨3, [(ex_ep, -1), (ex_em, 2)]⟩)]
    values := [(ex_x, 3)] }

/-- A freshly initialised solver with the expression `5` at address `2`: an
equation `5 = 0`, which no variable can be made the subject of. -/
def ex_artificial : SimplexSolver :=
  expr_write (simplex_solver_init 0) 2 ⟨5, []⟩

/-- The artificial variable of the example. -/
def ex_av : Variable := ⟨20, VariableType.VARIABLE_SLACK⟩

/-- The artificial objective variable of the example. -/
def ex_az : Variable := ⟨21, VariableType.VARIABLE_OBJECTIVE⟩

/-- The plus error variable of the first stay of the example. -/
def ex_sp1 : Variable := ⟨30, VariableType.VARIABLE_SLACK⟩

/-- The minus error variable of the first stay of the example. -/
def ex_sm1 : Variable := ⟨31, VariableType.VARIABLE_SLACK⟩

/-- The plus error variable of the second stay of the example. -/
def ex_sp2 : Variable := ⟨32, VariableType.VARIABLE_SLACK⟩

/-- The minus error variable of the second stay of the example. -/
def ex_sm2 : Variable := ⟨33, VariableType.VARIABLE_SLACK⟩

/-- A tableau with two stays and `needs_solving` set: the rows are
`z = 0 + sm1 + sp2`, `sp1 = 4 + sm1`, `sm2 = 6 + sp2` and `x = 3 + sp2`; of the
first stay the plus error variable is basic, of the second the minus error
variable. -/
def ex_stays : SimplexSolver :=
  { simplex_solver_init 0 with
    columns := [(ex_sm1, [ex_z, ex_sp1]), (ex_sp2, [ex_z, ex_sm2, ex_x])]
    rows := [(ex_z, 1), (ex_sp1, 2), (ex_sm2, 3), (ex_x, 4)]
    external_rows := [(ex_x, 4)]
    stay_plus_error_vars := [ex_sp1, ex_sp2]
    stay_minus_error_vars := [ex_sm1, ex_sm2]
    needs_solving := true
    expressions := [(1, ⟨0, [(ex_sm1, 1), (ex_sp2, 1)]⟩), (2, ⟨4, [(ex_sm1, 1)]⟩),
      (3, ⟨6, [(ex_sp2, 1)]⟩), (4, ⟨3, [(ex_sp2, 1)]⟩)]
    values := [(ex_x, 3)] }

/-- A tableau in which dummy variables compete with slack variables in
`optimize`: `z = 0 - 2·d' - s2`, `d = 1 - s2` and `s3 = 2 - s2`, with `d` and
`d'` the dummies `ex_d` and `ex_nd`.  The dummy `d'` has the most negative
coefficient of the objective row, and the row of the dummy `d` the smallest
ratio in the column of `s2`. -/
def ex_optimize_dummies : SimplexSolver :=
  { simplex_solver_init 0 with
    columns := [(ex_nd, [ex_z]), (ex_s2, [ex_z, ex_d, ex_s3])]
    rows := [(ex_z, 1), (ex_d, 2), (ex_s3, 3)]
    expressions := [(1, ⟨0, [(ex_nd, -2), (ex_s2, -1)]⟩), (2, ⟨1, [(ex_s2, -1)]⟩),
      (3, ⟨2, [(ex_s2, -1)]⟩)] }

/-- A tableau in which a dummy variable competes with a slack variable in
`dual_optimize`: `z = 0 + s2`, `s1 = -5 + d' + s2` and `d = 1 + s4`, with `d`
and `d'` the dummies `ex_d` and `ex_nd` and `s1` filed in `infeasible_rows`.
The ratio of `d'` against the objective row is `0`, that of `s2` is `1`. -/
def ex_dual_dummies : SimplexSolver :=
  { simplex_solver_init 0 with
    columns := [(ex_s2, [ex_z, ex_s1]), (ex_nd, [ex_s1]), (ex_s4, [ex_d])]
    rows := [(ex_z, 1), (ex_s1, 2), (ex_d, 3)]
    infeasible_rows := [ex_s1]
    needs_solving := true
    expressions := [(1, ⟨0, [(ex_s2, 1)]⟩), (2, ⟨-5, [(ex_nd, 1), (ex_s2, 1)]⟩),
      (3, ⟨1, [(ex_s4, 1)]⟩)] }

/-- A tableau with two infeasible rows that each have an entering variable:
`z = 0 + s2 + t1`, `s1 = -5 + s2`, `s3 = 1 - s2`, `s4 = -5 + t1` and
`t2 = 1 - t1`, with `s1` and `s4` filed in `infeasible_rows`, in this order,
and `needs_solving` set.  Pivoting `s2` into the row of `s1` makes the
constant of the row of `s3` negative. -/
def ex_two_infeasible : SimplexSolver :=
  { simplex_solver_init 0 with
    columns := [(ex_s2, [ex_z, ex_s1, ex_s3]), (ex_t1, [ex_z, ex_s4, ex_t2])]
    rows := [(ex_z, 1), (ex_s1, 2), (ex_s3, 3), (ex_s4, 4), (ex_t2, 5)]
    infeasible_rows := [ex_s1, ex_s4]
    needs_solving := true
    expressions := [(1, ⟨0, [(ex_s2, 1), (ex_t1, 1)]⟩), (2, ⟨-5, [(ex_s2, 1)]⟩),
      (3, ⟨1, [(ex_s2, -1)]⟩), (4, ⟨-5, [(ex_t1, 1)]⟩), (5, ⟨1, [(ex_t1, -1)]⟩)] }

/-- The tableau `ex_two_infeasible` with `infeasible_rows` listed as `s4`,
`s1`. -/
def ex_two_infeasible_swapped : SimplexSolver :=
  { ex_two_infeasible with infeasible_rows := [ex_s4, ex_s1] }

/-! ## Tableau invariants -/

/-- Invariant I1, dictionary form: no key of `rows` appears in the terms of
the expression of a row. -/
def dictionary_form (s : SimplexSolver) : Prop :=
  ∀ b ∈ s.rows.map Prod.fst, ∀ a ∈ ht_lookup b s.rows, ∀ e ∈ expr_read s a,
    ∀ t ∈ e.terms, ht_lookup t.1 s.rows = none

/-- Every row of the tableau is an expression object. -/
def rows_live (s : SimplexSolver) : Prop :=
  ∀ b ∈ s.rows.map Prod.fst, ∀ a ∈ ht_lookup b s.rows, (expr_read s a).isSome = true

/-- Invariant I2: a row whose expression mentions `t` is a member of
`columns[t]`. -/
def columns_cover_rows (s : SimplexSolver) : Prop :=
  ∀ b ∈ s.rows.map Prod.fst, ∀ a ∈ ht_lookup b s.rows, ∀ e ∈ expr_read s a,
    ∀ t ∈ e.terms, b ∈ (ht_lookup t.1 s.columns).getD []

/-- The converse of I2: a member of `columns[t]` is a row whose expression
mentions `t`. -/
def columns_within_rows (s : SimplexSolver) : Prop :=
  ∀ t ∈ s.columns.map Prod.fst, ∀ set ∈ ht_lookup t s.columns, ∀ b ∈ set,
    ∃ a ∈ ht_lookup b s.rows, ∃ e ∈ expr_read s a, t ∈ e.terms.map Prod.fst

/-- The table `columns` is a correct inverse index of `rows`. -/
def columns_inverse_of_rows (s : SimplexSolver) : Prop :=
  rows_live s ∧ columns_cover_rows s ∧ columns_within_rows s

instance (s : SimplexSolver) : Decidable (dictionary_form s) := by
  unfold dictionary_form; infer_instance

instance (s : SimplexSolver) : Decidable (rows_live s) := by
  unfold rows_live; infer_instance

instance (s : SimplexSolver) : Decidable (columns_cover_rows s) := by
  unfold columns_cover_rows; infer_instance

instance (s : SimplexSolver) : Decidable (columns_within_rows s) := by
  unfold columns_within_rows; infer_instance

instance (s : SimplexSolver) : Decidable (columns_inverse_of_rows s) := by
  unfold columns_inverse_of_rows; infer_instance

/-- The row an iteration of `substitute_out` leaves in place of `e`, the row
of a member of the column set of `old`, when `ne` is the expression that is
substituted: the source's `expression_substitute_out` removes `old` and adds
`coefficient * constant` to the constant. -/
def substituted (e ne : Expression) (old : Variable) : Expression :=
  ⟨e.constant + expression_get_coefficient e old * ne.constant, ht_remove old e.terms⟩

/-- Distinct rows own distinct expression objects. -/
def rows_own (s : SimplexSolver) : Prop :=
  ∀ v ∈ s.rows.map Prod.fst, ∀ w ∈ s.rows.map Prod.fst, ∀ a ∈ ht_lookup v s.rows,
    ht_lookup w s.rows = some a → v = w

/-- The term table of every expression object has each variable once. -/
def terms_nodup (s : SimplexSolver) : Prop :=
  ∀ a ∈ s.expressions.map Prod.fst, ∀ e ∈ expr_read s a, (e.terms.map Prod.fst).Nodup

/-- Invariant I3: a restricted basic variable whose row has a negative constant
is a member of `infeasible_rows`. -/
def infeasible_tracked (s : SimplexSolver) : Prop :=
  ∀ b ∈ s.rows.map Prod.fst, ∀ a ∈ ht_lookup b s.rows, ∀ e ∈ expr_read s a,
    variable_is_restricted b = true → e.constant < 0 → b ∈ s.infeasible_rows

instance (s : SimplexSolver) : Decidable (rows_own s) := by
  unfold rows_own; infer_instance

instance (s : SimplexSolver) : Decidable (terms_nodup s) := by
  unfold terms_nodup; infer_instance

instance (s : SimplexSolver) : Decidable (infeasible_tracked s) := by
  unfold infeasible_tracked; infer_instance

/-- The ratio `find_ratio` computes for a term with coefficient `cd` whose
variable has coefficient `zc` in the objective row. -/
def find_ratio_value (cd zc : ℚ) : ℚ :=
  if (!approx_val cd 0) = true then zc / cd else 0

/-- The test under which `find_ratio` takes the term of `v`, with ratio `r`,
as the new entry. -/
def find_ratio_takes (data : RatioClosure) (v : Variable) (r : ℚ) : Bool :=
  decide (r < data.ratio) ||
    (approx_val r data.ratio && data.entry.isSome && variable_before v data.entry)

/-! ## Invariants of the selection passes -/

/-- What the first pass of `choose_subject` maintains over the terms whose
variables are among `K`: once `found_unrestricted` is set, `subject` is an
unrestricted variable of `K`, and so is `retval` whenever it is set. -/
def choose_inv (K : List Variable) (data : ChooseClosure) : Prop :=
  (data.found_unrestricted = true →
    ∃ v, data.subject = some v ∧ variable_is_restricted v = false ∧ v ∈ K) ∧
  (∀ v, data.retval = some v → variable_is_restricted v = false ∧ v ∈ K)

/-- The decision an iteration of the loop of `simplex_solver_dual_optimize`
takes for the drained variable `exit_var`, on the solver the removal from
`infeasible_rows` has left: `some (some entry_var)` when the iteration calls
`pivot (entry_var, exit_var)`, `some none` when it leaves the row alone. -/
def dual_optimize_entry (z_row : Option Nat) (solver1 : SimplexSolver) (exit_var : Variable) :
    Option (Option Variable) :=
  match ht_lookup exit_var solver1.rows with
  | none => some none
  | some expr =>
    match expr_read solver1 expr with
    | none => none
    | some e =>
      if expression_get_constant e ≥ 0 then some none
      else
        match find_ratio_foreach solver1 e.terms
            { entry := none, ratio := DBL_MAX, z_row := z_row } with
        | none => none
        | some data =>
          match data.entry with
          | none => some none
          | some entry_var =>
            if !approx_val data.ratio DBL_MAX then some (some entry_var) else some none

/-- The terms `find_ratio` considers: a positive coefficient on a pivotable
variable. -/
def ratio_candidate (t : Variable × ℚ) : Bool :=
  decide (t.2 > 0) && variable_is_pivotable t.1

/-- The ratio `z.coefficient_of(v) / cd` of the term `t = (v, cd)`. -/
def ratio_of (z : Expression) (t : Variable × ℚ) : ℚ :=
  expression_get_coefficient z t.1 / t.2

/-- What `find_ratio` maintains over the terms `seen` so far, against the
objective row `z`: while no entry is held the ratio is `DBL_MAX` and no
candidate seen lies below it; an entry that is held is a candidate seen, the
ratio is its ratio, no candidate seen has a smaller ratio, and none with the
same ratio has a smaller address. -/
def ratio_inv (z : Expression) (seen : List (Variable × ℚ)) (data : RatioClosure) : Prop :=
  (data.entry = none →
    data.ratio = DBL_MAX ∧ ∀ u ∈ seen, ratio_candidate u = true → DBL_MAX ≤ ratio_of z u) ∧
  (∀ v, data.entry = some v →
    ∃ t ∈ seen, ratio_candidate t = true ∧ t.1 = v ∧ ratio_of z t = data.ratio ∧
      ∀ u ∈ seen, ratio_candidate u = true →
        data.ratio ≤ ratio_of z u ∧ (ratio_of z u = data.ratio → v.addr ≤ u.1.addr))

/-- The row `reset_stay_constraints` resets for the stay index `i`: the row of
`stay_plus_error_vars[i]` when that variable is basic, or else the row of
`stay_minus_error_vars[i]` when that one is. -/
def stay_selected (s : SimplexSolver) (i : Nat) : Option Nat :=
  match s.stay_plus_error_vars[i]? with
  | none => none
  | some p =>
    match reset_stay_select s p i with
    | some (some a) => some a
    | _ => none

/-! ## Basic facts -/

theorem dual_optimize_loop_nil (z_row : Option Nat) (fuel : Nat) (s : SimplexSolver)
    (h : s.infeasible_rows = []) : dual_optimize_loop z_row fuel s = some s := by
  cases fuel <;> simp [dual_optimize_loop, h]

/-- With nothing infeasible, nothing stale and no stay recorded, `resolve` only
clears `needs_solving`. -/
theorem resolve_quiet (fuel : Nat) (s : SimplexSolver) (h1 : s.infeasible_rows = [])
    (h2 : s.updated_externals = []) (h3 : s.stay_plus_error_vars = []) :
    simplex_solver_resolve fuel s = some { s with needs_solving := false } := by
  unfold simplex_solver_resolve
  cases hn : s.needs_solving
  · cases s; simp_all
  · simp [simplex_solver_dual_optimize, dual_optimize_loop_nil _ _ _ h1,
      simplex_solver_set_external_variables, h2, set_external_loop,
      simplex_solver_reset_stay_constraints, h3, reset_stay_loop]
    cases s; simp_all

/-- The value `resolve` leaves in a solver it returns: `needs_solving` is
clear. -/
theorem resolve_needs_solving (fuel : Nat) (s s' : SimplexSolver)
    (h : simplex_solver_resolve fuel s = some s') : s'.needs_solving = false := by
  unfold simplex_solver_resolve at h
  cases hn : s.needs_solving
  · simp [hn] at h; subst h; exact hn
  · simp only [hn, Bool.not_true, Bool.false_eq_true, if_false] at h
    split at h
    · exact absurd h (by simp)
    · split at h
      · exact absurd h (by simp)
      · split at h
        · exact absurd h (by simp)
        · simp at h; subst h; rfl

/-! ## Facts about tables -/

section TableFacts

variable {α β : Type} [DecidableEq α]

theorem ht_lookup_insert (k k' : α) (v : β) (l : List (α × β)) :
    ht_lookup k (ht_insert k' v l) = if k' = k then some v else ht_lookup k l := by
  induction l with
  | nil => simp [ht_insert, ht_lookup]
  | cons p t ih =>
    obtain ⟨k1, v1⟩ := p
    by_cases h1 : k1 = k'
    · subst h1
      by_cases h2 : k1 = k <;> simp [ht_insert, ht_lookup, h2]
    · by_cases h2 : k1 = k
      · subst h2
        have h3 : ¬ k' = k1 := fun h => h1 h.symm
        simp [ht_insert, ht_lookup, h1, h3]
      · simp [ht_insert, ht_lookup, h1, h2, ih]

theorem ht_lookup_insert_self (k : α) (v : β) (l : List (α × β)) :
    ht_lookup k (ht_insert k v l) = some v := by
  simp [ht_lookup_insert]

theorem ht_lookup_insert_ne (k k' : α) (v : β) (l : List (α × β)) (h : k' ≠ k) :
    ht_lookup k (ht_insert k' v l) = ht_lookup k l := by
  simp [ht_lookup_insert, h]

theorem ht_lookup_remove (k k' : α) (l : List (α × β)) :
    ht_lookup k (ht_remove k' l) = if k = k' then none else ht_lookup k l := by
  induction l with
  | nil => simp [ht_remove, ht_lookup]
  | cons p t ih =>
    obtain ⟨k1, v1⟩ := p
    unfold ht_remove at ih ⊢
    by_cases h1 : k1 = k'
    · subst h1
      by_cases h2 : k = k1
      · subst h2; simpa [List.filter, ht_lookup] using ih
      · have h3 : ¬ k1 = k := fun h => h2 h.symm
        simpa [List.filter, ht_lookup, h2, h3] using ih
    · by_cases h2 : k1 = k
      · subst h2
        simp [List.filter, ht_lookup, h1]
      · simp only [List.filter, ne_eq, h1, not_false_eq_true, decide_True, ht_lookup, h2,
          if_false]
        exact ih

theorem ht_lookup_mem (k : α) (v : β) (l : List (α × β)) (h : ht_lookup k l = some v) :
    (k, v) ∈ l := by
  induction l with
  | nil => simp [ht_lookup] at h
  | cons p t ih =>
    obtain ⟨k1, v1⟩ := p
    by_cases h1 : k1 = k
    · subst h1; simp [ht_lookup] at h; subst h; simp
    · simp [ht_lookup, h1] at h; exact List.mem_cons_of_mem _ (ih h)

theorem ht_lookup_none_iff (k : α) (l : List (α × β)) :
    ht_lookup k l = none ↔ k ∉ l.map Prod.fst := by
  induction l with
  | nil => simp [ht_lookup]
  | cons p t ih =>
    obtain ⟨k1, v1⟩ := p
    by_cases h1 : k1 = k
    · subst h1; simp [ht_lookup]
    · have h2 : ¬ k = k1 := fun h => h1 h.symm
      simp [ht_lookup, h1, h2, ih]

theorem mem_ht_insert (p : α × β) (k : α) (v : β) (l : List (α × β))
    (h : p ∈ ht_insert k v l) : p = (k, v) ∨ p ∈ l := by
  induction l with
  | nil => simpa [ht_insert] using h
  | cons q t ih =>
    obtain ⟨k1, v1⟩ := q
    by_cases h1 : k1 = k
    · simp only [ht_insert, h1, if_true, List.mem_cons] at h
      rcases h with h | h
      · exact Or.inl h
      · exact Or.inr (List.mem_cons_of_mem _ h)
    · simp only [ht_insert, h1, if_false, List.mem_cons] at h
      rcases h with h | h
      · exact Or.inr (by simp [h])
      · rcases ih h with h | h
        · exact Or.inl h
        · exact Or.inr (List.mem_cons_of_mem _ h)

theorem ht_insert_keys (k k' : α) (v : β) (l : List (α × β)) :
    k ∈ (ht_insert k' v l).map Prod.fst ↔ k = k' ∨ k ∈ l.map Prod.fst := by
  have h1 := ht_lookup_none_iff k (ht_insert k' v l)
  have h2 := ht_lookup_none_iff k l
  rw [ht_lookup_insert] at h1
  by_cases h : k' = k
  · subst h
    simp only [if_true] at h1
    have : k' ∈ (ht_insert k' v l).map Prod.fst := by
      by_contra hn; exact absurd (h1.mpr hn) (by simp)
    simp [this]
  · have h' : ¬ k = k' := fun e => h e.symm
    simp only [h, if_false] at h1
    simp only [h', false_or]
    rw [← not_iff_not, ← h1, ← h2]

theorem ht_remove_keys (k k' : α) (l : List (α × β)) :
    k ∈ (ht_remove k' l).map Prod.fst ↔ k ≠ k' ∧ k ∈ l.map Prod.fst := by
  simp only [ht_remove, List.mem_map, List.mem_filter, decide_eq_true_eq]
  constructor
  · rintro ⟨p, ⟨hp, hne⟩, rfl⟩; exact ⟨hne, p, hp, rfl⟩
  · rintro ⟨hne, p, hp, rfl⟩; exact ⟨p, ⟨hp, hne⟩, rfl⟩

theorem mem_set_add (x k : α) (s : List α) : x ∈ set_add k s ↔ x = k ∨ x ∈ s := by
  unfold set_add
  split
  · rename_i h
    constructor
    · exact Or.inr
    · rintro (rfl | h') <;> assumption
  · simp [or_comm]

theorem mem_set_remove (x k : α) (s : List α) : x ∈ set_remove k s ↔ x ≠ k ∧ x ∈ s := by
  simp [set_remove, and_comm]

end TableFacts

/-- A decidable observation that evaluates to true on the result of a
computation holds of that result. -/
theorem option_obs {α : Type} (o : Option α) (P : α → Prop) [DecidablePred P]
    (h : o.map (fun a => decide (P a)) = some true) : ∃ a, o = some a ∧ P a := by
  cases o with
  | none => simp at h
  | some a => exact ⟨a, rfl, by simpa using h⟩

/-! ## Facts about the expression store -/

@[simp] theorem expr_read_write (s : SimplexSolver) (a b : Nat) (e : Expression) :
    expr_read (expr_write s a e) b = if a = b then some e else expr_read s b := by
  simp [expr_read, expr_write, ht_lookup_insert]

theorem expr_modify_some (s s' : SimplexSolver) (a : Nat) (f : Expression → Expression)
    (h : expr_modify s a f = some s') :
    ∃ e, expr_read s a = some e ∧ s' = expr_write s a (f e) := by
  unfold expr_modify at h
  split at h
  · simp at h
  · rename_i e he; exact ⟨e, he, by simpa using h.symm⟩

/-! ## Facts about `choose_subject` -/

/-- While `find_subject_dummy` has recorded no subject, the recorded
coefficient is still `0`. -/
theorem find_subject_dummy_coefficient (solver : SimplexSolver) (terms : List (Variable × ℚ))
    (data : ChooseClosure) (h : data.subject = none → data.coefficient = 0) :
    (terms.foldl (find_subject_dummy solver) data).subject = none →
      (terms.foldl (find_subject_dummy solver) data).coefficient = 0 := by
  induction terms generalizing data with
  | nil => simpa using h
  | cons t ts ih =>
    simp only [List.foldl_cons]
    apply ih
    simp only [find_subject_dummy]
    split_ifs
    · simpa using h
    · simp
    · exact h

/-! ## Facts about `set_external_variables` and `reset_stay_constraints` -/

theorem variable_get_value_set (s : SimplexSolver) (v w : Variable) (x : ℚ) :
    variable_get_value (variable_set_value s v x) w =
      if v = w then x else variable_get_value s w := by
  unfold variable_get_value variable_set_value
  simp only [ht_lookup_insert]
  split <;> simp

/-- When every visited variable has an external row, the loop of
`set_external_variables` runs to its end: it only rewrites `values`, empties
`updated_externals` and clears `needs_solving`; each visited variable ends up
with the constant of its external row, every other value is kept. -/
theorem set_external_loop_spec (l : List Variable) (s s2 : SimplexSolver)
    (hrow : ∀ v ∈ l, (ht_lookup v s.external_rows).isSome = true)
    (h : set_external_loop l s = some s2) :
    (∃ vals, s2 = { s with values := vals, updated_externals := [], needs_solving := false }) ∧
    (∀ v ∈ l, ∀ a, ht_lookup v s.external_rows = some a →
      ∃ e, expr_read s a = some e ∧ variable_get_value s2 v = e.constant) ∧
    (∀ v, v ∉ l → variable_get_value s2 v = variable_get_value s v) := by
  induction l generalizing s with
  | nil =>
    simp only [set_external_loop, Option.some.injEq] at h
    subst h
    exact ⟨⟨s.values, rfl⟩, by simp, by intro v _; rfl⟩
  | cons v rest ih =>
    have hv := hrow v (List.mem_cons_self _ _)
    cases ha : ht_lookup v s.external_rows with
    | none => simp [ha] at hv
    | some a =>
      simp only [set_external_loop, ha] at h
      cases he : expr_read s a with
      | none => simp [he] at h
      | some e =>
        simp only [he] at h
        have hrest : ∀ w ∈ rest, (ht_lookup w
            (variable_set_value s v (expression_get_constant e)).external_rows).isSome
            = true := fun w hw => hrow w (List.mem_cons_of_mem _ hw)
        obtain ⟨⟨vals, hs2⟩, hin, hout⟩ := ih _ hrest h
        refine ⟨⟨vals, ?_⟩, ?_, ?_⟩
        · rw [hs2]; simp [variable_set_value]
        · intro w hw b hb
          by_cases hwr : w ∈ rest
          · exact hin w hwr b hb
          · have hwv : w = v := by
              rcases List.mem_cons.mp hw with h1 | h1
              · exact h1
              · exact absurd h1 hwr
            subst hwv
            rw [ha] at hb
            simp only [Option.some.injEq] at hb
            subst hb
            refine ⟨e, he, ?_⟩
            rw [hout w hwr, variable_get_value_set]
            simp [expression_get_constant]
        · intro w hw
          have h1 : w ≠ v := fun e => hw (e ▸ List.mem_cons_self _ _)
          have h2 : w ∉ rest := fun e => hw (List.mem_cons_of_mem _ e)
          rw [hout w h2, variable_get_value_set]
          simp [Ne.symm h1]

/-- The loop of `reset_stay_constraints` only rewrites expression objects:
an object is touched only if it is the row of a stay error variable, its terms
are kept, and its constant is kept or becomes `0`. -/
theorem reset_stay_loop_spec (plus : List Variable) (i : Nat) (s s3 : SimplexSolver)
    (h : reset_stay_loop plus i s = some s3) :
    (∃ exprs, s3 = { s with expressions := exprs }) ∧
    (∀ a, (∀ sv ∈ plus ++ s.stay_minus_error_vars, ht_lookup sv s.rows ≠ some a) →
      expr_read s3 a = expr_read s a) ∧
    (∀ a e3, expr_read s3 a = some e3 →
      ∃ e, expr_read s a = some e ∧ e3.terms = e.terms ∧
        (e3.constant = e.constant ∨ e3.constant = 0)) ∧
    (∀ a, (expr_read s a).isSome = true → (expr_read s3 a).isSome = true) := by
  induction plus generalizing i s with
  | nil =>
    simp only [reset_stay_loop, Option.some.injEq] at h
    subst h
    exact ⟨⟨s.expressions, rfl⟩, fun _ _ => rfl, fun a e3 he => ⟨e3, he, rfl, Or.inl rfl⟩,
      fun a ha => ha⟩
  | cons v plus ih =>
    simp only [reset_stay_loop] at h
    cases hx : reset_stay_select s v i with
    | none => simp [hx] at h
    | some expression =>
      cases expression with
      | none =>
        simp only [hx] at h
        exact ⟨(ih _ _ h).1, fun a ha => (ih _ _ h).2.1 a
          (fun sv hsv => ha sv (by
            rcases List.mem_append.mp hsv with h1 | h1
            · exact List.mem_append.mpr (Or.inl (List.mem_cons_of_mem _ h1))
            · exact List.mem_append.mpr (Or.inr h1))), (ih _ _ h).2.2.1, (ih _ _ h).2.2.2⟩
      | some a0 =>
        simp only [hx] at h
        cases hm : expr_modify s a0 (fun e => expression_set_constant e 0) with
        | none => simp [hm] at h
        | some s1 =>
          simp only [hm] at h
          obtain ⟨e0, he0, hs1⟩ := expr_modify_some _ _ _ _ hm
          obtain ⟨⟨exprs, hs3⟩, hframe, hshape, hlive⟩ := ih _ _ h
          have hrows : s1.rows = s.rows := by rw [hs1]; rfl
          have hminus : s1.stay_minus_error_vars = s.stay_minus_error_vars := by rw [hs1]; rfl
          -- the selected address is the row of a stay error variable
          have ha0 : ∃ sv ∈ (v :: plus) ++ s.stay_minus_error_vars,
              ht_lookup sv s.rows = some a0 := by
            unfold reset_stay_select at hx
            cases hv : ht_lookup v s.rows with
            | some a1 =>
              simp only [hv, Option.some.injEq] at hx
              exact ⟨v, by simp, by rw [hv, hx]⟩
            | none =>
              simp only [hv] at hx
              cases hg : s.stay_minus_error_vars[i]? with
              | none => simp [hg] at hx
              | some var1 =>
                simp only [hg, Option.some.injEq] at hx
                exact ⟨var1, List.mem_append.mpr (Or.inr (List.getElem?_mem hg)), hx⟩
          refine ⟨⟨exprs, ?_⟩, ?_, ?_, ?_⟩
          rotate_left 3
          · intro a ha
            apply hlive a
            rw [hs1, expr_read_write]
            by_cases haa : a0 = a
            · simp [haa]
            · simp only [haa, if_false]; exact ha
          · rw [hs3, hs1]; simp [expr_write]
          · intro a ha
            rw [hframe a (fun sv hsv => by
              rw [hrows]
              rw [hminus] at hsv
              exact ha sv (by
                rcases List.mem_append.mp hsv with h1 | h1
                · exact List.mem_append.mpr (Or.inl (List.mem_cons_of_mem _ h1))
                · exact List.mem_append.mpr (Or.inr h1))), hs1, expr_read_write]
            have : a0 ≠ a := by
              rintro rfl
              obtain ⟨sv, hsv, hl⟩ := ha0
              exact ha sv hsv hl
            simp [this]
          · intro a e3 he3
            obtain ⟨e1, he1, ht, hc⟩ := hshape a e3 he3
            rw [hs1, expr_read_write] at he1
            by_cases haa : a0 = a
            · subst haa
              simp only [if_true, Option.some.injEq] at he1
              subst he1
              refine ⟨e0, he0, by rw [ht]; rfl, Or.inr ?_⟩
              rcases hc with hc | hc
              · rw [hc]; rfl
              · exact hc
            · simp only [haa, if_false] at he1
              exact ⟨e1, he1, ht, hc⟩

/-- The loop of `set_external_variables` changes nothing but `values`,
`updated_externals` and `needs_solving`, whether or not it runs to its end. -/
theorem set_external_loop_frame (l : List Variable) (s s2 : SimplexSolver)
    (h : set_external_loop l s = some s2) :
    ∃ vals upd ns, s2 = { s with values := vals, updated_externals := upd,
                                 needs_solving := ns } := by
  induction l generalizing s with
  | nil =>
    simp only [set_external_loop, Option.some.injEq] at h
    exact ⟨_, _, _, h.symm⟩
  | cons v rest ih =>
    simp only [set_external_loop] at h
    cases ha : ht_lookup v s.external_rows with
    | none =>
      simp only [ha, Option.some.injEq] at h
      exact ⟨_, s.updated_externals, s.needs_solving, by rw [← h]; rfl⟩
    | some a =>
      simp only [ha] at h
      cases he : expr_read s a with
      | none => simp [he] at h
      | some e =>
        simp only [he] at h
        obtain ⟨vals, upd, ns, hs2⟩ := ih _ h
        exact ⟨vals, upd, ns, by rw [hs2]; rfl⟩

/-! ## Facts about the invariants and the expression algebra -/

theorem ht_lookup_key_mem {α β : Type} [DecidableEq α] (k : α) (v : β) (l : List (α × β))
    (h : ht_lookup k l = some v) : k ∈ l.map Prod.fst :=
  List.mem_map.mpr ⟨(k, v), ht_lookup_mem k v l h, rfl⟩

theorem dictionary_form_iff (s : SimplexSolver) :
    dictionary_form s ↔ ∀ b a e t, ht_lookup b s.rows = some a → expr_read s a = some e →
      t ∈ e.terms → ht_lookup t.1 s.rows = none := by
  constructor
  · intro h b a e t hb ha ht
    exact h b (ht_lookup_key_mem b a _ hb) a hb e ha t ht
  · intro h b _ a hb e ha t ht
    exact h b a e t hb ha ht

theorem rows_live_iff (s : SimplexSolver) :
    rows_live s ↔ ∀ b a, ht_lookup b s.rows = some a → ∃ e, expr_read s a = some e := by
  constructor
  · intro h b a hb
    exact Option.isSome_iff_exists.mp (h b (ht_lookup_key_mem b a _ hb) a hb)
  · intro h b _ a hb
    exact Option.isSome_iff_exists.mpr (h b a hb)

theorem columns_cover_rows_iff (s : SimplexSolver) :
    columns_cover_rows s ↔ ∀ b a e t, ht_lookup b s.rows = some a → expr_read s a = some e →
      t ∈ e.terms → ∃ set, ht_lookup t.1 s.columns = some set ∧ b ∈ set := by
  constructor
  · intro h b a e t hb ha ht
    have := h b (ht_lookup_key_mem b a _ hb) a hb e ha t ht
    cases hc : ht_lookup t.1 s.columns with
    | none => simp [hc] at this
    | some set => exact ⟨set, rfl, by simpa [hc] using this⟩
  · intro h b _ a hb e ha t ht
    obtain ⟨set, hs, hm⟩ := h b a e t hb ha ht
    simpa [hs] using hm

theorem columns_within_rows_iff (s : SimplexSolver) :
    columns_within_rows s ↔ ∀ t set b, ht_lookup t s.columns = some set → b ∈ set →
      ∃ a e, ht_lookup b s.rows = some a ∧ expr_read s a = some e ∧
        t ∈ e.terms.map Prod.fst := by
  constructor
  · intro h t set b ht hb
    obtain ⟨a, ha, e, he, hm⟩ := h t (ht_lookup_key_mem t set _ ht) set ht b hb
    exact ⟨a, e, ha, he, hm⟩
  · intro h t _ set ht b hb
    obtain ⟨a, e, ha, he, hm⟩ := h t set b ht hb
    exact ⟨a, ha, e, he, hm⟩

theorem mem_ht_remove {α β : Type} [DecidableEq α] (p : α × β) (k : α) (l : List (α × β)) :
    p ∈ ht_remove k l ↔ p ∈ l ∧ p.1 ≠ k := by
  simp [ht_remove]

theorem coefficient_ne_zero_mem (e : Expression) (v : Variable)
    (h : expression_get_coefficient e v ≠ 0) : v ∈ e.terms.map Prod.fst := by
  unfold expression_get_coefficient at h
  cases hl : ht_lookup v e.terms with
  | none => simp [hl] at h
  | some c => exact ht_lookup_key_mem v c _ hl

theorem mem_terms_times (e : Expression) (f : ℚ) (t : Variable × ℚ)
    (h : t ∈ (expression_times e f).terms) : t.1 ∈ e.terms.map Prod.fst := by
  unfold expression_times at h
  split at h
  · simp at h
  · simp only [List.mem_map] at h
    obtain ⟨t0, ht0, rfl⟩ := h
    exact List.mem_map.mpr ⟨t0, ht0, rfl⟩

theorem mem_terms_set_variable (e : Expression) (v : Variable) (c : ℚ) (t : Variable × ℚ)
    (h : t ∈ (expression_set_variable e v c).terms) : t.1 = v ∨ t ∈ e.terms := by
  unfold expression_set_variable at h
  split at h
  · exact Or.inr ((mem_ht_remove t v e.terms).mp h).1
  · rcases mem_ht_insert t v c e.terms h with h1 | h1
    · exact Or.inl (by rw [h1])
    · exact Or.inr h1

/-- The terms of a row after `change_subject`: the new subject is gone, and
every variable is the old subject or was a term before. -/
theorem mem_terms_change_subject (e : Expression) (old_subject new_subject : Variable)
    (t : Variable × ℚ) (h : t ∈ (expression_change_subject e old_subject new_subject).terms) :
    t.1 ≠ new_subject ∧ (t.1 = old_subject ∨ t.1 ∈ e.terms.map Prod.fst) := by
  unfold expression_change_subject expression_remove_variable at h
  simp only at h
  obtain ⟨h1, h2⟩ := (mem_ht_remove t new_subject _).mp h
  refine ⟨h2, ?_⟩
  rcases mem_terms_set_variable _ _ _ _ h1 with h3 | h3
  · exact Or.inl h3
  · exact Or.inr (mem_terms_times _ _ _ h3)

/-! ## Facts about `add_row` and `remove_row` -/

theorem set_remove_idem {α : Type} [DecidableEq α] (k : α) (s : List α) :
    set_remove k (set_remove k s) = set_remove k s := by
  simp [set_remove, List.filter_filter]

theorem remove_expression_columns_eq (exit : Variable) (s : SimplexSolver)
    (t0 : Variable × ℚ) :
    (∃ C, remove_expression_columns exit s t0 = { s with columns := C }) ∧
    ∀ t, ht_lookup t (remove_expression_columns exit s t0).columns =
      if t0.1 = t then (ht_lookup t s.columns).map (set_remove exit)
      else ht_lookup t s.columns := by
  unfold remove_expression_columns
  cases h : ht_lookup t0.1 s.columns with
  | none =>
    refine ⟨⟨s.columns, rfl⟩, fun t => ?_⟩
    by_cases ht : t0.1 = t
    · subst ht; simp [h]
    · simp [ht]
  | some row_set =>
    refine ⟨⟨_, rfl⟩, fun t => ?_⟩
    simp only [ht_lookup_insert]
    by_cases ht : t0.1 = t
    · subst ht; simp [h]
    · simp [ht]

/-- The columns after the loop of `remove_row`: the row is taken out of the
column set of each of its terms. -/
theorem remove_columns_fold (exit : Variable) (ts : List (Variable × ℚ)) (s : SimplexSolver) :
    (∃ C, ts.foldl (remove_expression_columns exit) s = { s with columns := C }) ∧
    ∀ t, ht_lookup t (ts.foldl (remove_expression_columns exit) s).columns =
      if t ∈ ts.map Prod.fst then (ht_lookup t s.columns).map (set_remove exit)
      else ht_lookup t s.columns := by
  induction ts generalizing s with
  | nil => exact ⟨⟨s.columns, rfl⟩, fun t => by simp⟩
  | cons t0 ts ih =>
    obtain ⟨⟨C1, hC1⟩, hl1⟩ := remove_expression_columns_eq exit s t0
    obtain ⟨⟨C2, hC2⟩, hl2⟩ := ih (remove_expression_columns exit s t0)
    simp only [List.foldl_cons]
    refine ⟨⟨C2, ?_⟩, fun t => ?_⟩
    · rw [hC2, hC1]
    · rw [hl2 t, hl1 t]
      by_cases h1 : t0.1 = t
      · subst h1
        by_cases h2 : t0.1 ∈ ts.map Prod.fst
        · simp only [h2, if_true, List.map_cons, List.mem_cons, true_or]
          cases ht_lookup t0.1 s.columns with
          | none => rfl
          | some set => simp [set_remove_idem]
        · simp [h2]
      · have h1' : ¬ t = t0.1 := fun e => h1 e.symm
        by_cases h2 : t ∈ ts.map Prod.fst
        · simp [h1, h2]
        · have h2' : ¬ ∃ x, (t, x) ∈ ts := by
            rintro ⟨x, hx⟩; exact h2 (List.mem_map.mpr ⟨(t, x), hx, rfl⟩)
          simp [h1, h1', h2']

theorem insert_column_variable_eq (s : SimplexSolver) (param_var rv : Variable) :
    (∃ C, simplex_solver_insert_column_variable s param_var (some rv) =
      { s with columns := C }) ∧
    ∀ t, ht_lookup t (simplex_solver_insert_column_variable s param_var (some rv)).columns =
      if param_var = t then some (set_add rv ((ht_lookup param_var s.columns).getD []))
      else ht_lookup t s.columns := by
  unfold simplex_solver_insert_column_variable simplex_solver_get_column_set
  cases h : ht_lookup param_var s.columns with
  | none =>
    refine ⟨⟨_, rfl⟩, fun t => ?_⟩
    simp only [ht_lookup_insert]
    by_cases ht : param_var = t <;> simp [ht]
  | some set =>
    refine ⟨⟨_, rfl⟩, fun t => ?_⟩
    simp only [ht_lookup_insert, h]

/-- The columns after the loop of `add_row`: the row is filed under each of
its terms, and nothing else changes. -/
theorem insert_columns_fold (var : Variable) (ts : List (Variable × ℚ)) (s : SimplexSolver) :
    (∃ C, ts.foldl (insert_expression_columns var) s = { s with columns := C }) ∧
    ∀ t, ht_lookup t (ts.foldl (insert_expression_columns var) s).columns =
      if t ∈ ts.map Prod.fst then some (set_add var ((ht_lookup t s.columns).getD []))
      else ht_lookup t s.columns := by
  induction ts generalizing s with
  | nil => exact ⟨⟨s.columns, rfl⟩, fun t => by simp⟩
  | cons t0 ts ih =>
    obtain ⟨⟨C1, hC1⟩, hl1⟩ := insert_column_variable_eq s t0.1 var
    obtain ⟨⟨C2, hC2⟩, hl2⟩ := ih (insert_expression_columns var s t0)
    simp only [List.foldl_cons]
    refine ⟨⟨C2, ?_⟩, fun t => ?_⟩
    · rw [hC2]; unfold insert_expression_columns; rw [hC1]
    · rw [hl2 t]
      unfold insert_expression_columns
      rw [hl1 t]
      by_cases h1 : t0.1 = t
      · subst h1
        by_cases h2 : t0.1 ∈ ts.map Prod.fst
        · simp only [h2, if_true, List.map_cons, List.mem_cons, true_or, Option.getD_some]
          congr 1
          unfold set_add
          by_cases h3 : var ∈ (ht_lookup t0.1 s.columns).getD []
          · simp [h3]
          · simp [h3]
        · simp [h2]
      · have h1' : ¬ t = t0.1 := fun e => h1 e.symm
        by_cases h2 : t ∈ ts.map Prod.fst
        · simp [h1, h2]
        · have h2' : ¬ ∃ x, (t, x) ∈ ts := by
            rintro ⟨x, hx⟩; exact h2 (List.mem_map.mpr ⟨(t, x), hx, rfl⟩)
          simp [h1, h1', h2']

/-- The effect of `remove_row` on a basic variable with a live row. -/
theorem remove_row_eq (s : SimplexSolver) (var : Variable) (a : Nat) (e : Expression)
    (ha : ht_lookup var s.rows = some a) (he : expr_read s a = some e) :
    ∃ s1 C, simplex_solver_remove_row s var = some (a, s1) ∧
      s1 = { s with
             columns := C
             infeasible_rows := set_remove var s.infeasible_rows
             external_rows := if variable_is_external var = true then
               ht_remove var s.external_rows else s.external_rows
             rows := ht_remove var s.rows } ∧
      ∀ t, ht_lookup t C =
        if t ∈ e.terms.map Prod.fst then (ht_lookup t s.columns).map (set_remove var)
        else ht_lookup t s.columns := by
  obtain ⟨⟨C, hC⟩, hl⟩ := remove_columns_fold var e.terms s
  refine ⟨_, C, ?_, rfl, ?_⟩
  · unfold simplex_solver_remove_row
    simp only [ha, he, hC]
    by_cases hx : variable_is_external var = true <;> simp [hx]
  · intro t; rw [← hl t, hC]

/-- The effect of `add_row` with a live expression. -/
theorem add_row_eq (s : SimplexSolver) (var : Variable) (a : Nat) (e : Expression)
    (he : expr_read s a = some e) :
    ∃ s1 C, simplex_solver_add_row s var a = some s1 ∧
      s1 = { s with
             columns := C
             rows := ht_insert var a s.rows
             external_rows := if variable_is_external var = true then
               ht_insert var a s.external_rows else s.external_rows } ∧
      ∀ t, ht_lookup t C =
        if t ∈ e.terms.map Prod.fst then some (set_add var ((ht_lookup t s.columns).getD []))
        else ht_lookup t s.columns := by
  obtain ⟨⟨C, hC⟩, hl⟩ := insert_columns_fold var e.terms
    { s with rows := ht_insert var a s.rows }
  refine ⟨_, C, ?_, rfl, ?_⟩
  · unfold simplex_solver_add_row
    have he' : expr_read { s with rows := ht_insert var a s.rows } a = some e := he
    simp only [he', hC]
    by_cases hx : variable_is_external var = true <;> simp [hx]
  · intro t; rw [← hl t, hC]

/-! ## Facts about `substitute_out` -/

theorem ht_insert_insert {α β : Type} [DecidableEq α] (k : α) (v w : β) (l : List (α × β)) :
    ht_insert k w (ht_insert k v l) = ht_insert k w l := by
  induction l with
  | nil => simp [ht_insert]
  | cons p t ih =>
    obtain ⟨k1, v1⟩ := p
    by_cases h : k1 = k
    · simp [ht_insert, h]
    · simp [ht_insert, h, ih]

theorem ht_remove_idem {α β : Type} [DecidableEq α] (k : α) (l : List (α × β)) :
    ht_remove k (ht_remove k l) = ht_remove k l := by
  simp [ht_remove, List.filter_filter]

theorem ht_remove_absent {α β : Type} [DecidableEq α] (k : α) (l : List (α × β))
    (h : k ∉ l.map Prod.fst) : ht_remove k l = l := by
  unfold ht_remove
  rw [List.filter_eq_self]
  intro p hp
  have : p.1 ≠ k := fun e => h (List.mem_map.mpr ⟨p, hp, e⟩)
  simpa using this

theorem ht_remove_not_mem {α β : Type} [DecidableEq α] (k : α) (l : List (α × β)) :
    k ∉ (ht_remove k l).map Prod.fst := by
  intro h
  exact ((ht_remove_keys k k l).mp h).1 rfl

theorem coefficient_absent (e : Expression) (v : Variable) (h : v ∉ e.terms.map Prod.fst) :
    expression_get_coefficient e v = 0 := by
  unfold expression_get_coefficient
  rw [(ht_lookup_none_iff v e.terms).mpr h]
  rfl

theorem expr_write_write (s : SimplexSolver) (a : Nat) (e1 e2 : Expression) :
    expr_write (expr_write s a e1) a e2 = expr_write s a e2 := by
  simp [expr_write, ht_insert_insert]

/-- The effect of the source's `expression_substitute_out` on live objects:
the variable is removed and the constant moves by `coefficient * constant`. -/
theorem expression_substitute_out_eq (s : SimplexSolver) (a b : Nat) (old : Variable)
    (e ne : Expression) (he : expr_read s a = some e) (hne : expr_read s b = some ne) :
    expression_substitute_out s a old b =
      some (expr_write s a
        ⟨e.constant + expression_get_coefficient e old * ne.constant,
         ht_remove old e.terms⟩) := by
  unfold expression_substitute_out
  simp only [he, expr_read_write, if_true]
  by_cases hab : a = b
  · subst hab
    rw [he] at hne
    simp only [Option.some.injEq] at hne
    subst hne
    simp [expression_remove_variable, expr_write_write]
  · simp [hab, hne, expression_remove_variable, expr_write_write]

/-- An object without a term in `old` is not changed by the substitution. -/
theorem expression_substitute_out_absent (s : SimplexSolver) (a b : Nat) (old : Variable)
    (e ne : Expression) (he : expr_read s a = some e) (hne : expr_read s b = some ne)
    (hold : old ∉ e.terms.map Prod.fst) :
    ∃ s1, expression_substitute_out s a old b = some s1 ∧
      ∀ c, expr_read s1 c = expr_read s c := by
  refine ⟨_, expression_substitute_out_eq s a b old e ne he hne, fun c => ?_⟩
  rw [expr_read_write]
  by_cases hac : a = c
  · subst hac
    rw [coefficient_absent e old hold, ht_remove_absent old e.terms hold, he]
    simp
  · simp [hac]

/-- An iteration of `substitute_out` that returns has rewritten the row of
`var` and filed `var` as stale (if external) and infeasible (if restricted
with a negative constant). -/
theorem substitute_out_body_inv (old : Variable) (b : Nat) (s sB : SimplexSolver)
    (var : Variable) (h : substitute_out_body old b s var = some sB) :
    ∃ av e ne, ht_lookup var s.rows = some av ∧ expr_read s av = some e ∧
      expr_read s b = some ne ∧
      sB = { s with
             expressions := ht_insert av (substituted e ne old) s.expressions
             updated_externals := if variable_is_external var = true then
               set_add var s.updated_externals else s.updated_externals
             infeasible_rows := if (variable_is_restricted var &&
                 decide ((substituted e ne old).constant < 0)) = true then
               set_add var s.infeasible_rows else s.infeasible_rows } := by
  unfold substitute_out_body at h
  cases hav : ht_lookup var s.rows with
  | none => simp [hav] at h
  | some av =>
    simp only [hav] at h
    cases he : expr_read s av with
    | none => simp [expression_substitute_out, he] at h
    | some e =>
      cases hne : expr_read s b with
      | none =>
        exfalso
        unfold expression_substitute_out at h
        simp only [he, expr_read_write, if_true] at h
        by_cases hab : av = b
        · subst hab; rw [he] at hne; simp at hne
        · simp [hab, hne] at h
      | some ne =>
        refine ⟨av, e, ne, rfl, he, rfl, ?_⟩
        rw [expression_substitute_out_eq s av b old e ne he hne] at h
        simp only at h
        by_cases hx : variable_is_external var = true
        · simp only [hx, if_true] at h ⊢
          have hr : expr_read { (expr_write s av
              ⟨e.constant + expression_get_coefficient e old * ne.constant,
                ht_remove old e.terms⟩) with
              updated_externals := set_add var (expr_write s av
                ⟨e.constant + expression_get_coefficient e old * ne.constant,
                  ht_remove old e.terms⟩).updated_externals } av
              = some (substituted e ne old) := by
            simp [expr_read, expr_write, ht_lookup_insert, substituted]
          rw [hr] at h
          simp only [expression_get_constant] at h
          split at h
          · rename_i hc
            simp only [Option.some.injEq] at h
            rw [← h, hc]; simp [expr_write, substituted]
          · rename_i hc
            simp only [Option.some.injEq] at h
            have hc' : (variable_is_restricted var &&
                decide ((substituted e ne old).constant < 0)) = false := by
              simpa using hc
            rw [← h, hc']; simp [expr_write, substituted]
        · simp only [hx, if_false] at h ⊢
          have hr : expr_read (expr_write s av
              ⟨e.constant + expression_get_coefficient e old * ne.constant,
                ht_remove old e.terms⟩) av = some (substituted e ne old) := by
            simp [substituted]
          simp only [Bool.false_eq_true, if_false] at h
          rw [hr] at h
          simp only [expression_get_constant] at h
          split at h
          · rename_i hc
            simp only [Option.some.injEq] at h
            rw [← h, hc]; simp [expr_write, substituted]
          · rename_i hc
            simp only [Option.some.injEq] at h
            have hc' : (variable_is_restricted var &&
                decide ((substituted e ne old).constant < 0)) = false := by
              simpa using hc
            rw [← h, hc']; simp [expr_write, substituted]

theorem substituted_absent (e ne : Expression) (old : Variable)
    (h : old ∉ e.terms.map Prod.fst) : substituted e ne old = e := by
  unfold substituted
  rw [coefficient_absent e old h, ht_remove_absent old e.terms h]
  simp

theorem substitute_out_body_some (old : Variable) (b : Nat) (s : SimplexSolver)
    (var : Variable) (av : Nat) (e ne : Expression)
    (hav : ht_lookup var s.rows = some av) (he : expr_read s av = some e)
    (hne : expr_read s b = some ne) :
    ∃ sB, substitute_out_body old b s var = some sB := by
  unfold substitute_out_body
  rw [hav]
  simp only
  rw [expression_substitute_out_eq s av b old e ne he hne]
  simp only
  by_cases hx : variable_is_external var = true
  · simp only [hx, if_true]
    have hr : expr_read { (expr_write s av
        ⟨e.constant + expression_get_coefficient e old * ne.constant,
          ht_remove old e.terms⟩) with
        updated_externals := set_add var (expr_write s av
          ⟨e.constant + expression_get_coefficient e old * ne.constant,
            ht_remove old e.terms⟩).updated_externals } av
        = some (substituted e ne old) := by
      simp [expr_read, expr_write, ht_lookup_insert, substituted]
    rw [hr]
    simp only
    split <;> exact ⟨_, rfl⟩
  · simp only [hx, Bool.false_eq_true, if_false]
    have hr : expr_read (expr_write s av
        ⟨e.constant + expression_get_coefficient e old * ne.constant,
          ht_remove old e.terms⟩) av = some (substituted e ne old) := by
      simp [substituted]
    rw [hr]
    simp only
    split <;> exact ⟨_, rfl⟩

/-- What the loop of `substitute_out` does when it returns.  Only expression
objects, `updated_externals` and `infeasible_rows` change; an object keeps its
terms or loses `old`, and only rows of members of the column set are touched;
an object without `old` is not touched; the row of every member has lost
`old`; the two sets only grow, by members of the column set, and a restricted
member whose row now has a negative constant is in `infeasible_rows`, an
external member in `updated_externals`. -/
theorem substitute_out_loop_spec (old : Variable) (b : Nat) (l : List Variable)
    (s s3 : SimplexSolver) (h : substitute_out_loop old b l s = some s3) :
    (∃ exprs upd inf, s3 = { s with expressions := exprs, updated_externals := upd,
                                    infeasible_rows := inf }) ∧
    (∀ c e3, expr_read s3 c = some e3 → ∃ e0, expr_read s c = some e0 ∧
      (e3 = e0 ∨ (e3.terms = ht_remove old e0.terms ∧
        ∃ v ∈ l, ht_lookup v s.rows = some c))) ∧
    (∀ c e, expr_read s c = some e → old ∉ e.terms.map Prod.fst →
      expr_read s3 c = some e) ∧
    (∀ c, (expr_read s c).isSome = true → (expr_read s3 c).isSome = true) ∧
    (∀ v ∈ l, ∀ av e3, ht_lookup v s.rows = some av → expr_read s3 av = some e3 →
      old ∉ e3.terms.map Prod.fst ∧
      (variable_is_restricted v = true → e3.constant < 0 → v ∈ s3.infeasible_rows)) ∧
    (∀ v ∈ s.infeasible_rows, v ∈ s3.infeasible_rows) ∧
    (∀ v ∈ s3.infeasible_rows, v ∈ s.infeasible_rows ∨
      (v ∈ l ∧ variable_is_restricted v = true)) ∧
    (∀ v ∈ s.updated_externals, v ∈ s3.updated_externals) ∧
    (∀ v ∈ l, variable_is_external v = true → v ∈ s3.updated_externals) := by
  induction l generalizing s with
  | nil =>
    simp only [substitute_out_loop, Option.some.injEq] at h
    subst h
    refine ⟨⟨_, _, _, rfl⟩, fun c e3 he => ⟨e3, he, Or.inl rfl⟩, fun c e he _ => he,
      fun c hc => hc, ?_, fun v hv => hv, fun v hv => Or.inl hv, fun v hv => hv, ?_⟩
    · intro v hv; simp at hv
    · intro v hv; simp at hv
  | cons v0 rest ih =>
    simp only [substitute_out_loop] at h
    cases hB : substitute_out_body old b s v0 with
    | none => simp [hB] at h
    | some sB =>
      simp only [hB] at h
      obtain ⟨av0, e0, ne0, hav0, he0, hne0, hsB⟩ := substitute_out_body_inv old b s sB v0 hB
      obtain ⟨⟨exprs, upd, inf, hs3⟩, hshape, hstable, hlive, hmem, hinf1, hinf2, hupd1,
        hupd2⟩ := ih sB h
      have hrows : sB.rows = s.rows := by rw [hsB]
      have hread : ∀ c, expr_read sB c =
          if av0 = c then some (substituted e0 ne0 old) else expr_read s c := by
        intro c; rw [hsB]; simp [expr_read, ht_lookup_insert]
      have hold0 : old ∉ (substituted e0 ne0 old).terms.map Prod.fst :=
        ht_remove_not_mem old e0.terms
      have hinfB : ∀ v ∈ s.infeasible_rows, v ∈ sB.infeasible_rows := by
        intro v hv; rw [hsB]; simp only
        split
        · exact (mem_set_add v v0 _).mpr (Or.inr hv)
        · exact hv
      have hupdB : ∀ v ∈ s.updated_externals, v ∈ sB.updated_externals := by
        intro v hv; rw [hsB]; simp only
        split
        · exact (mem_set_add v v0 _).mpr (Or.inr hv)
        · exact hv
      refine ⟨⟨exprs, upd, inf, ?_⟩, ?_, ?_, ?_, ?_, ?_, ?_, ?_, ?_⟩
      · rw [hs3, hsB]
      · intro c e3 he3
        obtain ⟨e1, he1, hor⟩ := hshape c e3 he3
        rw [hread c] at he1
        by_cases hc : av0 = c
        · subst hc
          simp only [if_true, Option.some.injEq] at he1
          refine ⟨e0, he0, Or.inr ⟨?_, v0, List.mem_cons_self _ _, hav0⟩⟩
          rcases hor with hor | ⟨hor, _⟩
          · rw [hor, ← he1]; rfl
          · rw [hor, ← he1]; exact ht_remove_idem old e0.terms
        · simp only [hc, if_false] at he1
          refine ⟨e1, he1, ?_⟩
          rcases hor with hor | ⟨hor, v, hv, hl⟩
          · exact Or.inl hor
          · exact Or.inr ⟨hor, v, List.mem_cons_of_mem _ hv, by rw [← hrows]; exact hl⟩
      · intro c e he hold
        apply hstable c e _ hold
        rw [hread c]
        by_cases hc : av0 = c
        · subst hc
          rw [he0] at he
          simp only [Option.some.injEq] at he
          subst he
          simp [substituted_absent e0 ne0 old hold]
        · simp [hc, he]
      · intro c hc
        apply hlive c
        rw [hread c]
        by_cases hc' : av0 = c <;> simp [hc', hc]
      · intro v hv av e3 hav he3
        rcases List.mem_cons.mp hv with hv | hv
        · subst hv
          rw [hav0] at hav
          simp only [Option.some.injEq] at hav
          subst hav
          have h1 : expr_read sB av0 = some (substituted e0 ne0 old) := by
            rw [hread av0]; simp
          have h2 := hstable av0 _ h1 hold0
          rw [h2] at he3
          simp only [Option.some.injEq] at he3
          subst he3
          refine ⟨hold0, fun hr hneg => hinf1 v ?_⟩
          rw [hsB]
          simp only [hr, Bool.true_and, decide_eq_true_eq, hneg, if_true]
          exact (mem_set_add v v _).mpr (Or.inl rfl)
        · exact hmem v hv av e3 (by rw [hrows]; exact hav) he3
      · intro v hv; exact hinf1 v (hinfB v hv)
      · intro v hv
        rcases hinf2 v hv with h1 | ⟨h1, h2⟩
        · rw [hsB] at h1
          simp only at h1
          split at h1
          · rename_i hc
            rcases (mem_set_add v v0 _).mp h1 with h3 | h3
            · subst h3
              simp only [Bool.and_eq_true] at hc
              exact Or.inr ⟨List.mem_cons_self _ _, hc.1⟩
            · exact Or.inl h3
          · exact Or.inl h1
        · exact Or.inr ⟨List.mem_cons_of_mem _ h1, h2⟩
      · intro v hv; exact hupd1 v (hupdB v hv)
      · intro v hv hx
        rcases List.mem_cons.mp hv with hv | hv
        · subst hv
          apply hupd1
          rw [hsB]
          simp only [hx, if_true]
          exact (mem_set_add v v _).mpr (Or.inl rfl)
        · exact hupd2 v hv hx

/-- The loop of `substitute_out` returns when every member of the column set
has a live row and the substituted expression is live. -/
theorem substitute_out_loop_some (old : Variable) (b : Nat) (l : List Variable)
    (s : SimplexSolver)
    (hl : ∀ v ∈ l, ∃ av, ht_lookup v s.rows = some av ∧ (expr_read s av).isSome = true)
    (hb : (expr_read s b).isSome = true) :
    ∃ s3, substitute_out_loop old b l s = some s3 := by
  induction l generalizing s with
  | nil => exact ⟨s, rfl⟩
  | cons v0 rest ih =>
    obtain ⟨av0, hav0, hlive0⟩ := hl v0 (List.mem_cons_self _ _)
    obtain ⟨e0, he0⟩ := Option.isSome_iff_exists.mp hlive0
    obtain ⟨ne0, hne0⟩ := Option.isSome_iff_exists.mp hb
    obtain ⟨sB, hB⟩ := substitute_out_body_some old b s v0 av0 e0 ne0 hav0 he0 hne0
    obtain ⟨av1, e1, ne1, _, _, _, hsB⟩ := substitute_out_body_inv old b s sB v0 hB
    have hread : ∀ c, (expr_read s c).isSome = true → (expr_read sB c).isSome = true := by
      intro c hc
      rw [hsB]
      simp only [expr_read, ht_lookup_insert]
      split
      · rfl
      · exact hc
    have hrows : sB.rows = s.rows := by rw [hsB]
    simp only [substitute_out_loop, hB]
    apply ih
    · intro v hv
      obtain ⟨av, hav, hlv⟩ := hl v (List.mem_cons_of_mem _ hv)
      exact ⟨av, by rw [hrows]; exact hav, hread av hlv⟩
    · exact hread b hb

/-! ## Facts about `pivot` -/

/-- What a `pivot` that returns has done.  `a` is the address and `e` the
expression of the row of `exit`; `mid` is the state after `remove_row` and
`change_subject`; `l3` the state after the loop of `substitute_out` over the
column set of `entry`; the result files `entry` at `a` and rebuilds the columns
of the terms of the new row. -/
theorem pivot_inv (s s' : SimplexSolver) (entry exit : Variable)
    (h : simplex_solver_pivot s entry exit = some s') :
    ∃ a e C1 mid l3 e3 C4 X,
      ht_lookup exit s.rows = some a ∧ expr_read s a = some e ∧
      mid = { s with
              columns := C1
              infeasible_rows := set_remove exit s.infeasible_rows
              external_rows := if variable_is_external exit = true then
                ht_remove exit s.external_rows else s.external_rows
              rows := ht_remove exit s.rows
              expressions := ht_insert a (expression_change_subject e exit entry)
                s.expressions } ∧
      (∀ t, ht_lookup t C1 =
        if t ∈ e.terms.map Prod.fst then (ht_lookup t s.columns).map (set_remove exit)
        else ht_lookup t s.columns) ∧
      substitute_out_loop entry a ((ht_lookup entry C1).getD []) mid = some l3 ∧
      expr_read l3 a = some e3 ∧
      s' = { l3 with columns := C4, rows := ht_insert entry a l3.rows, external_rows := X } ∧
      (∀ t, ht_lookup t C4 =
        if t ∈ e3.terms.map Prod.fst then
          some (set_add entry ((ht_lookup t (ht_remove entry l3.columns)).getD []))
        else ht_lookup t (ht_remove entry l3.columns)) := by
  unfold simplex_solver_pivot at h
  cases hr : simplex_solver_remove_row s exit with
  | none => simp [hr] at h
  | some r =>
    obtain ⟨a', s1⟩ := r
    simp only [hr] at h
    -- the row of `exit`
    have hrow : ∃ e, ht_lookup exit s.rows = some a' ∧ expr_read s a' = some e := by
      unfold simplex_solver_remove_row at hr
      cases h1 : ht_lookup exit s.rows with
      | none => simp [h1] at hr
      | some a =>
        simp only [h1] at hr
        cases h2 : expr_read s a with
        | none => simp [h2] at hr
        | some e =>
          simp only [h2, Option.some.injEq, Prod.mk.injEq] at hr
          obtain ⟨hr1, _⟩ := hr
          subst hr1
          exact ⟨e, rfl, h2⟩
    obtain ⟨e, hexit, he⟩ := hrow
    obtain ⟨s1', C1, hr', hs1, hC1⟩ := remove_row_eq s exit a' e hexit he
    rw [hr] at hr'
    simp only [Option.some.injEq, Prod.mk.injEq, true_and] at hr'
    subst hr'
    cases hm : expr_modify s1 a' (fun e => expression_change_subject e exit entry) with
    | none => simp [hm] at h
    | some s2 =>
      simp only [hm] at h
      obtain ⟨e', he', hs2⟩ := expr_modify_some _ _ _ _ hm
      have he1 : expr_read s1 a' = some e := by rw [hs1]; exact he
      rw [he1] at he'
      simp only [Option.some.injEq] at he'
      subst he'
      cases hsub : simplex_solver_substitute_out s2 entry a' with
      | none => simp [hsub] at h
      | some s3 =>
        simp only [hsub] at h
        have hcol2 : s2.columns = C1 := by rw [hs2, hs1]; rfl
        -- the loop
        have hloop : ∃ l3, substitute_out_loop entry a' ((ht_lookup entry C1).getD []) s2
            = some l3 ∧
            ∃ X, s3 = { l3 with external_rows := X, columns := ht_remove entry l3.columns } := by
          unfold simplex_solver_substitute_out at hsub
          rw [hcol2] at hsub
          cases hc : ht_lookup entry C1 with
          | none =>
            simp only [hc, Option.some_bind, Option.some.injEq] at hsub
            refine ⟨s2, by simp [substitute_out_loop], ?_⟩
            by_cases hx : variable_is_external entry = true
            · simp only [hx, if_true] at hsub
              exact ⟨_, hsub.symm⟩
            · simp only [hx, if_false] at hsub
              exact ⟨s2.external_rows, hsub.symm⟩
          | some row_set =>
            simp only [hc] at hsub
            cases hl : substitute_out_loop entry a' row_set s2 with
            | none => simp [hl] at hsub
            | some l3 =>
              simp only [hl, Option.some_bind, Option.some.injEq] at hsub
              refine ⟨l3, by simpa using hl, ?_⟩
              by_cases hx : variable_is_external entry = true
              · simp only [hx, if_true] at hsub
                exact ⟨_, hsub.symm⟩
              · simp only [hx, if_false] at hsub
                exact ⟨l3.external_rows, hsub.symm⟩
        obtain ⟨l3, hl3, X3, hs3⟩ := hloop
        -- the new row
        have hlive3 : ∃ e3, expr_read l3 a' = some e3 := by
          have := (substitute_out_loop_spec entry a' _ s2 l3 hl3).2.2.2.1 a'
            (by rw [hs2]; simp)
          exact Option.isSome_iff_exists.mp this
        obtain ⟨e3, he3⟩ := hlive3
        have he3' : expr_read s3 a' = some e3 := by rw [hs3]; exact he3
        obtain ⟨s4, C4, hadd, hs4, hC4⟩ := add_row_eq s3 entry a' e3 he3'
        rw [h] at hadd
        simp only [Option.some.injEq] at hadd
        subst hadd
        refine ⟨a', e, C1, s2, l3, e3, C4,
          (if variable_is_external entry = true then ht_insert entry a' X3 else X3),
          hexit, he, ?_, hC1, hl3, he3, ?_, ?_⟩
        · rw [hs2, hs1]; rfl
        · rw [hs4, hs3]
        · intro t; rw [hC4 t, hs3]

/-- On a tableau whose column index is the inverse of the rows, `pivot` returns
for a basic `exit` whose row mentions `entry`. -/
theorem pivot_some (s : SimplexSolver) (entry exit : Variable) (a : Nat) (e : Expression)
    (hcols : columns_inverse_of_rows s)
    (hexit : ht_lookup exit s.rows = some a) (he : expr_read s a = some e)
    (hentry : entry ∈ e.terms.map Prod.fst) :
    ∃ s', simplex_solver_pivot s entry exit = some s' := by
  obtain ⟨_, _, hwithin⟩ := hcols
  rw [columns_within_rows_iff] at hwithin
  obtain ⟨s1, C1, hr, hs1, hC1⟩ := remove_row_eq s exit a e hexit he
  have he1 : expr_read s1 a = some e := by rw [hs1]; exact he
  have hm : expr_modify s1 a (fun e => expression_change_subject e exit entry) =
      some (expr_write s1 a (expression_change_subject e exit entry)) := by
    simp [expr_modify, he1]
  have hread2 : ∀ c, (expr_read s c).isSome = true →
      (expr_read (expr_write s1 a (expression_change_subject e exit entry)) c).isSome
        = true := by
    intro c hc
    rw [expr_read_write]
    by_cases hac : a = c
    · simp [hac]
    · simp only [hac, if_false]; rw [hs1]; exact hc
  -- the loop of `substitute_out`
  have hloop : ∃ l3, substitute_out_loop entry a ((ht_lookup entry C1).getD [])
      (expr_write s1 a (expression_change_subject e exit entry)) = some l3 := by
    apply substitute_out_loop_some
    · intro v hv
      rw [hC1 entry] at hv
      simp only [hentry, if_true] at hv
      cases hc : ht_lookup entry s.columns with
      | none => simp [hc] at hv
      | some set0 =>
        simp only [hc, Option.map_some', Option.getD_some] at hv
        obtain ⟨hne, hv0⟩ := (mem_set_remove v exit set0).mp hv
        obtain ⟨av, ev, hav, hev, _⟩ := hwithin entry set0 v hc hv0
        refine ⟨av, ?_, hread2 av (by simp [hev])⟩
        have : (expr_write s1 a (expression_change_subject e exit entry)).rows
            = ht_remove exit s.rows := by rw [hs1]; rfl
        rw [this, ht_lookup_remove]
        simp [hne, hav]
    · simp
  obtain ⟨l3, hl3⟩ := hloop
  have hlive3 : (expr_read l3 a).isSome = true :=
    (substitute_out_loop_spec entry a _ _ l3 hl3).2.2.2.1 a (by simp)
  obtain ⟨e3, he3⟩ := Option.isSome_iff_exists.mp hlive3
  have hsub : ∃ s3, simplex_solver_substitute_out
      (expr_write s1 a (expression_change_subject e exit entry)) entry a = some s3 ∧
      expr_read s3 a = some e3 := by
    unfold simplex_solver_substitute_out
    have hcol : (expr_write s1 a (expression_change_subject e exit entry)).columns = C1 := by
      rw [hs1]; rfl
    rw [hcol]
    cases hc : ht_lookup entry C1 with
    | none =>
      rw [hc] at hl3
      simp only [Option.getD_none, substitute_out_loop, Option.some.injEq] at hl3
      simp only [Option.some_bind]
      refine ⟨_, rfl, ?_⟩
      rw [hl3]
      by_cases hx : variable_is_external entry = true
      · simp only [hx, if_true]; exact he3
      · simp only [hx, if_false]; exact he3
    | some row_set =>
      rw [hc] at hl3
      simp only [Option.getD_some] at hl3
      simp only [hl3, Option.some_bind]
      refine ⟨_, rfl, ?_⟩
      by_cases hx : variable_is_external entry = true
      · simp only [hx, if_true]; exact he3
      · simp only [hx, if_false]; exact he3
  obtain ⟨s3, hs3, he3'⟩ := hsub
  obtain ⟨s4, _, hadd, _, _⟩ := add_row_eq s3 entry a e3 he3'
  exact ⟨s4, by simp [simplex_solver_pivot, hr, hm, hs3, hadd]⟩

/-! ## Facts about `find_ratio` -/

/-- The coefficient `find_ratio` reads from the objective row. -/
theorem find_ratio_eq (s : SimplexSolver) (data : RatioClosure) (term : Variable × ℚ) :
    find_ratio s data term =
      if (decide (term.2 > 0) && variable_is_pivotable term.1) = true then
        match (data.z_row.bind (expr_read s)).map
            (fun z => expression_get_coefficient z term.1) with
        | none => none
        | some zc =>
          if find_ratio_takes data term.1 (find_ratio_value term.2 zc) = true then
            some { data with entry := some term.1, ratio := find_ratio_value term.2 zc }
          else some data
      else some data := by
  unfold find_ratio find_ratio_takes find_ratio_value
  simp only
  by_cases hc : (decide (term.2 > 0) && variable_is_pivotable term.1) = true
  · simp only [hc, if_true]
    cases hz : data.z_row with
    | none => simp
    | some za =>
      cases hr : expr_read s za with
      | none => simp [hr]
      | some z => simp [hr]
  · simp only [hc, if_false]
    simp

theorem find_ratio_z_row (s : SimplexSolver) (data d : RatioClosure) (term : Variable × ℚ)
    (h : find_ratio s data term = some d) : d.z_row = data.z_row := by
  rw [find_ratio_eq] at h
  split at h
  · split at h
    · simp at h
    · split at h <;> (simp only [Option.some.injEq] at h; rw [← h])
  · simp only [Option.some.injEq] at h; rw [← h]

/-- The search reads the solver state only through the coefficients of the
objective row at the variables of the terms. -/
theorem find_ratio_foreach_congr (s s' : SimplexSolver) (ts : List (Variable × ℚ))
    (data : RatioClosure)
    (h : ∀ t ∈ ts, (data.z_row.bind (expr_read s)).map
        (fun z => expression_get_coefficient z t.1) =
      (data.z_row.bind (expr_read s')).map (fun z => expression_get_coefficient z t.1)) :
    find_ratio_foreach s ts data = find_ratio_foreach s' ts data := by
  induction ts generalizing data with
  | nil => rfl
  | cons t ts ih =>
    have h1 : find_ratio s data t = find_ratio s' data t := by
      rw [find_ratio_eq, find_ratio_eq, h t (List.mem_cons_self _ _)]
    simp only [find_ratio_foreach, ← h1]
    cases hf : find_ratio s data t with
    | none => rfl
    | some d =>
      simp only
      apply ih
      intro t' ht'
      rw [find_ratio_z_row s data d t hf]
      exact h t' (List.mem_cons_of_mem _ ht')

/-- An entry the search returns is a pivotable variable with a positive
coefficient in the row. -/
theorem find_ratio_foreach_entry (s : SimplexSolver) (ts : List (Variable × ℚ))
    (data d : RatioClosure) (h : find_ratio_foreach s ts data = some d) :
    d.entry = data.entry ∨
      ∃ t ∈ ts, d.entry = some t.1 ∧ t.2 > 0 ∧ variable_is_pivotable t.1 = true := by
  induction ts generalizing data with
  | nil =>
    simp only [find_ratio_foreach, Option.some.injEq] at h
    exact Or.inl (by rw [h])
  | cons t ts ih =>
    simp only [find_ratio_foreach] at h
    cases hf : find_ratio s data t with
    | none => simp [hf] at h
    | some d1 =>
      simp only [hf] at h
      have hstep : d1.entry = data.entry ∨
          (d1.entry = some t.1 ∧ t.2 > 0 ∧ variable_is_pivotable t.1 = true) := by
        rw [find_ratio_eq] at hf
        split at hf
        · rename_i hc
          simp only [Bool.and_eq_true, decide_eq_true_eq] at hc
          split at hf
          · simp at hf
          · split at hf
            · simp only [Option.some.injEq] at hf
              exact Or.inr ⟨by rw [← hf], hc.1, hc.2⟩
            · simp only [Option.some.injEq] at hf
              exact Or.inl (by rw [hf])
        · simp only [Option.some.injEq] at hf
          exact Or.inl (by rw [hf])
      rcases ih d1 h with h1 | ⟨t', ht', h1⟩
      · rcases hstep with h2 | h2
        · exact Or.inl (by rw [h1, h2])
        · exact Or.inr ⟨t, List.mem_cons_self _ _, by rw [h1]; exact h2.1, h2.2⟩
      · exact Or.inr ⟨t', List.mem_cons_of_mem _ ht', h1⟩

/-! ## Facts about term tables with unique keys -/

theorem rows_own_iff (s : SimplexSolver) :
    rows_own s ↔ ∀ v w a, ht_lookup v s.rows = some a → ht_lookup w s.rows = some a →
      v = w := by
  constructor
  · intro h v w a hv hw
    exact h v (ht_lookup_key_mem v a _ hv) w (ht_lookup_key_mem w a _ hw) a hv hw
  · intro h v _ w _ a hv hw
    exact h v w a hv hw

theorem terms_nodup_iff (s : SimplexSolver) :
    terms_nodup s ↔ ∀ a e, expr_read s a = some e → (e.terms.map Prod.fst).Nodup := by
  constructor
  · intro h a e he
    exact h a (ht_lookup_key_mem a e _ he) e he
  · intro h a _ e he
    exact h a e he

theorem infeasible_tracked_iff (s : SimplexSolver) :
    infeasible_tracked s ↔ ∀ b a e, ht_lookup b s.rows = some a → expr_read s a = some e →
      variable_is_restricted b = true → e.constant < 0 → b ∈ s.infeasible_rows := by
  constructor
  · intro h b a e hb he
    exact h b (ht_lookup_key_mem b a _ hb) a hb e he
  · intro h b _ a hb e he
    exact h b a e hb he

section KeyFacts

variable {α β : Type} [DecidableEq α]

theorem ht_remove_keys_nodup (k : α) (l : List (α × β)) (h : (l.map Prod.fst).Nodup) :
    ((ht_remove k l).map Prod.fst).Nodup := by
  unfold ht_remove
  exact List.Nodup.sublist (List.Sublist.map _ (List.filter_sublist l)) h

theorem ht_insert_keys_nodup (k : α) (v : β) (l : List (α × β))
    (h : (l.map Prod.fst).Nodup) : ((ht_insert k v l).map Prod.fst).Nodup := by
  induction l with
  | nil => simp [ht_insert]
  | cons p t ih =>
    obtain ⟨k1, v1⟩ := p
    simp only [List.map_cons, List.nodup_cons] at h
    by_cases h1 : k1 = k
    · subst h1
      simp only [ht_insert, if_true, List.map_cons, List.nodup_cons]
      exact h
    · simp only [ht_insert, h1, if_false, List.map_cons, List.nodup_cons]
      refine ⟨?_, ih h.2⟩
      intro hm
      rcases (ht_insert_keys k1 k v t).mp hm with h2 | h2
      · exact h1 h2
      · exact h.1 h2

theorem ht_lookup_of_mem_nodup (k : α) (v : β) (l : List (α × β))
    (h : (l.map Prod.fst).Nodup) (hm : (k, v) ∈ l) : ht_lookup k l = some v := by
  induction l with
  | nil => simp at hm
  | cons p t ih =>
    obtain ⟨k1, v1⟩ := p
    simp only [List.map_cons, List.nodup_cons] at h
    rcases List.mem_cons.mp hm with h1 | h1
    · simp only [Prod.mk.injEq] at h1
      obtain ⟨rfl, rfl⟩ := h1
      simp [ht_lookup]
    · have hne : k1 ≠ k := by
        rintro rfl
        exact h.1 (List.mem_map.mpr ⟨(k1, v), h1, rfl⟩)
      simp only [ht_lookup, hne, if_false]
      exact ih h.2 h1

end KeyFacts

theorem expression_times_nodup (e : Expression) (f : ℚ)
    (h : (e.terms.map Prod.fst).Nodup) : ((expression_times e f).terms.map Prod.fst).Nodup := by
  unfold expression_times
  split
  · simp
  · simpa [List.map_map, Function.comp] using h

theorem expression_set_variable_nodup (e : Expression) (v : Variable) (c : ℚ)
    (h : (e.terms.map Prod.fst).Nodup) :
    ((expression_set_variable e v c).terms.map Prod.fst).Nodup := by
  unfold expression_set_variable
  split
  · exact ht_remove_keys_nodup v e.terms h
  · exact ht_insert_keys_nodup v c e.terms h

theorem expression_change_subject_nodup (e : Expression) (old_subject new_subject : Variable)
    (h : (e.terms.map Prod.fst).Nodup) :
    ((expression_change_subject e old_subject new_subject).terms.map Prod.fst).Nodup := by
  unfold expression_change_subject expression_remove_variable
  exact ht_remove_keys_nodup _ _
    (expression_set_variable_nodup _ _ _ (expression_times_nodup _ _ h))

theorem expression_times_constant (e : Expression) (f : ℚ) :
    (expression_times e f).constant = e.constant * f := by
  unfold expression_times
  split
  · rename_i h; simp [h]
  · rfl

theorem expression_set_variable_constant (e : Expression) (v : Variable) (c : ℚ) :
    (expression_set_variable e v c).constant = e.constant := by
  unfold expression_set_variable
  split <;> rfl

/-- The constant of a row after `change_subject`: the old one divided by the
negated coefficient of the new subject. -/
theorem expression_change_subject_constant (e : Expression) (old_subject new_subject : Variable) :
    (expression_change_subject e old_subject new_subject).constant =
      e.constant * (1 / (-expression_get_coefficient e new_subject)) := by
  unfold expression_change_subject expression_remove_variable
  simp only [expression_set_variable_constant, expression_times_constant]

/-- A row with a negative constant, solved for a variable with a positive
coefficient, has a positive constant. -/
theorem expression_change_subject_positive (e : Expression) (old_subject new_subject : Variable)
    (cd : ℚ) (hn : (e.terms.map Prod.fst).Nodup) (ht : (new_subject, cd) ∈ e.terms)
    (hcd : cd > 0) (hneg : e.constant < 0) :
    (expression_change_subject e old_subject new_subject).constant > 0 := by
  rw [expression_change_subject_constant]
  have hc : expression_get_coefficient e new_subject = cd := by
    unfold expression_get_coefficient
    rw [ht_lookup_of_mem_nodup new_subject cd e.terms hn ht]
    rfl
  rw [hc]
  have h1 : 1 / (-cd) < 0 := by
    apply div_neg_of_pos_of_neg one_pos
    linarith
  exact mul_pos_of_neg_of_neg hneg h1

/-! ## The passes of `choose_subject` -/

theorem dummy_restricted (v : Variable) (h : variable_is_dummy v = true) :
    variable_is_restricted v = true := by
  simp only [variable_is_dummy, decide_eq_true_eq] at h
  simp [variable_is_restricted, h]

theorem find_subject_restricted_dummies (s : SimplexSolver) (terms : List (Variable × ℚ))
    (data : ChooseClosure) (hd : ∀ t ∈ terms, variable_is_dummy t.1 = true)
    (hf : data.found_unrestricted = false) :
    terms.foldl (find_subject_restricted s) data = data := by
  induction terms generalizing data with
  | nil => rfl
  | cons t ts ih =>
    have h1 : find_subject_restricted s data t = data := by
      have hdt := hd t (List.mem_cons_self _ _)
      simp [find_subject_restricted, hf, dummy_restricted _ hdt, hdt]
    rw [List.foldl_cons, h1]
    exact ih data (fun u hu => hd u (List.mem_cons_of_mem _ hu)) hf

theorem find_subject_dummy_retval (s : SimplexSolver) (terms : List (Variable × ℚ))
    (data : ChooseClosure) (hd : ∀ t ∈ terms, variable_is_dummy t.1 = true) :
    (terms.foldl (find_subject_dummy s) data).retval = data.retval := by
  induction terms generalizing data with
  | nil => rfl
  | cons t ts ih =>
    rw [List.foldl_cons, ih _ (fun u hu => hd u (List.mem_cons_of_mem _ hu))]
    have hdt := hd t (List.mem_cons_self _ _)
    simp only [find_subject_dummy, hdt, Bool.not_true, Bool.false_eq_true, if_false]
    split_ifs <;> rfl

theorem find_subject_restricted_inv (s : SimplexSolver) (K : List Variable)
    (data : ChooseClosure) (t : Variable × ℚ) (ht : t.1 ∈ K) (h : choose_inv K data) :
    choose_inv K (find_subject_restricted s data t) ∧
    (data.found_unrestricted = true ∨ variable_is_restricted t.1 = false →
      (find_subject_restricted s data t).found_unrestricted = true) := by
  rcases data with ⟨subj, fu, fnr, rv, co⟩
  unfold find_subject_restricted
  unfold choose_inv at h ⊢
  cases fu <;> cases hr : variable_is_restricted t.1 <;>
    cases hc : simplex_solver_column_has_key s t.1 <;> simp_all
  all_goals (split_ifs <;> try split) <;> (try split_ifs) <;> simp_all

theorem find_subject_restricted_fold (s : SimplexSolver) (K : List Variable)
    (terms : List (Variable × ℚ)) (data : ChooseClosure)
    (hK : ∀ t ∈ terms, t.1 ∈ K) (h : choose_inv K data) :
    choose_inv K (terms.foldl (find_subject_restricted s) data) ∧
    (data.found_unrestricted = true ∨ (∃ t ∈ terms, variable_is_restricted t.1 = false) →
      (terms.foldl (find_subject_restricted s) data).found_unrestricted = true) := by
  induction terms generalizing data with
  | nil =>
    refine ⟨h, ?_⟩
    intro hx
    rcases hx with hx | ⟨t, ht, _⟩
    · exact hx
    · simp at ht
  | cons t ts ih =>
    obtain ⟨hi, hfu⟩ := find_subject_restricted_inv s K data t (hK t (List.mem_cons_self _ _)) h
    obtain ⟨hi2, hfu2⟩ := ih (find_subject_restricted s data t)
      (fun u hu => hK u (List.mem_cons_of_mem _ hu)) hi
    rw [List.foldl_cons]
    refine ⟨hi2, ?_⟩
    intro hx
    apply hfu2
    rcases hx with hx | ⟨u, hu, hur⟩
    · exact Or.inl (hfu (Or.inl hx))
    · rcases List.mem_cons.mp hu with rfl | hu
      · exact Or.inl (hfu (Or.inr hur))
      · exact Or.inr ⟨u, hu, hur⟩

/-! ## The loops of `optimize` -/

theorem optimize_exit_loop_congr (s t : SimplexSolver) (entry : Variable)
    (hrows : t.rows = s.rows) (hex : t.expressions = s.expressions)
    (col : List Variable) (st : ℚ × Option Variable) :
    optimize_exit_loop t entry col st = optimize_exit_loop s entry col st := by
  induction col generalizing st with
  | nil => rfl
  | cons v rest ih =>
    obtain ⟨m, x⟩ := st
    simp only [optimize_exit_loop, hrows, expr_read, hex, ih]

theorem optimize_exit_loop_no_candidate (s : SimplexSolver) (entry : Variable)
    (col : List Variable) (st : ℚ × Option Variable)
    (hno : ∀ v ∈ col, variable_is_pivotable v = true →
      ∃ a e, ht_lookup v s.rows = some a ∧ expr_read s a = some e ∧
        ¬ expression_get_coefficient e entry < 0) :
    optimize_exit_loop s entry col st = some st := by
  induction col generalizing st with
  | nil => rfl
  | cons v rest ih =>
    obtain ⟨m, x⟩ := st
    have hrest := ih (m, x) (fun w hw => hno w (List.mem_cons_of_mem _ hw))
    by_cases hp : variable_is_pivotable v = true
    · obtain ⟨a, e, ha, he, hc⟩ := hno v (List.mem_cons_self _ _) hp
      simp only [optimize_exit_loop, hp, ha, he, hc, Bool.not_true, Bool.false_eq_true,
        if_false, hrest]
    · have hp' : variable_is_pivotable v = false := by simpa using hp
      simp only [optimize_exit_loop, hp', Bool.not_false, if_true, hrest]

theorem optimize_loop_unbounded_step (s t : SimplexSolver) (z_row : Nat) (z : Expression)
    (entry : Variable) (column_vars : List Variable)
    (hz : expr_read s z_row = some z)
    (hentry : (z.terms.foldl find_negative_coefficient
      { objective_coefficient := 0, entry_variable := none }).entry_variable = some entry)
    (hneg : (z.terms.foldl find_negative_coefficient
      { objective_coefficient := 0, entry_variable := none }).objective_coefficient
        < -DBL_EPSILON)
    (hcol : simplex_solver_get_column_set s entry = some column_vars)
    (hno : ∀ v ∈ column_vars, variable_is_pivotable v = true →
      ∃ a e, ht_lookup v s.rows = some a ∧ expr_read s a = some e ∧
        ¬ expression_get_coefficient e entry < 0)
    (hrows : t.rows = s.rows) (hcols : t.columns = s.columns)
    (hex : t.expressions = s.expressions) (fuel : Nat) (exit : Option Variable) :
    optimize_loop z_row (fuel + 1) exit t =
      optimize_loop z_row fuel exit (g_critical t Critical.unbounded_objective) := by
  have hz' : expr_read t z_row = some z := by simpa [expr_read, hex] using hz
  have hcol' : simplex_solver_get_column_set t entry = some column_vars := by
    simpa [simplex_solver_get_column_set, hcols] using hcol
  have hloop : optimize_exit_loop t entry column_vars (DBL_MAX, exit) = some (DBL_MAX, exit) := by
    rw [optimize_exit_loop_congr s t entry hrows hex]
    exact optimize_exit_loop_no_candidate s entry column_vars _ hno
  have hnot : ¬ (z.terms.foldl find_negative_coefficient
      { objective_coefficient := 0, entry_variable := none }).objective_coefficient
        ≥ -DBL_EPSILON := not_le.mpr hneg
  have happrox : approx_val DBL_MAX DBL_MAX = true := by
    simp [approx_val, APPROX_EPS]
  rw [optimize_loop]
  simp only [hz', hnot, if_false, hentry, hcol', hloop, happrox, if_true]

theorem optimize_loop_unbounded (s : SimplexSolver) (z_row : Nat) (z : Expression)
    (entry : Variable) (column_vars : List Variable)
    (hz : expr_read s z_row = some z)
    (hentry : (z.terms.foldl find_negative_coefficient
      { objective_coefficient := 0, entry_variable := none }).entry_variable = some entry)
    (hneg : (z.terms.foldl find_negative_coefficient
      { objective_coefficient := 0, entry_variable := none }).objective_coefficient
        < -DBL_EPSILON)
    (hcol : simplex_solver_get_column_set s entry = some column_vars)
    (hno : ∀ v ∈ column_vars, variable_is_pivotable v = true →
      ∃ a e, ht_lookup v s.rows = some a ∧ expr_read s a = some e ∧
        ¬ expression_get_coefficient e entry < 0)
    (fuel : Nat) (exit : Option Variable) (t : SimplexSolver)
    (hrows : t.rows = s.rows) (hcols : t.columns = s.columns)
    (hex : t.expressions = s.expressions) :
    optimize_loop z_row fuel exit t = none := by
  induction fuel generalizing t with
  | zero => rfl
  | succ n ih =>
    rw [optimize_loop_unbounded_step s t z_row z entry column_vars hz hentry hneg hcol hno
      hrows hcols hex]
    exact ih _ hrows hcols hex

theorem find_negative_fold (terms : List (Variable × ℚ)) (data : NegativeClosure) :
    (terms.foldl find_negative_coefficient data).objective_coefficient
      ≤ data.objective_coefficient ∧
    (∀ t ∈ terms, variable_is_pivotable t.1 = true →
      (terms.foldl find_negative_coefficient data).objective_coefficient ≤ t.2) ∧
    (terms.foldl find_negative_coefficient data = data ∨
      ∃ t ∈ terms, variable_is_pivotable t.1 = true ∧
        terms.foldl find_negative_coefficient data =
          { objective_coefficient := t.2, entry_variable := some t.1 }) := by
  induction terms generalizing data with
  | nil => exact ⟨le_refl _, by simp, Or.inl rfl⟩
  | cons t ts ih =>
    obtain ⟨h1, h2, h3⟩ := ih (find_negative_coefficient data t)
    rw [List.foldl_cons]
    by_cases hc : (variable_is_pivotable t.1 && decide (t.2 < data.objective_coefficient)) = true
    · have hstep : find_negative_coefficient data t =
          { objective_coefficient := t.2, entry_variable := some t.1 } := by
        simp only [find_negative_coefficient, hc, if_true]
      rw [hstep] at h1 h2 h3 ⊢
      simp only [Bool.and_eq_true, decide_eq_true_eq] at hc
      refine ⟨le_trans h1 (le_of_lt hc.2), ?_, ?_⟩
      · intro u hu hp
        rcases List.mem_cons.mp hu with rfl | hu
        · exact h1
        · exact h2 u hu hp
      · right
        rcases h3 with h3 | ⟨u, hu, hp, h3⟩
        · exact ⟨t, List.mem_cons_self _ _, hc.1, h3⟩
        · exact ⟨u, List.mem_cons_of_mem _ hu, hp, h3⟩
    · have hstep : find_negative_coefficient data t = data := by
        simp only [find_negative_coefficient, hc, Bool.false_eq_true, if_false]
      rw [hstep] at h1 h2 h3 ⊢
      refine ⟨h1, ?_, ?_⟩
      · intro u hu hp
        rcases List.mem_cons.mp hu with rfl | hu
        · simp only [Bool.and_eq_true, decide_eq_true_eq, not_and, not_lt] at hc
          exact le_trans h1 (hc hp)
        · exact h2 u hu hp
      · rcases h3 with h3 | ⟨u, hu, hp, h3⟩
        · exact Or.inl h3
        · exact Or.inr ⟨u, List.mem_cons_of_mem _ hu, hp, h3⟩

theorem optimize_exit_loop_exit (s : SimplexSolver) (entry : Variable) (col : List Variable)
    (st st' : ℚ × Option Variable) (h : optimize_exit_loop s entry col st = some st') :
    st' = st ∨ ∃ v ∈ col, st'.2 = some v ∧ variable_is_pivotable v = true := by
  induction col generalizing st with
  | nil =>
    simp only [optimize_exit_loop, Option.some.injEq] at h
    exact Or.inl h.symm
  | cons v rest ih =>
    obtain ⟨m, x⟩ := st
    have lift : ∀ st0, (st' = st0 ∨ ∃ w ∈ rest, st'.2 = some w ∧
        variable_is_pivotable w = true) → st0 = (m, x) →
        st' = (m, x) ∨ ∃ w ∈ v :: rest, st'.2 = some w ∧ variable_is_pivotable w = true := by
      intro st0 h0 he
      rcases h0 with h0 | ⟨w, hw, h0⟩
      · exact Or.inl (he ▸ h0)
      · exact Or.inr ⟨w, List.mem_cons_of_mem _ hw, h0⟩
    by_cases hp : variable_is_pivotable v = true
    · simp only [optimize_exit_loop, hp, Bool.not_true, Bool.false_eq_true, if_false] at h
      cases ha : ht_lookup v s.rows with
      | none => simp [ha] at h
      | some a =>
        simp only [ha] at h
        cases he : expr_read s a with
        | none => simp [he] at h
        | some e =>
          simp only [he] at h
          split_ifs at h with h1 h2
          · rcases ih _ h with h0 | ⟨w, hw, h0⟩
            · right
              exact ⟨v, List.mem_cons_self _ _, by rw [h0], hp⟩
            · exact Or.inr ⟨w, List.mem_cons_of_mem _ hw, h0⟩
          · exact lift _ (ih _ h) rfl
          · exact lift _ (ih _ h) rfl
    · have hp' : variable_is_pivotable v = false := by simpa using hp
      simp only [optimize_exit_loop, hp', Bool.not_false, if_true] at h
      exact lift _ (ih _ h) rfl

theorem pivot_rows (s s' : SimplexSolver) (entry exit w : Variable)
    (h : simplex_solver_pivot s entry exit = some s') (h1 : w ≠ entry) (h2 : w ≠ exit) :
    ht_lookup w s'.rows = ht_lookup w s.rows := by
  obtain ⟨a, e, C1, mid, l3, e3, C4, X, _, _, hmid, _, hl3, _, hs', _⟩ := pivot_inv s s' entry exit h
  obtain ⟨⟨exprs, upd, inf, hl3'⟩, _⟩ := substitute_out_loop_spec entry a _ mid l3 hl3
  rw [hs', hl3', hmid]
  simp only [ht_lookup_insert, ht_lookup_remove, Ne.symm h1, h2, if_false]

theorem optimize_loop_returns (z_row : Nat) (zv : Variable)
    (hzp : variable_is_pivotable zv = false) (fuel : Nat) (exit : Option Variable)
    (s s' : SimplexSolver) (h : optimize_loop z_row fuel exit s = some s') :
    (∃ z', expr_read s' z_row = some z' ∧
      ∀ t ∈ z'.terms, variable_is_pivotable t.1 = true → -DBL_EPSILON ≤ t.2) ∧
    ht_lookup zv s'.rows = ht_lookup zv s.rows := by
  induction fuel generalizing exit s with
  | zero => simp [optimize_loop] at h
  | succ n ih =>
    rw [optimize_loop] at h
    cases hz : expr_read s z_row with
    | none => simp [hz] at h
    | some z =>
      simp only [hz] at h
      obtain ⟨_, hmin, hsel⟩ := find_negative_fold z.terms
        { objective_coefficient := 0, entry_variable := none }
      split_ifs at h with hopt
      · simp only [Option.some.injEq] at h
        subst h
        exact ⟨⟨z, hz, fun t ht hp => le_trans hopt (hmin t ht hp)⟩, rfl⟩
      · cases hentry : (z.terms.foldl find_negative_coefficient
            { objective_coefficient := 0, entry_variable := none }).entry_variable with
        | none => simp [hentry] at h
        | some entry =>
          simp only [hentry] at h
          have hep : variable_is_pivotable entry = true := by
            rcases hsel with hsel | ⟨t, _, hp, hsel⟩
            · rw [hsel] at hentry
              simp at hentry
            · rw [hsel] at hentry
              simp only [Option.some.injEq] at hentry
              exact hentry ▸ hp
          cases hcol : simplex_solver_get_column_set s entry with
          | none => simp [hcol] at h
          | some col =>
            simp only [hcol] at h
            cases hloop : optimize_exit_loop s entry col (DBL_MAX, exit) with
            | none => simp [hloop] at h
            | some st =>
              obtain ⟨m, x⟩ := st
              simp only [hloop] at h
              split_ifs at h with happ
              · obtain ⟨h1, h2⟩ := ih _ _ h
                exact ⟨h1, h2⟩
              · cases x with
                | none => simp at h
                | some exit_var =>
                  simp only at h
                  cases hp : simplex_solver_pivot s entry exit_var with
                  | none => simp [hp] at h
                  | some s1 =>
                    simp only [hp] at h
                    obtain ⟨h1, h2⟩ := ih _ _ h
                    refine ⟨h1, ?_⟩
                    rw [h2]
                    have hxp : variable_is_pivotable exit_var = true := by
                      rcases optimize_exit_loop_exit s entry col _ _ hloop with h0 | ⟨v, _, h0, hv⟩
                      · simp only [Prod.mk.injEq] at h0
                        rw [h0.1] at happ
                        exact absurd (by simp [approx_val, APPROX_EPS]) happ
                      · simp only [Option.some.injEq] at h0
                        exact h0 ▸ hv
                    apply pivot_rows s s1 entry exit_var zv hp
                    · intro he
                      rw [he, hep] at hzp
                      exact absurd hzp (by simp)
                    · intro he
                      rw [he, hxp] at hzp
                      exact absurd hzp (by simp)

theorem optimize_exit_loop_ratio (s : SimplexSolver) (entry : Variable) (col : List Variable)
    (m : ℚ) (x y : Option Variable) :
    (optimize_exit_loop s entry col (m, x)).map Prod.fst =
      (optimize_exit_loop s entry col (m, y)).map Prod.fst := by
  induction col generalizing m x y with
  | nil => rfl
  | cons v rest ih =>
    simp only [optimize_exit_loop]
    split_ifs with hp
    · exact ih m x y
    · cases ht_lookup v s.rows with
      | none => rfl
      | some a =>
        simp only
        cases expr_read s a with
        | none => rfl
        | some e =>
          simp only
          split_ifs with h1 h2
          · rfl
          · exact ih m x y
          · exact ih m x y

theorem optimize_loop_critical_none (s : SimplexSolver) (z_row : Nat) (z : Expression)
    (entry : Variable) (col : List Variable) (x : Option Variable) (m : ℚ)
    (hz : expr_read s z_row = some z)
    (hentry : (z.terms.foldl find_negative_coefficient
      { objective_coefficient := 0, entry_variable := none }).entry_variable = some entry)
    (hneg : ¬ (z.terms.foldl find_negative_coefficient
      { objective_coefficient := 0, entry_variable := none }).objective_coefficient
        ≥ -DBL_EPSILON)
    (hcol : simplex_solver_get_column_set s entry = some col)
    (hloop : (optimize_exit_loop s entry col (DBL_MAX, x)).map Prod.fst = some m)
    (happ : approx_val m DBL_MAX = true)
    (fuel : Nat) (exit : Option Variable) (t : SimplexSolver)
    (hrows : t.rows = s.rows) (hcols : t.columns = s.columns)
    (hex : t.expressions = s.expressions) :
    optimize_loop z_row fuel exit t = none := by
  induction fuel generalizing exit t with
  | zero => rfl
  | succ n ih =>
    have hz' : expr_read t z_row = some z := by simpa [expr_read, hex] using hz
    have hcol' : simplex_solver_get_column_set t entry = some col := by
      simpa [simplex_solver_get_column_set, hcols] using hcol
    have hl : (optimize_exit_loop t entry col (DBL_MAX, exit)).map Prod.fst = some m := by
      rw [optimize_exit_loop_congr s t entry hrows hex, optimize_exit_loop_ratio s entry col _ exit x]
      exact hloop
    cases hst : optimize_exit_loop t entry col (DBL_MAX, exit) with
    | none => rw [hst] at hl; simp at hl
    | some st =>
      obtain ⟨m', x'⟩ := st
      rw [hst] at hl
      simp only [Option.map_some', Option.some.injEq] at hl
      subst hl
      rw [optimize_loop]
      simp only [hz', hneg, if_false, hentry, hcol', hst, happ, if_true]
      exact ih x' (g_critical t Critical.unbounded_objective) hrows hcols hex

theorem optimize_loop_pivots_apply (z_row : Nat) (fuel : Nat) (exit : Option Variable)
    (s s' : SimplexSolver) (h : optimize_loop z_row fuel exit s = some s') :
    pivots_apply (optimize_loop_pivots z_row fuel exit s).1 s = some s' := by
  induction fuel generalizing exit s with
  | zero => simp [optimize_loop] at h
  | succ n ih =>
    rw [optimize_loop] at h
    rw [optimize_loop_pivots]
    cases hz : expr_read s z_row with
    | none => simp [hz] at h
    | some z =>
      simp only [hz] at h ⊢
      split_ifs at h ⊢ with hopt
      · simp only [Option.some.injEq] at h
        subst h
        rfl
      · cases hentry : (z.terms.foldl find_negative_coefficient
            { objective_coefficient := 0, entry_variable := none }).entry_variable with
        | none => simp [hentry] at h
        | some entry =>
          simp only [hentry] at h ⊢
          cases hcol : simplex_solver_get_column_set s entry with
          | none => simp [hcol] at h
          | some col =>
            simp only [hcol] at h ⊢
            cases hloop : optimize_exit_loop s entry col (DBL_MAX, exit) with
            | none => simp [hloop] at h
            | some st =>
              obtain ⟨m, x⟩ := st
              simp only [hloop] at h ⊢
              split_ifs at h ⊢ with happ
              · have hnone := optimize_loop_critical_none s z_row z entry col exit m hz hentry
                  hopt hcol (by rw [hloop]; rfl) happ n x
                  (g_critical s Critical.unbounded_objective) rfl rfl rfl
                rw [hnone] at h
                simp at h
              · cases x with
                | none => simp at h
                | some exit_var =>
                  simp only at h ⊢
                  cases hp : simplex_solver_pivot s entry exit_var with
                  | none => simp [hp] at h
                  | some s1 =>
                    simp only [hp] at h ⊢
                    simp only [pivots_apply, hp]
                    exact ih _ _ h

/-! ## The choice of the entering variable in `dual_optimize` -/

theorem dual_optimize_loop_step (z_row : Option Nat) (fuel : Nat) (s : SimplexSolver)
    (exit_var : Variable) (rest : List Variable) (h : s.infeasible_rows = exit_var :: rest) :
    dual_optimize_loop z_row (fuel + 1) s =
      match dual_optimize_entry z_row
          { s with infeasible_rows := set_remove exit_var s.infeasible_rows } exit_var with
      | none => none
      | some none => dual_optimize_loop z_row fuel
          { s with infeasible_rows := set_remove exit_var s.infeasible_rows }
      | some (some entry_var) =>
        match simplex_solver_pivot
            { s with infeasible_rows := set_remove exit_var s.infeasible_rows }
            entry_var exit_var with
        | none => none
        | some s2 =>
          if iter_invalidated (set_remove exit_var s.infeasible_rows) s2.infeasible_rows then
            some (g_critical s2 Critical.iter_invalid)
          else dual_optimize_loop z_row fuel s2 := by
  rw [dual_optimize_loop]
  simp only [h, dual_optimize_entry]
  cases ht_lookup exit_var s.rows with
  | none => rfl
  | some expr =>
    simp only
    cases expr_read { s with infeasible_rows := set_remove exit_var (exit_var :: rest) } expr with
    | none => rfl
    | some e =>
      simp only
      split_ifs with h1
      · rfl
      · cases find_ratio_foreach { s with infeasible_rows := set_remove exit_var (exit_var :: rest) }
            e.terms { entry := none, ratio := DBL_MAX, z_row := z_row } with
        | none => rfl
        | some data =>
          simp only
          cases data.entry with
          | none => rfl
          | some entry_var =>
            simp only
            split_ifs <;> rfl

theorem approx_val_self (r : ℚ) : approx_val r r = true := by
  simp [approx_val, APPROX_EPS]

theorem find_ratio_step_inv (s : SimplexSolver) (z : Expression) (za : Nat)
    (seen : List (Variable × ℚ)) (data d : RatioClosure) (t : Variable × ℚ)
    (hz : data.z_row = some za) (hread : expr_read s za = some z)
    (hinv : ratio_inv z seen data)
    (hcoef : ratio_candidate t = true → approx_val t.2 0 = false)
    (hsep : ∀ u ∈ seen, ratio_candidate u = true → ratio_candidate t = true →
      approx_val (ratio_of z t) (ratio_of z u) = true → ratio_of z t = ratio_of z u)
    (h : find_ratio s data t = some d) :
    ratio_inv z (seen ++ [t]) d := by
  obtain ⟨hnone, hsome⟩ := hinv
  rw [find_ratio_eq] at h
  by_cases hc : ratio_candidate t = true
  · have hc' : (decide (t.2 > 0) && variable_is_pivotable t.1) = true := hc
    simp only [hc', if_true, hz, Option.some_bind, hread, Option.map_some'] at h
    have hval : find_ratio_value t.2 (expression_get_coefficient z t.1) = ratio_of z t := by
      simp [find_ratio_value, hcoef hc, ratio_of]
    rw [hval] at h
    by_cases htk : find_ratio_takes data t.1 (ratio_of z t) = true
    · simp only [htk, if_true, Option.some.injEq] at h
      subst h
      have hle : ∀ u ∈ seen, ratio_candidate u = true →
          ratio_of z t ≤ ratio_of z u ∧
            (ratio_of z u = ratio_of z t → t.1.addr ≤ u.1.addr) := by
        simp only [find_ratio_takes, Bool.or_eq_true, decide_eq_true_eq,
          Bool.and_eq_true] at htk
        intro u hu huc
        rcases htk with hlt | ⟨⟨happ, hsm⟩, hbef⟩
        · cases he : data.entry with
          | none =>
            obtain ⟨hr, hall⟩ := hnone he
            have := hall u hu huc
            rw [hr] at hlt
            exact ⟨le_of_lt (lt_of_lt_of_le hlt this),
              fun heq => absurd (heq ▸ this) (not_le.mpr hlt)⟩
          | some w =>
            obtain ⟨tw, _, _, _, _, hall⟩ := hsome w he
            have := (hall u hu huc).1
            exact ⟨le_of_lt (lt_of_lt_of_le hlt this),
              fun heq => absurd (heq ▸ this) (not_le.mpr hlt)⟩
        · cases he : data.entry with
          | none => simp [he] at hsm
          | some w =>
            obtain ⟨tw, htw, htwc, htw1, htwr, hall⟩ := hsome w he
            have heq : ratio_of z t = data.ratio := by
              rw [← htwr]
              apply hsep tw htw htwc hc
              rw [htwr]
              exact happ
            rw [he] at hbef
            simp only [variable_before, decide_eq_true_eq] at hbef
            obtain ⟨h1, h2⟩ := hall u hu huc
            refine ⟨heq ▸ h1, fun hx => ?_⟩
            have := h2 (hx.trans heq)
            omega
      refine ⟨fun hx => by simp at hx, ?_⟩
      intro v hv
      simp only [Option.some.injEq] at hv
      subst hv
      refine ⟨t, by simp, hc, rfl, rfl, ?_⟩
      intro u hu huc
      rcases List.mem_append.mp hu with hu | hu
      · exact hle u hu huc
      · simp only [List.mem_singleton] at hu
        subst hu
        exact ⟨le_refl _, fun _ => le_refl _⟩
    · simp only [htk, Bool.false_eq_true, if_false, Option.some.injEq] at h
      subst h
      simp only [find_ratio_takes, Bool.or_eq_true, decide_eq_true_eq, Bool.and_eq_true,
        not_or, not_lt] at htk
      obtain ⟨hge, hnt⟩ := htk
      constructor
      · intro he
        obtain ⟨hr, hall⟩ := hnone he
        refine ⟨hr, ?_⟩
        intro u hu huc
        rcases List.mem_append.mp hu with hu | hu
        · exact hall u hu huc
        · simp only [List.mem_singleton] at hu
          subst hu
          exact hr ▸ hge
      · intro w he
        obtain ⟨tw, htw, htwc, htw1, htwr, hall⟩ := hsome w he
        refine ⟨tw, by simp [htw], htwc, htw1, htwr, ?_⟩
        intro u hu huc
        rcases List.mem_append.mp hu with hu | hu
        · exact hall u hu huc
        · simp only [List.mem_singleton] at hu
          subst hu
          refine ⟨hge, fun hx => ?_⟩
          by_contra hlt
          apply hnt
          refine ⟨⟨?_, by simp [he]⟩, ?_⟩
          · rw [hx]
            exact approx_val_self _
          · rw [he]
            simp only [variable_before, decide_eq_true_eq]
            omega
  · have hc' : ¬ (decide (t.2 > 0) && variable_is_pivotable t.1) = true := hc
    simp only [hc', Bool.false_eq_true, if_false, Option.some.injEq] at h
    subst h
    constructor
    · intro he
      obtain ⟨hr, hall⟩ := hnone he
      refine ⟨hr, ?_⟩
      intro u hu huc
      rcases List.mem_append.mp hu with hu | hu
      · exact hall u hu huc
      · simp only [List.mem_singleton] at hu
        subst hu
        exact absurd huc hc
    · intro w he
      obtain ⟨tw, htw, htwc, htw1, htwr, hall⟩ := hsome w he
      refine ⟨tw, by simp [htw], htwc, htw1, htwr, ?_⟩
      intro u hu huc
      rcases List.mem_append.mp hu with hu | hu
      · exact hall u hu huc
      · simp only [List.mem_singleton] at hu
        subst hu
        exact absurd huc hc

theorem find_ratio_foreach_inv (s : SimplexSolver) (z : Expression) (za : Nat)
    (hread : expr_read s za = some z) (ts seen : List (Variable × ℚ)) (data d : RatioClosure)
    (hz : data.z_row = some za) (hinv : ratio_inv z seen data)
    (hcoef : ∀ t ∈ ts, ratio_candidate t = true → approx_val t.2 0 = false)
    (hsep : ∀ t ∈ seen ++ ts, ∀ u ∈ seen ++ ts, ratio_candidate t = true →
      ratio_candidate u = true → approx_val (ratio_of z t) (ratio_of z u) = true →
      ratio_of z t = ratio_of z u)
    (h : find_ratio_foreach s ts data = some d) : ratio_inv z (seen ++ ts) d := by
  induction ts generalizing seen data with
  | nil =>
    simp only [find_ratio_foreach, Option.some.injEq] at h
    subst h
    simpa using hinv
  | cons t ts ih =>
    simp only [find_ratio_foreach] at h
    cases hf : find_ratio s data t with
    | none => simp [hf] at h
    | some d1 =>
      simp only [hf] at h
      have hstep := find_ratio_step_inv s z za seen data d1 t hz hread hinv
        (hcoef t (List.mem_cons_self _ _))
        (fun u hu huc htc => hsep t (by simp) u (by simp [hu]) htc huc) hf
      have hz1 : d1.z_row = some za := by rw [find_ratio_z_row s data d1 t hf]; exact hz
      have := ih (seen ++ [t]) d1 hz1 hstep
        (fun u hu => hcoef u (List.mem_cons_of_mem _ hu))
        (by simpa using hsep) h
      simpa using this

theorem find_ratio_foreach_none (s : SimplexSolver) (ts : List (Variable × ℚ))
    (data : RatioClosure) (hz : data.z_row.bind (expr_read s) = none)
    (hc : ∃ t ∈ ts, ratio_candidate t = true) : find_ratio_foreach s ts data = none := by
  induction ts with
  | nil => simp at hc
  | cons t ts ih =>
    by_cases htc : ratio_candidate t = true
    · have htc' : (decide (t.2 > 0) && variable_is_pivotable t.1) = true := htc
      have : find_ratio s data t = none := by
        rw [find_ratio_eq]
        simp only [htc', if_true, hz, Option.map_none']
      simp only [find_ratio_foreach, this]
    · have htc' : ¬ (decide (t.2 > 0) && variable_is_pivotable t.1) = true := htc
      have : find_ratio s data t = some data := by
        rw [find_ratio_eq]
        simp only [htc', Bool.false_eq_true, if_false]
      simp only [find_ratio_foreach, this]
      apply ih
      obtain ⟨u, hu, huc⟩ := hc
      rcases List.mem_cons.mp hu with rfl | hu
      · exact absurd huc htc
      · exact ⟨u, hu, huc⟩

theorem dual_optimize_entry_spec (z_row : Option Nat) (s1 : SimplexSolver)
    (exit_var entry_var : Variable)
    (h : dual_optimize_entry z_row s1 exit_var = some (some entry_var)) :
    ∃ a e za z cd, ht_lookup exit_var s1.rows = some a ∧ expr_read s1 a = some e ∧
      e.constant < 0 ∧ z_row = some za ∧ expr_read s1 za = some z ∧
      (entry_var, cd) ∈ e.terms ∧ cd > 0 ∧ variable_is_pivotable entry_var = true ∧
      ((∀ t ∈ e.terms, ratio_candidate t = true → approx_val t.2 0 = false) →
        (∀ t ∈ e.terms, ∀ u ∈ e.terms, ratio_candidate t = true → ratio_candidate u = true →
          approx_val (ratio_of z t) (ratio_of z u) = true → ratio_of z t = ratio_of z u) →
        ∀ u ∈ e.terms, ratio_candidate u = true →
          ratio_of z (entry_var, cd) ≤ ratio_of z u ∧
          (ratio_of z u = ratio_of z (entry_var, cd) → entry_var.addr ≤ u.1.addr)) := by
  unfold dual_optimize_entry at h
  cases ha : ht_lookup exit_var s1.rows with
  | none => simp [ha] at h
  | some a =>
    simp only [ha] at h
    cases he : expr_read s1 a with
    | none => simp [he] at h
    | some e =>
      simp only [he] at h
      by_cases hge : expression_get_constant e ≥ 0
      · simp [hge] at h
      simp only [hge, if_false] at h
      cases hf : find_ratio_foreach s1 e.terms
          { entry := none, ratio := DBL_MAX, z_row := z_row } with
      | none => simp [hf] at h
      | some data =>
        simp only [hf] at h
        cases hent : data.entry with
        | none => simp [hent] at h
        | some w =>
          simp only [hent] at h
          by_cases happ : (!approx_val data.ratio DBL_MAX) = true
          swap
          · simp [happ] at h
          simp only [happ, if_true, Option.some.injEq] at h
          subst h
          have hentry := find_ratio_foreach_entry s1 e.terms _ data hf
          have hterm : ∃ cd, (w, cd) ∈ e.terms ∧ cd > 0 ∧
              variable_is_pivotable w = true := by
            rcases hentry with h0 | ⟨t, ht, h0, h1, h2⟩
            · rw [hent] at h0
              simp at h0
            · rw [hent] at h0
              simp only [Option.some.injEq] at h0
              exact ⟨t.2, by rw [h0]; exact ht, h1, by rw [h0]; exact h2⟩
          obtain ⟨cd0, hmem0, hcd0, hpiv⟩ := hterm
          have hcand : ∃ t ∈ e.terms, ratio_candidate t = true :=
            ⟨(w, cd0), hmem0, by simp [ratio_candidate, hcd0, hpiv]⟩
          cases hzr : z_row.bind (expr_read s1) with
          | none =>
            have := find_ratio_foreach_none s1 e.terms
              { entry := none, ratio := DBL_MAX, z_row := z_row } hzr hcand
            rw [this] at hf
            simp at hf
          | some z =>
            obtain ⟨za, hza, hzread⟩ : ∃ za, z_row = some za ∧ expr_read s1 za = some z := by
              cases z_row with
              | none => simp at hzr
              | some za => exact ⟨za, rfl, by simpa using hzr⟩
            by_cases hyp : (∀ t ∈ e.terms, ratio_candidate t = true → approx_val t.2 0 = false) ∧
                (∀ t ∈ e.terms, ∀ u ∈ e.terms, ratio_candidate t = true →
                  ratio_candidate u = true →
                  approx_val (ratio_of z t) (ratio_of z u) = true →
                  ratio_of z t = ratio_of z u)
            · obtain ⟨hcoef, hsep⟩ := hyp
              have hinit : ratio_inv z []
                  { entry := none, ratio := DBL_MAX, z_row := z_row } :=
                ⟨fun _ => ⟨rfl, by simp⟩, fun v hv => by simp at hv⟩
              have hinv := find_ratio_foreach_inv s1 z za hzread e.terms [] _ data hza hinit
                hcoef (by simpa using hsep) hf
              simp only [List.nil_append] at hinv
              obtain ⟨tw, htw, htwc, htw1, htwr, hall⟩ := hinv.2 w hent
              have htw' : tw = (w, tw.2) := by rw [← htw1]
              have hcd : tw.2 > 0 := by
                simp only [ratio_candidate, Bool.and_eq_true, decide_eq_true_eq] at htwc
                exact htwc.1
              refine ⟨a, e, za, z, tw.2, rfl, he, not_le.mp hge, hza, hzread,
                htw' ▸ htw, hcd, hpiv, ?_⟩
              intro _ _ u hu huc
              rw [← htw', htwr]
              exact hall u hu huc
            · refine ⟨a, e, za, z, cd0, rfl, he, not_le.mp hge, hza, hzread, hmem0, hcd0,
                hpiv, ?_⟩
              intro hcoef hsep
              exact absurd ⟨hcoef, hsep⟩ hyp

/-! ## Facts about `normalize_expression` -/

theorem replace_terms_rows (s s1 : SimplexSolver) (expr : Nat) (term : Variable × ℚ)
    (h : replace_terms s expr term = some s1) : s1.rows = s.rows := by
  unfold replace_terms at h
  cases hl : ht_lookup term.1 s.rows with
  | none => simp [hl] at h
  | some a =>
    simp only [hl] at h
    obtain ⟨e, _, hs1⟩ := expr_modify_some s s1 expr _ h
    rw [hs1]
    rfl

/-- A term whose variable is not basic stops `replace_terms`. -/
theorem replace_terms_foreach_parametric (expr : Nat) (terms : List (Variable × ℚ))
    (s : SimplexSolver) (h : ∃ t ∈ terms, ht_lookup t.1 s.rows = none) :
    replace_terms_foreach expr terms s = none := by
  induction terms generalizing s with
  | nil => simp at h
  | cons t ts ih =>
    unfold replace_terms_foreach
    cases hr : replace_terms s expr t with
    | none => rfl
    | some s1 =>
      simp only
      apply ih
      obtain ⟨u, hu, hun⟩ := h
      rcases List.mem_cons.mp hu with rfl | hu
      · unfold replace_terms at hr
        simp [hun] at hr
      · exact ⟨u, hu, by rw [replace_terms_rows s s1 expr t hr]; exact hun⟩

theorem normalize_expression_parametric (weight : StrengthType → ℚ) (s : SimplexSolver)
    (internal : InternalExpression) (cn : Constraint) (addr1 addr2 : Nat) (e : Expression)
    (he : expr_read s cn.expression = some e)
    (hp : ∃ t ∈ e.terms, ht_lookup t.1 s.rows = none) :
    simplex_solver_normalize_expression weight s internal cn addr1 addr2 = none := by
  have hstop := replace_terms_foreach_parametric
    (expr_alloc s (expression_new (expression_get_constant e))).1 e.terms
    (expr_alloc s (expression_new (expression_get_constant e))).2 hp
  unfold simplex_solver_normalize_expression
  simp only [he, hstop]

theorem replace_terms_foreach_error_vars (expr : Nat) (terms : List (Variable × ℚ))
    (s s1 : SimplexSolver) (h : replace_terms_foreach expr terms s = some s1) :
    s1.error_vars = s.error_vars ∧ s1.objective = s.objective := by
  induction terms generalizing s with
  | nil =>
    simp only [replace_terms_foreach, Option.some.injEq] at h
    subst h
    exact ⟨rfl, rfl⟩
  | cons t ts ih =>
    unfold replace_terms_foreach at h
    cases hr : replace_terms s expr t with
    | none => simp [hr] at h
    | some s2 =>
      simp only [hr] at h
      obtain ⟨h1, h2⟩ := ih s2 h
      unfold replace_terms at hr
      cases hl : ht_lookup t.1 s.rows with
      | none => simp [hl] at hr
      | some a =>
        simp only [hl] at hr
        obtain ⟨e, _, hs2⟩ := expr_modify_some s s2 expr _ hr
        rw [h1, h2, hs2]
        exact ⟨rfl, rfl⟩

theorem insert_error_variable_null (s : SimplexSolver) (cn : Constraint) (v : Variable)
    (h : s.error_vars = none) :
    (simplex_solver_insert_error_variable s cn v).error_vars = none := by
  simp [simplex_solver_insert_error_variable, h, g_critical]

theorem add_variable_error_vars (s : SimplexSolver) (v : Variable) (sub : Option Variable) :
    (simplex_solver_add_variable s v sub).error_vars = s.error_vars := by
  cases sub with
  | none => rfl
  | some w =>
    simp only [simplex_solver_add_variable, simplex_solver_insert_column_variable]
    split <;> rfl

theorem normalize_expression_error_vars (weight : StrengthType → ℚ) (s : SimplexSolver)
    (internal : InternalExpression) (cn : Constraint) (addr1 addr2 : Nat)
    (r : Nat × SimplexSolver × InternalExpression)
    (h : simplex_solver_normalize_expression weight s internal cn addr1 addr2 = some r)
    (hn : s.error_vars = none) : r.2.1.error_vars = none := by
  unfold simplex_solver_normalize_expression at h
  cases he : expr_read s cn.expression with
  | none => simp [he] at h
  | some e =>
    simp only [he] at h
    cases hr : replace_terms_foreach (expr_alloc s (expression_new (expression_get_constant e))).1
        e.terms (expr_alloc s (expression_new (expression_get_constant e))).2 with
    | none => simp [hr] at h
    | some s1 =>
      have h1 : s1.error_vars = none := by
        rw [(replace_terms_foreach_error_vars _ _ _ _ hr).1]
        exact hn
      simp only [hr] at h
      by_cases hineq : constraint_is_inequality cn = true
      · simp only [hineq, if_true] at h
        split at h
        · simp at h
        · rename_i s3 hm
          obtain ⟨_, _, hs3⟩ := expr_modify_some _ _ _ _ hm
          by_cases hreq : cn.strength ≠ StrengthType.STRENGTH_REQUIRED
          · rw [if_pos hreq] at h
            split at h
            · simp at h
            · rename_i s6 hm6
              obtain ⟨_, _, hs6⟩ := expr_modify_some _ _ _ _ hm6
              split at h
              · simp at h
              · split at h
                · simp at h
                · rename_i s7 hm7
                  obtain ⟨_, _, hs7⟩ := expr_modify_some _ _ _ _ hm7
                  simp only [Option.some.injEq] at h
                  subst h
                  simp only
                  rw [add_variable_error_vars]
                  apply insert_error_variable_null
                  rw [hs7, hs6, hs3]
                  exact h1
          · rw [if_neg hreq] at h
            simp only [Option.some.injEq] at h
            subst h
            simp only
            rw [hs3]
            exact h1
      · simp only [hineq, Bool.false_eq_true, if_false] at h
        by_cases hreq : constraint_is_required cn = true
        · simp only [hreq, if_true] at h
          split at h
          · simp at h
          · rename_i s3 hm
            obtain ⟨_, _, hs3⟩ := expr_modify_some _ _ _ _ hm
            simp only [Option.some.injEq] at h
            subst h
            simp only
            rw [hs3]
            exact h1
        · simp only [hreq, Bool.false_eq_true, if_false] at h
          split at h
          · simp at h
          · rename_i s3 hm
            obtain ⟨_, _, hs3⟩ := expr_modify_some _ _ _ _ hm
            split at h
            · simp at h
            · rename_i s4 hm4
              obtain ⟨_, _, hs4⟩ := expr_modify_some _ _ _ _ hm4
              split at h
              · simp at h
              · split at h
                · simp at h
                · rename_i s6 hm6
                  obtain ⟨_, _, hs6⟩ := expr_modify_some _ _ _ _ hm6
                  split at h
                  · simp at h
                  · rename_i s7 hm7
                    obtain ⟨_, _, hs7⟩ := expr_modify_some _ _ _ _ hm7
                    have h11 : (simplex_solver_insert_error_variable
                        (simplex_solver_insert_error_variable
                          (simplex_solver_add_variable
                            (simplex_solver_add_variable s7
                              (variable_new addr1 VariableType.VARIABLE_SLACK)
                              (some s7.objective))
                            (variable_new addr2 VariableType.VARIABLE_SLACK)
                            (some (simplex_solver_add_variable s7
                              (variable_new addr1 VariableType.VARIABLE_SLACK)
                              (some s7.objective)).objective)) cn
                          (variable_new addr1 VariableType.VARIABLE_SLACK)) cn
                        (variable_new addr2 VariableType.VARIABLE_SLACK)).error_vars = none := by
                      apply insert_error_variable_null
                      apply insert_error_variable_null
                      rw [add_variable_error_vars, add_variable_error_vars, hs7, hs6, hs4, hs3]
                      exact h1
                    split_ifs at h <;>
                      (simp only [Option.some.injEq] at h; subst h; exact h11)

/-! ## Facts about `delta_edit_constant` -/

theorem update_variable_frame (s : SimplexSolver) (v : Variable) :
    ∃ ext crit, simplex_solver_update_variable s v =
      { s with external_vars := ext, criticals := crit } := by
  unfold simplex_solver_update_variable
  split_ifs
  · cases h : s.external_vars with
    | none => exact ⟨s.external_vars, s.criticals ++ [Critical.null_hash_table], rfl⟩
    | some set => exact ⟨_, _, rfl⟩
  · exact ⟨_, _, rfl⟩

/-- One iteration of the loop of `delta_edit_constant`, spelled out. -/
theorem delta_edit_loop_cons (delta : ℚ) (em v : Variable) (rest : List Variable)
    (s s3 : SimplexSolver) (h : delta_edit_loop delta em (v :: rest) s = some s3) :
    ∃ a e ext crit, ht_lookup v s.rows = some a ∧ expr_read s a = some e ∧
      delta_edit_loop delta em rest
        { s with
          expressions := ht_insert a
            ⟨e.constant + expression_get_coefficient e em * delta, e.terms⟩ s.expressions
          external_vars := ext
          criticals := crit
          infeasible_rows := if (variable_is_restricted v &&
              decide (e.constant + expression_get_coefficient e em * delta < 0)) = true then
            set_add v s.infeasible_rows else s.infeasible_rows } = some s3 := by
  unfold delta_edit_loop at h
  cases ha : ht_lookup v s.rows with
  | none => simp [ha] at h
  | some a =>
    simp only [ha] at h
    cases he : expr_read s a with
    | none => simp [he] at h
    | some e =>
      simp only [he] at h
      by_cases hx : variable_is_external v = true
      · obtain ⟨ext, crit, hu⟩ := update_variable_frame
          (expr_write s a (expression_set_constant e
            (expression_get_constant e + expression_get_coefficient e em * delta))) v
        simp only [hx, if_true, hu] at h
        refine ⟨a, e, ext, crit, rfl, he, ?_⟩
        rw [← h]
        simp only [expr_write, expression_set_constant, expression_get_constant]
        split_ifs <;> rfl
      · simp only [hx, Bool.false_eq_true, if_false] at h
        refine ⟨a, e, s.external_vars, s.criticals, rfl, he, ?_⟩
        rw [← h]
        simp only [expr_write, expression_set_constant, expression_get_constant]
        split_ifs <;> rfl

theorem delta_edit_loop_updated (delta : ℚ) (em : Variable) (l : List Variable)
    (s s3 : SimplexSolver) (h : delta_edit_loop delta em l s = some s3) :
    s3.updated_externals = s.updated_externals ∧ s3.rows = s.rows ∧
      s3.columns = s.columns := by
  induction l generalizing s with
  | nil =>
    simp only [delta_edit_loop, Option.some.injEq] at h
    subst h
    exact ⟨rfl, rfl, rfl⟩
  | cons v rest ih =>
    obtain ⟨a, e, ext, crit, _, _, hrest⟩ := delta_edit_loop_cons delta em v rest s s3 h
    obtain ⟨h1, h2, h3⟩ := ih _ hrest
    exact ⟨h1, h2, h3⟩

theorem delta_edit_constant_updated (s s' : SimplexSolver) (delta : ℚ) (ep em : Variable)
    (h : simplex_solver_delta_edit_constant s delta ep em = some s') :
    s'.updated_externals = s.updated_externals := by
  unfold simplex_solver_delta_edit_constant at h
  cases hp : ht_lookup ep s.rows with
  | some a =>
    simp only [hp] at h
    cases he : expr_read s a with
    | none => simp [he] at h
    | some e =>
      simp only [he] at h
      split_ifs at h <;> (simp only [Option.some.injEq] at h; rw [← h]; rfl)
  | none =>
    simp only [hp] at h
    cases hm : ht_lookup em s.rows with
    | some a =>
      simp only [hm] at h
      cases he : expr_read s a with
      | none => simp [he] at h
      | some e =>
        simp only [he] at h
        split_ifs at h <;> (simp only [Option.some.injEq] at h; rw [← h]; rfl)
    | none =>
      simp only [hm] at h
      cases hc : ht_lookup em s.columns with
      | none => simp [hc] at h
      | some col =>
        simp only [hc] at h
        exact (delta_edit_loop_updated delta em col s s' h).1

theorem delta_edit_loop_tracked (delta : ℚ) (em : Variable) (l : List Variable)
    (s s3 : SimplexSolver) (h : delta_edit_loop delta em l s = some s3)
    (hown : rows_own s) (ht : infeasible_tracked s) : infeasible_tracked s3 := by
  induction l generalizing s with
  | nil =>
    simp only [delta_edit_loop, Option.some.injEq] at h
    subst h
    exact ht
  | cons v rest ih =>
    obtain ⟨a, e, ext, crit, ha, he, hrest⟩ := delta_edit_loop_cons delta em v rest s s3 h
    apply ih _ hrest
    · rw [rows_own_iff] at hown ⊢
      exact hown
    · rw [infeasible_tracked_iff] at ht ⊢
      rw [rows_own_iff] at hown
      intro b ab eb hb heb hr hneg
      simp only [expr_read, ht_lookup_insert] at heb
      by_cases hab : a = ab
      · simp only [hab, if_true, Option.some.injEq] at heb
        have hbv : b = v := hown b v ab hb (hab ▸ ha)
        subst hbv
        rw [← heb] at hneg
        simp only at hneg
        have hc : (variable_is_restricted b &&
            decide (e.constant + expression_get_coefficient e em * delta < 0)) = true := by
          simp [hr, hneg]
        simp only [hc, if_true]
        exact (mem_set_add _ _ _).mpr (Or.inl rfl)
      · simp only [hab, if_false] at heb
        have := ht b ab eb hb heb hr hneg
        simp only
        split_ifs
        · exact (mem_set_add _ _ _).mpr (Or.inr this)
        · exact this

theorem delta_edit_constant_tracked (s s' : SimplexSolver) (delta : ℚ) (ep em : Variable)
    (h : simplex_solver_delta_edit_constant s delta ep em = some s')
    (hown : rows_own s) (ht : infeasible_tracked s) : infeasible_tracked s' := by
  have key : ∀ (v : Variable) (a : Nat) (c : ℚ) (ts : List (Variable × ℚ)),
      ht_lookup v s.rows = some a →
      infeasible_tracked { s with
        expressions := ht_insert a ⟨c, ts⟩ s.expressions
        infeasible_rows := if c < 0 then set_add v s.infeasible_rows
          else s.infeasible_rows } := by
    intro v a c ts ha
    rw [infeasible_tracked_iff] at ht ⊢
    rw [rows_own_iff] at hown
    intro b ab eb hb heb hr hneg
    simp only [expr_read, ht_lookup_insert] at heb
    by_cases hab : a = ab
    · simp only [hab, if_true, Option.some.injEq] at heb
      have hbv : b = v := hown b v ab hb (hab ▸ ha)
      subst hbv
      rw [← heb] at hneg
      simp only at hneg
      simp only [hneg, if_true]
      exact (mem_set_add _ _ _).mpr (Or.inl rfl)
    · simp only [hab, if_false] at heb
      have := ht b ab eb hb heb hr hneg
      simp only
      split_ifs
      · exact (mem_set_add _ _ _).mpr (Or.inr this)
      · exact this
  unfold simplex_solver_delta_edit_constant at h
  cases hp : ht_lookup ep s.rows with
  | some a =>
    simp only [hp] at h
    cases he : expr_read s a with
    | none => simp [he] at h
    | some e =>
      simp only [he] at h
      have := key ep a (e.constant + delta) e.terms hp
      split_ifs at h with hneg <;>
        (simp only [Option.some.injEq] at h; rw [← h];
         simp only [expression_get_constant] at hneg;
         simp only [hneg, if_true, if_false] at this; exact this)
  | none =>
    simp only [hp] at h
    cases hm : ht_lookup em s.rows with
    | some a =>
      simp only [hm] at h
      cases he : expr_read s a with
      | none => simp [he] at h
      | some e =>
        simp only [he] at h
        have := key em a (e.constant - delta) e.terms hm
        split_ifs at h with hneg <;>
          (simp only [Option.some.injEq] at h; rw [← h];
           simp only [expression_get_constant] at hneg;
           simp only [hneg, if_true, if_false] at this; exact this)
    | none =>
      simp only [hm] at h
      cases hc : ht_lookup em s.columns with
      | none => simp [hc] at h
      | some col =>
        simp only [hc] at h
        exact delta_edit_loop_tracked delta em col s s' h hown ht

theorem delta_edit_loop_some (delta : ℚ) (em : Variable) (l : List Variable)
    (s : SimplexSolver)
    (hl : ∀ v ∈ l, ∃ av, ht_lookup v s.rows = some av ∧ (expr_read s av).isSome = true) :
    ∃ s3, delta_edit_loop delta em l s = some s3 := by
  induction l generalizing s with
  | nil => exact ⟨s, rfl⟩
  | cons v rest ih =>
    obtain ⟨av, hav, hlive⟩ := hl v (List.mem_cons_self _ _)
    obtain ⟨e, he⟩ := Option.isSome_iff_exists.mp hlive
    simp only [delta_edit_loop, hav, he]
    apply ih
    intro w hw
    obtain ⟨aw, haw, hlw⟩ := hl w (List.mem_cons_of_mem _ hw)
    refine ⟨aw, ?_, ?_⟩
    · obtain ⟨ext, crit, hu⟩ := update_variable_frame
        (expr_write s av (expression_set_constant e
          (expression_get_constant e + expression_get_coefficient e em * delta))) v
      split_ifs <;> (try simp only [hu]) <;> exact haw
    · obtain ⟨ext, crit, hu⟩ := update_variable_frame
        (expr_write s av (expression_set_constant e
          (expression_get_constant e + expression_get_coefficient e em * delta))) v
      have hw1 : ∀ t : SimplexSolver, t.expressions = ht_insert av
          (expression_set_constant e
            (expression_get_constant e + expression_get_coefficient e em * delta))
          s.expressions → (expr_read t aw).isSome = true := by
        intro t ht
        simp only [expr_read, ht, ht_lookup_insert]
        split
        · rfl
        · exact hlw
      split_ifs <;> (apply hw1; (try simp only [hu]); rfl)

theorem substitute_out_tracked (s s' : SimplexSolver) (old : Variable) (b : Nat)
    (h : simplex_solver_substitute_out s old b = some s')
    (hown : rows_own s) (ht : infeasible_tracked s) : infeasible_tracked s' := by
  unfold simplex_solver_substitute_out at h
  have hloop : ∀ l s3, substitute_out_loop old b l s = some s3 → infeasible_tracked s3 := by
    intro l s3 hl
    obtain ⟨⟨exprs, upd, inf, hs3⟩, h2, _, _, h5, h6, _⟩ :=
      substitute_out_loop_spec old b l s s3 hl
    have hrows : s3.rows = s.rows := by rw [hs3]
    rw [infeasible_tracked_iff] at ht ⊢
    rw [rows_own_iff] at hown
    intro v a e3 hv he3 hr hneg
    rw [hrows] at hv
    obtain ⟨e0, he0, hcase⟩ := h2 a e3 he3
    rcases hcase with heq | ⟨_, w, hw, hwa⟩
    · exact h6 v (ht v a e0 hv he0 hr (heq ▸ hneg))
    · have hvw : v = w := hown v w a hv hwa
      subst hvw
      exact (h5 v hw a e3 hv he3).2 hr hneg
  have hfin : ∀ s1 : SimplexSolver, infeasible_tracked s1 → ∀ X C,
      infeasible_tracked { s1 with external_rows := X, columns := C } := by
    intro s1 h1 X C
    rw [infeasible_tracked_iff] at h1 ⊢
    exact h1
  cases hc : ht_lookup old s.columns with
  | none =>
    simp only [hc, Option.some_bind] at h
    split_ifs at h <;>
      (simp only [Option.some.injEq] at h; rw [← h]; exact hfin s ht _ _)
  | some set =>
    simp only [hc] at h
    cases hl : substitute_out_loop old b set s with
    | none => simp [hl] at h
    | some s3 =>
      simp only [hl, Option.some_bind] at h
      have h3 := hloop set s3 hl
      split_ifs at h <;>
        (simp only [Option.some.injEq] at h; rw [← h]; exact hfin s3 h3 _ _)

theorem substitute_out_some (s : SimplexSolver) (old : Variable) (b : Nat)
    (hcw : columns_within_rows s) (hb : (expr_read s b).isSome = true) :
    ∃ s', simplex_solver_substitute_out s old b = some s' := by
  rw [columns_within_rows_iff] at hcw
  unfold simplex_solver_substitute_out
  cases hc : ht_lookup old s.columns with
  | none => simp
  | some set =>
    obtain ⟨s3, hs3⟩ := substitute_out_loop_some old b set s
      (fun v hv => by
        obtain ⟨a, e, ha, he, _⟩ := hcw old set v hc hv
        exact ⟨a, ha, by simp [he]⟩) hb
    simp [hs3]

theorem delta_edit_constant_some (s : SimplexSolver) (delta : ℚ) (ep em : Variable)
    (hlive : rows_live s) (hcw : columns_within_rows s)
    (h : (ht_lookup ep s.rows).isSome = true ∨ (ht_lookup em s.rows).isSome = true ∨
      (ht_lookup em s.columns).isSome = true) :
    ∃ s', simplex_solver_delta_edit_constant s delta ep em = some s' := by
  rw [columns_within_rows_iff] at hcw
  rw [rows_live_iff] at hlive
  unfold simplex_solver_delta_edit_constant
  cases hp : ht_lookup ep s.rows with
  | some a =>
    obtain ⟨e, he⟩ := hlive ep a hp
    simp only [he]
    split_ifs <;> exact ⟨_, rfl⟩
  | none =>
    simp only
    cases hm : ht_lookup em s.rows with
    | some a =>
      obtain ⟨e, he⟩ := hlive em a hm
      simp only [he]
      split_ifs <;> exact ⟨_, rfl⟩
    | none =>
      simp only
      cases hc : ht_lookup em s.columns with
      | none => simp [hp, hm, hc] at h
      | some col =>
        simp only
        exact delta_edit_loop_some delta em col s (fun v hv => by
          obtain ⟨a, e, ha, he, _⟩ := hcw em col v hc hv
          exact ⟨a, ha, by simp [he]⟩)

/-! ## The column index under `add_row`, `remove_row` and `pivot` -/

theorem add_row_cover (s s' : SimplexSolver) (v : Variable) (a : Nat)
    (h : simplex_solver_add_row s v a = some s') (hcover : columns_cover_rows s) :
    columns_cover_rows s' := by
  cases he : expr_read s a with
  | none =>
    simp only [simplex_solver_add_row] at h
    have : expr_read { s with rows := ht_insert v a s.rows } a = none := he
    simp [this] at h
  | some e =>
    obtain ⟨s1, C, hs1, heq, hC⟩ := add_row_eq s v a e he
    rw [h] at hs1
    simp only [Option.some.injEq] at hs1
    subst hs1
    rw [columns_cover_rows_iff] at hcover ⊢
    intro b ab eb t hb heb ht
    have hread : ∀ c, expr_read s' c = expr_read s c := by
      intro c; rw [heq]; rfl
    rw [hread] at heb
    have hcols : s'.columns = C := by rw [heq]
    have hrows : s'.rows = ht_insert v a s.rows := by rw [heq]
    rw [hcols, hC t.1]
    rw [hrows, ht_lookup_insert] at hb
    by_cases hvb : v = b
    · simp only [hvb, if_true, Option.some.injEq] at hb
      subst hb
      rw [he] at heb
      simp only [Option.some.injEq] at heb
      subst heb
      have : t.1 ∈ e.terms.map Prod.fst := List.mem_map.mpr ⟨t, ht, rfl⟩
      simp only [this, if_true]
      exact ⟨_, rfl, (mem_set_add _ _ _).mpr (Or.inl hvb.symm)⟩
    · simp only [hvb, if_false] at hb
      obtain ⟨set0, hset0, hbset⟩ := hcover b ab eb t hb heb ht
      split
      · exact ⟨_, rfl, (mem_set_add _ _ _).mpr (Or.inr (by rw [hset0]; exact hbset))⟩
      · exact ⟨set0, hset0, hbset⟩

theorem remove_row_cover (s s' : SimplexSolver) (v : Variable) (a : Nat)
    (h : simplex_solver_remove_row s v = some (a, s')) (hcover : columns_cover_rows s) :
    columns_cover_rows s' := by
  cases ha : ht_lookup v s.rows with
  | none => simp [simplex_solver_remove_row, ha] at h
  | some a0 =>
    cases he : expr_read s a0 with
    | none => simp [simplex_solver_remove_row, ha, he] at h
    | some e =>
      obtain ⟨s1, C, hs1, heq, hC⟩ := remove_row_eq s v a0 e ha he
      rw [h] at hs1
      simp only [Option.some.injEq, Prod.mk.injEq] at hs1
      obtain ⟨_, hs1⟩ := hs1
      subst hs1
      rw [columns_cover_rows_iff] at hcover ⊢
      intro b ab eb t hb heb ht
      have hread : ∀ c, expr_read s' c = expr_read s c := by
        intro c; rw [heq]; rfl
      rw [hread] at heb
      have hcols : s'.columns = C := by rw [heq]
      have hrows : s'.rows = ht_remove v s.rows := by rw [heq]
      rw [hcols, hC t.1]
      rw [hrows, ht_lookup_remove] at hb
      by_cases hbv : b = v
      · simp [hbv] at hb
      · simp only [hbv, if_false] at hb
        obtain ⟨set0, hset0, hbset⟩ := hcover b ab eb t hb heb ht
        split
        · exact ⟨_, by rw [hset0]; rfl, (mem_set_remove _ _ _).mpr ⟨hbv, hbset⟩⟩
        · exact ⟨set0, hset0, hbset⟩

theorem pivot_cover (s s' : SimplexSolver) (entry exit : Variable)
    (hown : rows_own s) (hcover : columns_cover_rows s)
    (hp : simplex_solver_pivot s entry exit = some s') : columns_cover_rows s' := by
  obtain ⟨a, e, C1, mid, l3, e3, C4, X, hexit, he, hmid, hC1, hl3, he3, hs', hC4⟩ :=
    pivot_inv s s' entry exit hp
  obtain ⟨⟨exprs, upd, inf, hl3eq⟩, hshape, hstable, hlive, hmem, _, _, _, _⟩ :=
    substitute_out_loop_spec entry a _ mid l3 hl3
  rw [rows_own_iff] at hown
  rw [columns_cover_rows_iff] at hcover
  have hrows' : s'.rows = ht_insert entry a (ht_remove exit s.rows) := by
    rw [hs', hl3eq, hmid]
  have hmidrows : mid.rows = ht_remove exit s.rows := by rw [hmid]
  have hcols3 : l3.columns = C1 := by rw [hl3eq, hmid]
  have hcols' : s'.columns = C4 := by rw [hs']
  have hread' : ∀ c, expr_read s' c = expr_read l3 c := by
    intro c; rw [hs']; rfl
  have hreadmid : ∀ c, expr_read mid c =
      if a = c then some (expression_change_subject e exit entry) else expr_read s c := by
    intro c; rw [hmid]; simp [expr_read, ht_lookup_insert]
  have hrow_old : ∀ b ab, b ≠ entry → ht_lookup b s'.rows = some ab →
      b ≠ exit ∧ ht_lookup b s.rows = some ab ∧ ab ≠ a ∧ ht_lookup b mid.rows = some ab := by
    intro b ab hbe hb
    rw [hrows', ht_lookup_insert] at hb
    have hbe' : ¬ entry = b := fun h => hbe h.symm
    simp only [hbe', if_false] at hb
    have hb0 := hb
    rw [ht_lookup_remove] at hb
    by_cases hbx : b = exit
    · simp [hbx] at hb
    · simp only [hbx, if_false] at hb
      refine ⟨hbx, hb, ?_, by rw [hmidrows]; exact hb0⟩
      rintro rfl
      exact hbx (hown b exit ab hb hexit)
  have hrow_entry : ht_lookup entry s'.rows = some a := by
    rw [hrows', ht_lookup_insert]; simp
  rw [columns_cover_rows_iff]
  intro b ab eb t hb heb ht
  rw [hcols', hC4 t.1, hcols3]
  by_cases hbe : b = entry
  · subst hbe
    rw [hrow_entry] at hb
    simp only [Option.some.injEq] at hb
    subst hb
    rw [hread', he3] at heb
    simp only [Option.some.injEq] at heb
    subst heb
    have : t.1 ∈ e3.terms.map Prod.fst := List.mem_map.mpr ⟨t, ht, rfl⟩
    simp only [this, if_true]
    exact ⟨_, rfl, (mem_set_add b b _).mpr (Or.inl rfl)⟩
  · obtain ⟨hbx, hbs, haba, hbmid⟩ := hrow_old b ab hbe hb
    rw [hread'] at heb
    obtain ⟨e0, he0, hor⟩ := hshape ab eb heb
    rw [hreadmid] at he0
    have haba' : ¬ a = ab := fun h => haba h.symm
    simp only [haba', if_false] at he0
    have ht0 : t ∈ e0.terms := by
      rcases hor with hor | ⟨hor, _⟩
      · rw [← hor]; exact ht
      · rw [hor] at ht; exact ((mem_ht_remove t entry _).mp ht).1
    have hte : t.1 ≠ entry := by
      intro hte
      obtain ⟨set0, hset0, hbset⟩ := hcover b ab e0 t hbs he0 ht0
      rw [hte] at hset0
      have hbl : b ∈ (ht_lookup entry C1).getD [] := by
        rw [hC1 entry]
        split
        · simp only [hset0, Option.map_some', Option.getD_some]
          exact (mem_set_remove b exit set0).mpr ⟨hbx, hbset⟩
        · simp only [hset0, Option.getD_some]
          exact hbset
      exact (hmem b hbl ab eb hbmid heb).1 (List.mem_map.mpr ⟨t, ht, hte⟩)
    obtain ⟨set0, hset0, hbset⟩ := hcover b ab e0 t hbs he0 ht0
    have hC1t : ∃ set1, ht_lookup t.1 (ht_remove entry C1) = some set1 ∧ b ∈ set1 := by
      rw [ht_lookup_remove]
      simp only [hte, if_false]
      rw [hC1 t.1]
      split
      · exact ⟨_, by rw [hset0]; rfl, (mem_set_remove b exit set0).mpr ⟨hbx, hbset⟩⟩
      · exact ⟨set0, hset0, hbset⟩
    obtain ⟨set1, hset1, hbset1⟩ := hC1t
    split
    · exact ⟨_, rfl, (mem_set_add b entry _).mpr (Or.inr (by rw [hset1]; exact hbset1))⟩
    · exact ⟨set1, hset1, hbset1⟩

/-! ## The stay reset of `resolve` -/

theorem reset_stay_select_write (s : SimplexSolver) (a : Nat) (e : Expression) (p : Variable)
    (i : Nat) : reset_stay_select (expr_write s a e) p i = reset_stay_select s p i := rfl

theorem set_constant_idem (e : Expression) :
    expression_set_constant (expression_set_constant e 0) 0 = expression_set_constant e 0 :=
  rfl

theorem reset_stay_loop_selected (plus : List Variable) (i : Nat) (s s3 : SimplexSolver)
    (h : reset_stay_loop plus i s = some s3) :
    (∀ k p a, plus[k]? = some p → reset_stay_select s p (i + k) = some (some a) →
      ∃ e, expr_read s a = some e ∧ expr_read s3 a = some (expression_set_constant e 0)) ∧
    (∀ a, (∀ k p, plus[k]? = some p → reset_stay_select s p (i + k) ≠ some (some a)) →
      expr_read s3 a = expr_read s a) := by
  induction plus generalizing i s with
  | nil =>
    simp only [reset_stay_loop, Option.some.injEq] at h
    subst h
    exact ⟨fun k p a hk => by simp at hk, fun a _ => rfl⟩
  | cons var rest ih =>
    unfold reset_stay_loop at h
    cases hsel : reset_stay_select s var i with
    | none => simp [hsel] at h
    | some o =>
      cases o with
      | none =>
        simp only [hsel] at h
        obtain ⟨hA, hB⟩ := ih (i + 1) s h
        constructor
        · intro k p a hk hs
          cases k with
          | zero =>
            simp only [List.getElem?_cons_zero, Option.some.injEq] at hk
            subst hk
            rw [Nat.add_zero, hsel] at hs
            simp at hs
          | succ k =>
            simp only [List.getElem?_cons_succ] at hk
            exact hA k p a hk (by rw [Nat.add_assoc, Nat.add_comm 1 k]; exact hs)
        · intro a hno
          apply hB
          intro k p hk
          have := hno (k + 1) p (by simpa using hk)
          rw [Nat.add_assoc, Nat.add_comm 1 k]
          exact this
      | some a0 =>
        simp only [hsel] at h
        cases hm : expr_modify s a0 (fun e => expression_set_constant e 0) with
        | none => simp [hm] at h
        | some s1 =>
          simp only [hm] at h
          obtain ⟨e0, he0, hs1⟩ := expr_modify_some s s1 a0 _ hm
          obtain ⟨hA, hB⟩ := ih (i + 1) s1 h
          have hread1 : ∀ c, expr_read s1 c =
              if a0 = c then some (expression_set_constant e0 0) else expr_read s c := by
            intro c
            rw [hs1]
            exact expr_read_write s a0 c _
          have hselw : ∀ p j, reset_stay_select s1 p j = reset_stay_select s p j := by
            intro p j
            rw [hs1]
            rfl
          have hfinal : ∀ a e, expr_read s a = some e →
              (a = a0 ∨ ∃ k p, rest[k]? = some p ∧
                reset_stay_select s p (i + 1 + k) = some (some a)) →
              expr_read s3 a = some (expression_set_constant e 0) := by
            intro a e he hcase
            by_cases hlater : ∃ k p, rest[k]? = some p ∧
                reset_stay_select s p (i + 1 + k) = some (some a)
            · obtain ⟨k, p, hk, hs⟩ := hlater
              obtain ⟨e1, he1, h3⟩ := hA k p a hk (by rw [hselw]; exact hs)
              rw [hread1] at he1
              by_cases ha : a0 = a
              · simp only [ha, if_true, Option.some.injEq] at he1
                rw [ha, he] at he0
                simp only [Option.some.injEq] at he0
                rw [h3, ← he1, ← he0]
                rfl
              · simp only [ha, if_false] at he1
                rw [he] at he1
                simp only [Option.some.injEq] at he1
                rw [h3, ← he1]
            · have ha : a = a0 := by
                rcases hcase with ha | hex
                · exact ha
                · exact absurd hex hlater
              have : expr_read s3 a = expr_read s1 a := by
                apply hB
                intro k p hk hs
                exact hlater ⟨k, p, hk, by rw [← hselw]; exact hs⟩
              rw [this, hread1, ha]
              rw [ha, he0] at he
              simp only [Option.some.injEq] at he
              simp [he]
          constructor
          · intro k p a hk hs
            cases k with
            | zero =>
              simp only [List.getElem?_cons_zero, Option.some.injEq] at hk
              subst hk
              rw [Nat.add_zero, hsel] at hs
              simp only [Option.some.injEq] at hs
              subst hs
              exact ⟨e0, he0, hfinal _ e0 he0 (Or.inl rfl)⟩
            | succ k =>
              simp only [List.getElem?_cons_succ] at hk
              have hs' : reset_stay_select s p (i + 1 + k) = some (some a) := by
                rw [Nat.add_assoc, Nat.add_comm 1 k]; exact hs
              obtain ⟨e1, he1, _⟩ := hA k p a hk (by rw [hselw]; exact hs')
              rw [hread1] at he1
              by_cases ha : a0 = a
              · subst ha
                exact ⟨e0, he0, hfinal _ e0 he0 (Or.inl rfl)⟩
              · simp only [ha, if_false] at he1
                exact ⟨e1, he1, hfinal a e1 he1 (Or.inr ⟨k, p, hk, hs'⟩)⟩
          · intro a hno
            have ha : ¬ a0 = a := by
              intro ha
              apply hno 0 var (by simp)
              rw [Nat.add_zero, hsel, ha]
            have : expr_read s3 a = expr_read s1 a := by
              apply hB
              intro k p hk
              rw [hselw]
              have := hno (k + 1) p (by simpa using hk)
              rw [Nat.add_assoc, Nat.add_comm 1 k]
              exact this
            rw [this, hread1]
            simp only [ha, if_false]

/-! ## The pivots of `optimize` and `dual_optimize` -/

theorem pivotable_not_dummy (v : Variable) (h : variable_is_pivotable v = true) :
    variable_is_dummy v = false := by
  simp only [variable_is_pivotable, decide_eq_true_eq] at h
  simp [variable_is_dummy, h]

theorem optimize_loop_pivots_run (z_row : Nat) (fuel : Nat) (exit : Option Variable)
    (s : SimplexSolver) :
    (optimize_loop_pivots z_row fuel exit s).2 = optimize_loop z_row fuel exit s := by
  induction fuel generalizing exit s with
  | zero => rfl
  | succ n ih =>
    rw [optimize_loop_pivots, optimize_loop]
    cases expr_read s z_row with
    | none => rfl
    | some z =>
      simp only
      split_ifs with hopt
      · rfl
      · cases (z.terms.foldl find_negative_coefficient
            { objective_coefficient := 0, entry_variable := none }).entry_variable with
        | none => rfl
        | some entry =>
          simp only
          cases simplex_solver_get_column_set s entry with
          | none => rfl
          | some col =>
            simp only
            cases optimize_exit_loop s entry col (DBL_MAX, exit) with
            | none => rfl
            | some st =>
              obtain ⟨m, x⟩ := st
              simp only
              split_ifs with happ
              · exact ih _ _
              · cases x with
                | none => rfl
                | some exit_var =>
                  simp only
                  cases simplex_solver_pivot s entry exit_var with
                  | none => rfl
                  | some s1 => exact ih _ _

theorem optimize_loop_pivots_pivotable (z_row : Nat) (fuel : Nat) (exit : Option Variable)
    (s : SimplexSolver) :
    ∀ p ∈ (optimize_loop_pivots z_row fuel exit s).1,
      variable_is_pivotable p.1 = true ∧
      ∃ x, p.2 = some x ∧ variable_is_pivotable x = true := by
  induction fuel generalizing exit s with
  | zero => intro p hp; simp [optimize_loop_pivots] at hp
  | succ n ih =>
    rw [optimize_loop_pivots]
    cases hz : expr_read s z_row with
    | none => intro p hp; simp at hp
    | some z =>
      simp only
      obtain ⟨_, _, hsel⟩ := find_negative_fold z.terms
        { objective_coefficient := 0, entry_variable := none }
      split_ifs with hopt
      · intro p hp; simp at hp
      · cases hentry : (z.terms.foldl find_negative_coefficient
            { objective_coefficient := 0, entry_variable := none }).entry_variable with
        | none => intro p hp; simp at hp
        | some entry =>
          simp only
          have hep : variable_is_pivotable entry = true := by
            rcases hsel with hsel | ⟨t, _, hp, hsel⟩
            · rw [hsel] at hentry
              simp at hentry
            · rw [hsel] at hentry
              simp only [Option.some.injEq] at hentry
              exact hentry ▸ hp
          cases hcol : simplex_solver_get_column_set s entry with
          | none => intro p hp; simp at hp
          | some col =>
            simp only
            cases hloop : optimize_exit_loop s entry col (DBL_MAX, exit) with
            | none => intro p hp; simp at hp
            | some st =>
              obtain ⟨m, x⟩ := st
              simp only
              split_ifs with happ
              · exact ih _ _
              · have hxp : ∃ v, x = some v ∧ variable_is_pivotable v = true := by
                  rcases optimize_exit_loop_exit s entry col _ _ hloop with h0 | ⟨v, _, h0, hv⟩
                  · simp only [Prod.mk.injEq] at h0
                    rw [h0.1] at happ
                    exact absurd (by simp [approx_val, APPROX_EPS]) happ
                  · exact ⟨v, h0, hv⟩
                obtain ⟨v, hx, hv⟩ := hxp
                subst hx
                simp only
                cases simplex_solver_pivot s entry v with
                | none =>
                  intro p hp
                  simp only [List.mem_singleton] at hp
                  subst hp
                  exact ⟨hep, v, rfl, hv⟩
                | some s1 =>
                  intro p hp
                  simp only [List.mem_cons] at hp
                  rcases hp with hp | hp
                  · subst hp
                    exact ⟨hep, v, rfl, hv⟩
                  · exact ih _ _ p hp

theorem dual_optimize_loop_pivots_run (z_row : Option Nat) (fuel : Nat) (s : SimplexSolver) :
    (dual_optimize_loop_pivots z_row fuel s).2 = dual_optimize_loop z_row fuel s := by
  induction fuel generalizing s with
  | zero =>
    rw [dual_optimize_loop_pivots, dual_optimize_loop]
    cases s.infeasible_rows <;> rfl
  | succ n ih =>
    rw [dual_optimize_loop_pivots, dual_optimize_loop]
    cases s.infeasible_rows with
    | nil => rfl
    | cons exit_var rest =>
      simp only
      cases ht_lookup exit_var s.rows with
      | none => exact ih _
      | some expr =>
        simp only
        cases expr_read { s with infeasible_rows := set_remove exit_var (exit_var :: rest) }
            expr with
        | none => rfl
        | some e =>
          simp only
          split_ifs with h1
          · exact ih _
          · cases find_ratio_foreach
                { s with infeasible_rows := set_remove exit_var (exit_var :: rest) }
                e.terms { entry := none, ratio := DBL_MAX, z_row := z_row } with
            | none => rfl
            | some data =>
              simp only
              cases data.entry with
              | none => exact ih _
              | some entry_var =>
                simp only
                split_ifs with h2
                · cases simplex_solver_pivot
                      { s with infeasible_rows := set_remove exit_var (exit_var :: rest) }
                      entry_var exit_var with
                  | none => rfl
                  | some s2 =>
                    simp only
                    split_ifs with h3
                    · rfl
                    · exact ih _
                · exact ih _
theorem dual_optimize_loop_pivots_pivotable (z_row : Option Nat) (fuel : Nat)
    (s : SimplexSolver) :
    ∀ p ∈ (dual_optimize_loop_pivots z_row fuel s).1, variable_is_pivotable p.1 = true := by
  induction fuel generalizing s with
  | zero =>
    rw [dual_optimize_loop_pivots]
    cases s.infeasible_rows <;> (intro p hp; simp at hp)
  | succ n ih =>
    rw [dual_optimize_loop_pivots]
    cases s.infeasible_rows with
    | nil => intro p hp; simp at hp
    | cons exit_var rest =>
      simp only
      cases ht_lookup exit_var s.rows with
      | none => exact ih _
      | some expr =>
        simp only
        cases expr_read { s with infeasible_rows := set_remove exit_var (exit_var :: rest) }
            expr with
        | none => intro p hp; simp at hp
        | some e =>
          simp only
          split_ifs with h1
          · exact ih _
          · cases hf : find_ratio_foreach
                { s with infeasible_rows := set_remove exit_var (exit_var :: rest) }
                e.terms { entry := none, ratio := DBL_MAX, z_row := z_row } with
            | none => intro p hp; simp at hp
            | some data =>
              simp only
              cases hentry : data.entry with
              | none => exact ih _
              | some entry_var =>
                simp only
                have hep : variable_is_pivotable entry_var = true := by
                  rcases find_ratio_foreach_entry _ _ _ _ hf with h0 | ⟨t, _, h0, _, ht⟩
                  · rw [hentry] at h0
                    simp at h0
                  · rw [hentry] at h0
                    simp only [Option.some.injEq] at h0
                    exact h0 ▸ ht
                split_ifs with h2
                · cases simplex_solver_pivot
                      { s with infeasible_rows := set_remove exit_var (exit_var :: rest) }
                      entry_var exit_var with
                  | none =>
                    intro p hp
                    simp only [List.mem_singleton] at hp
                    subst hp
                    exact hep
                  | some s2 =>
                    simp only
                    split_ifs with h3
                    · intro p hp
                      simp only [List.mem_singleton] at hp
                      subst hp
                      exact hep
                    · intro p hp
                      simp only [List.mem_cons] at hp
                      rcases hp with hp | hp
                      · subst hp
                        exact hep
                      · exact ih _ p hp
                · exact ih _

theorem pivot_basis (s s' : SimplexSolver) (entry exit w : Variable)
    (h : simplex_solver_pivot s entry exit = some s') (h1 : w ≠ entry)
    (hw : (ht_lookup w s'.rows).isSome = true) : (ht_lookup w s.rows).isSome = true := by
  by_cases h2 : w = exit
  · obtain ⟨a, e, C1, mid, l3, e3, C4, X, ha, _⟩ := pivot_inv s s' entry exit h
    rw [h2, ha]
    rfl
  · rw [← pivot_rows s s' entry exit w h h1 h2]
    exact hw

theorem dual_optimize_loop_basis (z_row : Option Nat) (fuel : Nat) (s d : SimplexSolver)
    (h : dual_optimize_loop z_row fuel s = some d) (w : Variable)
    (hwp : variable_is_pivotable w = false) (hw : (ht_lookup w d.rows).isSome = true) :
    (ht_lookup w s.rows).isSome = true := by
  induction fuel generalizing s with
  | zero =>
    rw [dual_optimize_loop] at h
    cases hi : s.infeasible_rows with
    | nil =>
      simp only [hi, Option.some.injEq] at h
      subst h
      exact hw
    | cons exit_var rest => simp [hi] at h
  | succ n ih =>
    cases hi : s.infeasible_rows with
    | nil =>
      rw [dual_optimize_loop] at h
      simp only [hi, Option.some.injEq] at h
      subst h
      exact hw
    | cons exit_var rest =>
      rw [dual_optimize_loop_step z_row n s exit_var rest hi] at h
      cases hentry : dual_optimize_entry z_row
          { s with infeasible_rows := set_remove exit_var s.infeasible_rows } exit_var with
      | none => simp [hentry] at h
      | some o =>
        cases o with
        | none =>
          simp only [hentry] at h
          have h3 := ih _ h
          exact h3
        | some entry_var =>
          simp only [hentry] at h
          obtain ⟨_, _, _, _, _, _, _, _, _, _, _, _, hep, _⟩ :=
            dual_optimize_entry_spec z_row _ exit_var entry_var hentry
          cases hp : simplex_solver_pivot
              { s with infeasible_rows := set_remove exit_var s.infeasible_rows }
              entry_var exit_var with
          | none => simp [hp] at h
          | some s2 =>
            simp only [hp] at h
            have hne : w ≠ entry_var := by
              intro he
              rw [he, hep] at hwp
              exact absurd hwp (by simp)
            have h3 : (ht_lookup w s2.rows).isSome = true := by
              split_ifs at h with hinv
              · simp only [Option.some.injEq] at h
                subst h
                exact hw
              · exact ih _ h
            have h4 := pivot_basis _ s2 entry_var exit_var w hp hne h3
            exact h4

/-! ## Objects that are no row -/

theorem expr_fresh_unused (s : SimplexSolver) : expr_read s (expr_fresh s) = none := by
  have hle : ∀ l : List Nat, ∀ k ∈ l, k ≤ l.foldr max 0 := by
    intro l
    induction l with
    | nil => intro k hk; simp at hk
    | cons a t ih =>
      intro k hk
      simp only [List.foldr_cons]
      rcases List.mem_cons.mp hk with rfl | hk
      · exact le_max_left _ _
      · exact le_trans (ih k hk) (le_max_right _ _)
  unfold expr_read
  rw [ht_lookup_none_iff]
  intro hmem
  have := hle _ _ hmem
  unfold expr_fresh at this
  omega

theorem fold_update_externals_frame (terms : List (Variable × ℚ)) (s : SimplexSolver) :
    (terms.foldl update_externals s).rows = s.rows ∧
    (terms.foldl update_externals s).expressions = s.expressions ∧
    (terms.foldl update_externals s).auto_solve = s.auto_solve := by
  induction terms generalizing s with
  | nil => exact ⟨rfl, rfl, rfl⟩
  | cons t ts ih =>
    rw [List.foldl_cons]
    obtain ⟨h1, h2, h3⟩ := ih (update_externals s t)
    have hstep : (update_externals s t).rows = s.rows ∧
        (update_externals s t).expressions = s.expressions ∧
        (update_externals s t).auto_solve = s.auto_solve := by
      unfold update_externals simplex_solver_update_variable
      split_ifs
      · cases s.external_vars <;> exact ⟨rfl, rfl, rfl⟩
      · exact ⟨rfl, rfl, rfl⟩
    exact ⟨h1.trans hstep.1, h2.trans hstep.2.1, h3.trans hstep.2.2⟩

/-- A pivot that returns leaves alone every expression object that is not a
row, and such an object is no row afterwards either. -/
theorem pivot_expr_frame (s s' : SimplexSolver) (entry exit : Variable) (c : Nat)
    (h : simplex_solver_pivot s entry exit = some s')
    (hc : ∀ v, ht_lookup v s.rows ≠ some c) :
    expr_read s' c = expr_read s c ∧ ∀ v, ht_lookup v s'.rows ≠ some c := by
  obtain ⟨a, e, C1, mid, l3, e3, C4, X, ha, _, hmid, _, hl3, _, hs', _⟩ :=
    pivot_inv s s' entry exit h
  obtain ⟨⟨exprs, upd, inf, hl3eq⟩, hback, _, hlive, _⟩ :=
    substitute_out_loop_spec entry a _ mid l3 hl3
  have hca : a ≠ c := by
    intro hac
    exact hc exit (hac ▸ ha)
  have hmid_read : expr_read mid c = expr_read s c := by
    rw [hmid]
    unfold expr_read
    exact ht_lookup_insert_ne c a _ _ hca
  have hmid_rows : ∀ v, ht_lookup v mid.rows ≠ some c := by
    intro v hv
    rw [hmid] at hv
    simp only [ht_lookup_remove] at hv
    split_ifs at hv
    exact hc v hv
  have hl3_read : expr_read l3 c = expr_read mid c := by
    cases h3 : expr_read l3 c with
    | some e3' =>
      obtain ⟨e0, he0, hor⟩ := hback c e3' h3
      rcases hor with hor | ⟨_, v, _, hv⟩
      · rw [he0, hor]
      · exact absurd hv (hmid_rows v)
    | none =>
      cases hm : expr_read mid c with
      | none => rfl
      | some e0 =>
        have := hlive c (by rw [hm]; rfl)
        rw [h3] at this
        simp at this
  constructor
  · have : expr_read s' c = expr_read l3 c := by rw [hs']; rfl
    rw [this, hl3_read, hmid_read]
  · intro v hv
    rw [hs'] at hv
    simp only [ht_lookup_insert] at hv
    split_ifs at hv
    · simp only [Option.some.injEq] at hv
      exact hca hv
    · rw [hl3eq] at hv
      exact hmid_rows v hv

theorem dual_optimize_loop_expr_frame (z_row : Option Nat) (fuel : Nat) (s d : SimplexSolver)
    (c : Nat) (h : dual_optimize_loop z_row fuel s = some d)
    (hc : ∀ v, ht_lookup v s.rows ≠ some c) :
    expr_read d c = expr_read s c ∧ ∀ v, ht_lookup v d.rows ≠ some c := by
  induction fuel generalizing s with
  | zero =>
    rw [dual_optimize_loop] at h
    cases hi : s.infeasible_rows with
    | nil =>
      simp only [hi, Option.some.injEq] at h
      subst h
      exact ⟨rfl, hc⟩
    | cons exit_var rest => simp [hi] at h
  | succ n ih =>
    cases hi : s.infeasible_rows with
    | nil =>
      rw [dual_optimize_loop] at h
      simp only [hi, Option.some.injEq] at h
      subst h
      exact ⟨rfl, hc⟩
    | cons exit_var rest =>
      rw [dual_optimize_loop_step z_row n s exit_var rest hi] at h
      cases hentry : dual_optimize_entry z_row
          { s with infeasible_rows := set_remove exit_var s.infeasible_rows } exit_var with
      | none => simp [hentry] at h
      | some o =>
        cases o with
        | none =>
          simp only [hentry] at h
          have h3 := ih _ h hc
          exact h3
        | some entry_var =>
          simp only [hentry] at h
          cases hp : simplex_solver_pivot
              { s with infeasible_rows := set_remove exit_var s.infeasible_rows }
              entry_var exit_var with
          | none => simp [hp] at h
          | some s2 =>
            simp only [hp] at h
            have h4 := pivot_expr_frame _ s2 entry_var exit_var c hp hc
            split_ifs at h with hinv
            · simp only [Option.some.injEq] at h
              subst h
              exact h4
            · have h5 := ih _ h h4.2
              exact ⟨h5.1.trans h4.1, h5.2⟩

/-- A call of `resolve` that returns leaves alone every expression object that
is not a row. -/
theorem resolve_expr_frame (fuel : Nat) (s s' : SimplexSolver) (c : Nat)
    (h : simplex_solver_resolve fuel s = some s')
    (hc : ∀ v, ht_lookup v s.rows ≠ some c) :
    expr_read s' c = expr_read s c := by
  unfold simplex_solver_resolve at h
  cases hn : s.needs_solving with
  | false =>
    simp only [hn, Bool.not_false, if_true, Option.some.injEq] at h
    rw [h]
  | true =>
    simp only [hn, Bool.not_true, Bool.false_eq_true, if_false] at h
    cases hd : simplex_solver_dual_optimize fuel s with
    | none => simp [hd] at h
    | some d =>
      simp only [hd] at h
      obtain ⟨hdr, hdc⟩ := dual_optimize_loop_expr_frame _ fuel s d c hd hc
      cases h2 : simplex_solver_set_external_variables d with
      | none => simp [h2] at h
      | some s2 =>
        simp only [h2] at h
        obtain ⟨vals, upd, ns, hs2⟩ := set_external_loop_frame _ _ _ h2
        cases h3 : simplex_solver_reset_stay_constraints { s2 with infeasible_rows := [] } with
        | none => simp [h3] at h
        | some s3 =>
          simp only [h3, Option.some.injEq] at h
          obtain ⟨_, hframe, _, _⟩ := reset_stay_loop_spec _ _ _ _ h3
          have h4 := hframe c (by
            intro sv _ hl
            have : ht_lookup sv d.rows = some c := by rw [hs2] at hl; exact hl
            exact hdc sv this)
          have h5 : expr_read s' c = expr_read s3 c := by rw [← h]; rfl
          have h6 : expr_read { s2 with infeasible_rows := [] } c = expr_read d c := by
            rw [hs2]; rfl
          rw [h5, h4, h6, hdr]

/-! ## The claims -/

/-- C1 (code bug).  In the scenario of the test `emeus_solver_simple`, for all
initial values `x0` and `y0`, the variables still hold `x0` and `y0` after the
required constraint `x == y` was added, and also after a following `resolve`:
`simplex_solver_add_constraint_internal` never builds a row.  At the values
of the test, `167` and `2`, neither variable is `0`. -/
theorem C1_required_equality_leaves_values (fuel : Nat) (x0 y0 : ℚ) :
    match emeus_solver_simple fuel x0 y0 with
    | none => False
    | some (s, x, y) =>
      variable_get_value s x = x0 ∧ variable_get_value s y = y0 ∧
      match simplex_solver_resolve fuel s with
      | none => False
      | some s' => variable_get_value s' x = x0 ∧ variable_get_value s' y = y0 := by
  norm_num [emeus_solver_simple, simplex_solver_init, simplex_solver_create_variable,
    expr_alloc, simplex_solver_add_constraint, expr_read, expr_write, expr_fresh, ht_lookup,
    ht_insert, variable_set_value, variable_new, expression_new_from_variable,
    expression_add_expression, expression_add_variable, expression_set_variable,
    expression_get_coefficient, update_externals, simplex_solver_update_variable,
    variable_is_external, g_critical, simplex_solver_add_constraint_internal,
    variable_get_value, resolve_quiet, APPROX_EPS]

/-- C2 (code bug).  In the scenario of the tests
`emeus_solver_variable_geq_constant`, `..._leq_constant` and `..._eq_constant`,
for every operator, constant `c` and initial value `x0`, the variable still
holds `x0` after `x op c` was added as a required constraint, and also after a
following `resolve`; it holds `c` only when `x0 = c`. -/
theorem C2_constant_bound_leaves_value (fuel : Nat) (op : OperatorType) (c x0 : ℚ) :
    match emeus_solver_variable_op_constant fuel op c x0 with
    | none => False
    | some (s, x) =>
      variable_get_value s x = x0 ∧
      match simplex_solver_resolve fuel s with
      | none => False
      | some s' => variable_get_value s' x = x0 := by
  norm_num [emeus_solver_variable_op_constant, simplex_solver_init,
    simplex_solver_create_variable, simplex_solver_create_expression, expression_new,
    expr_alloc, simplex_solver_add_constraint, expr_read, expr_write, expr_fresh, ht_lookup,
    ht_insert, variable_set_value, variable_new, expression_new_from_variable,
    expression_add_expression, simplex_solver_add_constraint_internal,
    variable_get_value, resolve_quiet]

/-- C3 (code bug).  In the scenario of the test `emeus_solver_edit_var_suggest`
(stay on `a`, `a == b` required, edit on `a`, `begin_edit`), for all suggested
values `v` and `w`: after `suggest_value (a, v)` and `resolve` both `a` and `b`
still hold `0`, and so they do after a further `suggest_value (a, w)` and
`resolve`.  The body of `simplex_solver_suggest_value` is empty. -/
theorem C3_suggest_value_leaves_values (fuel : Nat) (v w : ℚ) :
    match emeus_solver_edit_var_setup fuel with
    | none => False
    | some (s, a, b) =>
      match emeus_solver_suggest_resolve fuel s a v with
      | none => False
      | some s1 =>
        variable_get_value s1 a = 0 ∧ variable_get_value s1 b = 0 ∧
        match emeus_solver_suggest_resolve fuel s1 a w with
        | none => False
        | some s2 => variable_get_value s2 a = 0 ∧ variable_get_value s2 b = 0 := by
  norm_num [emeus_solver_edit_var_setup, emeus_solver_suggest_resolve,
    simplex_solver_begin_edit, simplex_solver_suggest_value,
    simplex_solver_add_stay_variable, simplex_solver_add_edit_variable, expression_plus,
    simplex_solver_init, simplex_solver_create_variable,
    expr_alloc, simplex_solver_add_constraint, expr_read, expr_write, expr_fresh, ht_lookup,
    ht_insert, variable_set_value, variable_new, expression_new_from_variable,
    expression_add_expression, expression_add_variable, expression_set_variable,
    expression_get_coefficient, update_externals, simplex_solver_update_variable,
    variable_is_external, g_critical, simplex_solver_add_constraint_internal,
    variable_get_value, resolve_quiet, APPROX_EPS]

/-- C4.  In the scenario of the test `emeus_solver_stay`, for all initial
values `x0` and `y0` and all strengths: after `add_stay (x)` and `add_stay (y)`
the variables hold `x0` and `y0`, and `resolve` returns a solver in which they
still do. -/
theorem C4_stay_keeps_values (fuel : Nat) (x0 y0 : ℚ) (sx sy : StrengthType) :
    match emeus_solver_stay fuel x0 y0 sx sy with
    | none => False
    | some (s, x, y) =>
      variable_get_value s x = x0 ∧ variable_get_value s y = y0 ∧
      match simplex_solver_resolve fuel s with
      | none => False
      | some s' => variable_get_value s' x = x0 ∧ variable_get_value s' y = y0 := by
  norm_num [emeus_solver_stay, simplex_solver_add_stay_variable, expression_plus,
    simplex_solver_init, simplex_solver_create_variable,
    expr_alloc, expr_read, expr_write, expr_fresh, ht_lookup,
    ht_insert, variable_set_value, variable_new, expression_new_from_variable,
    simplex_solver_add_constraint_internal,
    variable_get_value, resolve_quiet]

/-- C5 (code bug).  On a freshly initialised solver with one external variable
`x`, each of `add_stay_variable`, `add_edit_variable` and `add_constraint`
(against a constant expression) returns a constraint, logs no critical message
and leaves `marker_vars` empty: there is no entry for the returned constraint. -/
theorem C5_no_marker_recorded (fuel : Nat) (x0 c : ℚ) (op : OperatorType)
    (strength : StrengthType) :
    (match simplex_solver_add_stay_variable fuel
        (simplex_solver_create_variable (simplex_solver_init 0) 1 x0).2 0
        (simplex_solver_create_variable (simplex_solver_init 0) 1 x0).1 strength with
      | none => False
      | some (cn, s) => s.criticals = [] ∧ s.marker_vars = [] ∧
          ht_lookup cn s.marker_vars = none) ∧
    (match simplex_solver_add_edit_variable fuel
        (simplex_solver_create_variable (simplex_solver_init 0) 1 x0).2 0
        (simplex_solver_create_variable (simplex_solver_init 0) 1 x0).1 strength with
      | none => False
      | some (cn, s) => s.criticals = [] ∧ s.marker_vars = [] ∧
          ht_lookup cn s.marker_vars = none) ∧
    (match simplex_solver_add_constraint fuel
        (simplex_solver_create_expression
          (simplex_solver_create_variable (simplex_solver_init 0) 1 x0).2 c).2 0
        (simplex_solver_create_variable (simplex_solver_init 0) 1 x0).1 op
        (simplex_solver_create_expression
          (simplex_solver_create_variable (simplex_solver_init 0) 1 x0).2 c).1 strength with
      | none => False
      | some (cn, s) => s.criticals = [] ∧ s.marker_vars = [] ∧
          ht_lookup cn s.marker_vars = none) := by
  norm_num [simplex_solver_add_stay_variable, simplex_solver_add_edit_variable,
    expression_plus, simplex_solver_create_expression, expression_new,
    simplex_solver_init, simplex_solver_create_variable,
    expr_alloc, simplex_solver_add_constraint, expr_read, expr_write, expr_fresh, ht_lookup,
    ht_insert, variable_set_value, variable_new, expression_new_from_variable,
    expression_add_expression, simplex_solver_add_constraint_internal]

/-- C6 (code bug).  In `ex_two_infeasible` the restricted variables `s1` and
`s4` are filed as infeasible, with the rows `-5 + s2` and `-5 + t1`.  The
loop of `dual_optimize` pivots `s2` into the row of `s1`; `substitute_out`
then files `s3`, whose constant has become negative, in `infeasible_rows`,
the set the loop is iterating.  The iterator is no longer valid, GLib logs its
critical message and the loop ends without visiting `s4`.  `resolve` empties
`infeasible_rows` and returns: the row of `s4` still is `-5 + t1`, although
`t1` is pivotable, has a positive coefficient there and the ratio `1` against
the objective row `5 + t1`, so that the search of the loop names it as the
entering variable.  With the set listed in the other order it is the row of
`s1` that is left at `-5 + s2`.  And in `ex_stuck`, where the row of `s1` is
`-1 - s2`, `resolve` returns with the constant `-1` in place and no message
at all. -/
theorem C6_resolve_leaves_rows_infeasible :
    (simplex_solver_dual_optimize_pivots 2 ex_two_infeasible).1 = [(ex_s2, ex_s1)] ∧
    (∃ d, simplex_solver_dual_optimize 2 ex_two_infeasible = some d ∧
      d.criticals = [Critical.iter_invalid] ∧ d.infeasible_rows = [ex_s4, ex_s3] ∧
      expr_read d 3 = some ⟨-4, []⟩) ∧
    (∃ s', simplex_solver_resolve 2 ex_two_infeasible = some s' ∧
      s'.criticals = [Critical.iter_invalid] ∧ s'.infeasible_rows = [] ∧
      s'.needs_solving = false ∧
      variable_is_restricted ex_s4 = true ∧ ht_lookup ex_s4 s'.rows = some 4 ∧
      expr_read s' 4 = some ⟨-5, [(ex_t1, 1)]⟩ ∧
      variable_is_pivotable ex_t1 = true ∧
      ht_lookup s'.objective s'.rows = some 1 ∧ expr_read s' 1 = some ⟨5, [(ex_t1, 1)]⟩ ∧
      dual_optimize_entry (some 1) s' ex_s4 = some (some ex_t1)) ∧
    (∃ s', simplex_solver_resolve 2 ex_two_infeasible_swapped = some s' ∧
      s'.criticals = [Critical.iter_invalid] ∧ s'.infeasible_rows = [] ∧
      variable_is_restricted ex_s1 = true ∧ ht_lookup ex_s1 s'.rows = some 2 ∧
      expr_read s' 2 = some ⟨-5, [(ex_s2, 1)]⟩ ∧
      variable_is_pivotable ex_s2 = true ∧
      ht_lookup s'.objective s'.rows = some 1 ∧ expr_read s' 1 = some ⟨5, [(ex_s2, 1)]⟩ ∧
      dual_optimize_entry (some 1) s' ex_s1 = some (some ex_s2)) ∧
    (∃ s', simplex_solver_resolve 1 ex_stuck = some s' ∧
      s'.criticals = [] ∧ s'.infeasible_rows = [] ∧
      variable_is_restricted ex_s1 = true ∧
      ht_lookup ex_s1 s'.rows = some 2 ∧
      expr_read s' 2 = some ⟨-1, [(ex_s2, -1)]⟩) :=
  ⟨by decide!, option_obs _ _ (by decide!), option_obs _ _ (by decide!),
    option_obs _ _ (by decide!), option_obs _ _ (by decide!)⟩

/-- C7 (code bug).  In `ex_direct`, the solver of the test `emeus_solver_simple`
once the row of the required `x == y` is in the tableau, `y` (value `2`) has
just been given the external row `y = 0 + x + d` by `add_row`, which does not
file it in `updated_externals`.  `resolve` runs (`needs_solving` is set) and
returns: `y` still has that external row, with constant `0`, and still holds
`2`, where the test asserts `0`. -/
theorem C7_external_row_not_refreshed :
    (∃ s0, ex_direct = some s0 ∧ s0.needs_solving = true ∧
      ht_lookup ex_y s0.external_rows = some 2 ∧ ex_y ∉ s0.updated_externals ∧
      variable_get_value s0 ex_y = 2) ∧
    (∃ s', ex_direct.bind (simplex_solver_resolve 0) = some s' ∧
      s'.needs_solving = false ∧
      variable_is_external ex_y = true ∧
      ht_lookup ex_y s'.external_rows = some 2 ∧
      expr_read s' 2 = some ⟨0, [(ex_x, 1), (variable_new 3 VariableType.VARIABLE_DUMMY, 1)]⟩ ∧
      (expr_read s' 2).map expression_get_constant = some 0 ∧
      variable_get_value s' ex_y = 2) :=
  ⟨option_obs _ _ (by decide!), option_obs _ _ (by decide!)⟩

/-- C8.  Idempotent `resolve`: a second call on the solver the first one
returned gives back that very solver, whatever the fuel; every field of the
state, the variable values included, is as the first call left it. -/
theorem C8_resolve_idempotent (fuel fuel' : Nat) (s s' : SimplexSolver)
    (h : simplex_solver_resolve fuel s = some s') :
    simplex_solver_resolve fuel' s' = some s' := by
  have hn := resolve_needs_solving fuel s s' h
  simp [simplex_solver_resolve, hn]

theorem C8_resolve_idempotent_witness :
    ∃ s', simplex_solver_resolve 1 ex_tableau = some s' ∧
      variable_get_value s' ex_x = 13 ∧ simplex_solver_resolve 0 s' = some s' := by
  cases h : simplex_solver_resolve 1 ex_tableau with
  | none => exact absurd h (by decide!)
  | some s' =>
    have hv : (simplex_solver_resolve 1 ex_tableau).map (fun s => variable_get_value s ex_x)
        = some 13 := by decide!
    rw [h] at hv
    exact ⟨s', rfl, by simpa using hv, C8_resolve_idempotent 1 0 ex_tableau s' h⟩

/-- C9.  When `try_adding_directly` returns false (the case in which
`choose_subject` finds no subject), `rows`, `columns`, `external_rows`,
`infeasible_rows` and every expression object, the argument included, are as
they were before the call. -/
theorem C9_try_adding_directly_false_unchanged (s s' : SimplexSolver) (expression : Nat)
    (h : simplex_solver_try_adding_directly s expression = some (false, s')) :
    s'.rows = s.rows ∧ s'.columns = s.columns ∧ s'.external_rows = s.external_rows ∧
      s'.infeasible_rows = s.infeasible_rows ∧ s'.expressions = s.expressions ∧
      expr_read s' expression = expr_read s expression := by
  have key : s'.rows = s.rows ∧ s'.columns = s.columns ∧
      s'.external_rows = s.external_rows ∧ s'.infeasible_rows = s.infeasible_rows ∧
      s'.expressions = s.expressions := by
    unfold simplex_solver_try_adding_directly at h
    cases hc : simplex_solver_choose_subject s expression with
    | none => simp [hc] at h
    | some r =>
      obtain ⟨subject, s1⟩ := r
      cases subject with
      | some subject =>
        simp only [hc] at h
        cases hm : expr_modify s1 expression (fun e => expression_new_subject e subject) with
        | none => simp [hm] at h
        | some solver2 =>
          simp only [hm] at h
          cases hb : (if simplex_solver_column_has_key solver2 subject = true then
              simplex_solver_substitute_out solver2 subject expression else some solver2) with
          | none => simp [hb] at h
          | some solver3 =>
            simp only [hb, Option.bind_some] at h
            cases ha : simplex_solver_add_row solver3 subject expression with
            | none => simp [ha] at h
            | some solver4 => simp [ha] at h
      | none =>
        simp only [hc, Option.some.injEq, Prod.mk.injEq, true_and] at h
        subst h
        unfold simplex_solver_choose_subject at hc
        split at hc
        · simp at hc
        · rename_i e he
          simp only at hc
          split_ifs at hc with h1 h2 h3 h4 h5
          · simp only [Option.some.injEq, Prod.mk.injEq] at hc
            rw [hc.1] at h1; simp at h1
          · simp only [Option.some.injEq, Prod.mk.injEq] at hc
            rw [hc.1] at h2; simp at h2
          · simp only [Option.some.injEq, Prod.mk.injEq] at hc
            rw [hc.1] at h3; simp at h3
          · simp only [Option.some.injEq, Prod.mk.injEq, true_and] at hc
            rw [← hc]; simp [g_critical]
          · simp only [Option.some.injEq, Prod.mk.injEq] at hc
            have := find_subject_dummy_coefficient s e.terms ChooseClosure.init
              (by simp [ChooseClosure.init]) hc.1
            rw [this] at h5
            exact absurd h5 (lt_irrefl 0)
          · simp only [Option.some.injEq, Prod.mk.injEq] at hc
            rw [← hc.2]; simp
  exact ⟨key.1, key.2.1, key.2.2.1, key.2.2.2.1, key.2.2.2.2, by
    simp [expr_read, key.2.2.2.2]⟩

theorem C9_try_adding_directly_false_unchanged_witness :
    ∃ s', simplex_solver_try_adding_directly ex_unsat.2 ex_unsat.1 = some (false, s') ∧
      s'.rows = ex_unsat.2.rows ∧ s'.columns = ex_unsat.2.columns ∧
      s'.expressions = ex_unsat.2.expressions := by
  cases h : simplex_solver_try_adding_directly ex_unsat.2 ex_unsat.1 with
  | none => exact absurd h (by decide!)
  | some r =>
    obtain ⟨b, s'⟩ := r
    have hb : (simplex_solver_try_adding_directly ex_unsat.2 ex_unsat.1).map Prod.fst
        = some false := by decide!
    rw [h] at hb
    simp only [Option.map_some', Option.some.injEq] at hb
    subst hb
    have := C9_try_adding_directly_false_unchanged ex_unsat.2 s' ex_unsat.1 h
    exact ⟨s', rfl, this.1, this.2.1, this.2.2.2.2.1⟩

/-- C10.  Dictionary form is preserved by `pivot`.  On a tableau in dictionary
form whose `columns` is the inverse index of its rows, for a basic `exit` (with
row `e` at address `a`) and an `entry` with non-zero coefficient in that row
(which dictionary form makes parametric), `pivot (entry, exit)` returns a
tableau in dictionary form, in which `entry` is basic and `exit` is not. -/
theorem C10_pivot_preserves_dictionary_form (s : SimplexSolver) (entry exit : Variable)
    (a : Nat) (e : Expression)
    (hdf : dictionary_form s) (hcols : columns_inverse_of_rows s)
    (hexit : ht_lookup exit s.rows = some a) (he : expr_read s a = some e)
    (hcoef : expression_get_coefficient e entry ≠ 0) :
    ∃ s', simplex_solver_pivot s entry exit = some s' ∧ dictionary_form s' ∧
      ht_lookup entry s'.rows = some a ∧ ht_lookup exit s'.rows = none := by
  have hentry : entry ∈ e.terms.map Prod.fst := coefficient_ne_zero_mem e entry hcoef
  obtain ⟨s', hp⟩ := pivot_some s entry exit a e hcols hexit he hentry
  obtain ⟨a', e', C1, mid, l3, e3, C4, X, hexit', he', hmid, hC1, hl3, he3, hs', hC4⟩ :=
    pivot_inv s s' entry exit hp
  rw [hexit] at hexit'
  simp only [Option.some.injEq] at hexit'
  subst hexit'
  rw [he] at he'
  simp only [Option.some.injEq] at he'
  subst he'
  obtain ⟨⟨exprs, upd, inf, hl3eq⟩, hshape, _, _, hmem, _, _, _, _⟩ :=
    substitute_out_loop_spec entry a _ mid l3 hl3
  rw [dictionary_form_iff] at hdf
  obtain ⟨_, hcover, _⟩ := hcols
  rw [columns_cover_rows_iff] at hcover
  -- `entry` is parametric and differs from `exit`
  obtain ⟨tE, htE, htE1⟩ := List.mem_map.mp hentry
  have hentry_par : ht_lookup entry s.rows = none := by
    have := hdf exit a e tE hexit he htE
    rw [htE1] at this; exact this
  have hne : entry ≠ exit := by
    rintro rfl; rw [hexit] at hentry_par; simp at hentry_par
  have hrows' : s'.rows = ht_insert entry a (ht_remove exit s.rows) := by
    rw [hs', hl3eq, hmid]
  have hmidrows : mid.rows = ht_remove exit s.rows := by rw [hmid]
  have hread' : ∀ c, expr_read s' c = expr_read l3 c := by
    intro c; rw [hs']; rfl
  have hreadmid : ∀ c, expr_read mid c =
      if a = c then some (expression_change_subject e exit entry) else expr_read s c := by
    intro c; rw [hmid]; simp [expr_read, ht_lookup_insert]
  refine ⟨s', hp, ?_, ?_, ?_⟩
  · rw [dictionary_form_iff]
    intro b ab eb t hb heb ht
    rw [hread'] at heb
    rw [hrows', ht_lookup_insert] at hb
    -- the terms of `eb` are terms of the object before the loop
    obtain ⟨e2, he2, hor⟩ := hshape ab eb heb
    have ht2 : t ∈ e2.terms := by
      rcases hor with hor | ⟨hor, _⟩
      · rw [← hor]; exact ht
      · rw [hor] at ht; exact ((mem_ht_remove t entry _).mp ht).1
    rw [hreadmid] at he2
    rw [hrows', ht_lookup_insert, ht_lookup_remove]
    by_cases hab : a = ab
    · subst hab
      simp only [if_true, Option.some.injEq] at he2
      subst he2
      obtain ⟨h1, h2⟩ := mem_terms_change_subject e exit entry t ht2
      have h1' : ¬ entry = t.1 := fun h => h1 h.symm
      simp only [h1', if_false]
      rcases h2 with h2 | h2
      · simp [h2]
      · obtain ⟨t0, ht0, ht01⟩ := List.mem_map.mp h2
        have := hdf exit a e t0 hexit he ht0
        rw [ht01] at this
        simp [this]
    · simp only [hab, if_false] at he2
      have hbe : ¬ entry = b := by
        intro h; simp only [h, if_true, Option.some.injEq] at hb; exact hab hb
      simp only [hbe, if_false, ht_lookup_remove] at hb
      have hbx : b ≠ exit := by
        intro h; simp [h] at hb
      simp only [hbx, if_false] at hb
      have hpar := hdf b ab e2 t hb he2 ht2
      have hte : ¬ entry = t.1 := by
        intro h
        -- then `b` is in the column set of `entry` and has lost `entry`
        obtain ⟨set0, hset0, hbset⟩ := hcover b ab e2 t hb he2 ht2
        rw [← h] at hset0
        have hbl : b ∈ (ht_lookup entry C1).getD [] := by
          rw [hC1 entry]
          simp only [hentry, if_true, hset0, Option.map_some', Option.getD_some]
          exact (mem_set_remove b exit set0).mpr ⟨hbx, hbset⟩
        have hbmid : ht_lookup b mid.rows = some ab := by
          rw [hmidrows, ht_lookup_remove]; simp [hbx, hb]
        have := (hmem b hbl ab eb hbmid heb).1
        exact this (List.mem_map.mpr ⟨t, ht, h.symm⟩)
      simp [hte, hpar]
  · rw [hrows', ht_lookup_insert]; simp
  · rw [hrows', ht_lookup_insert, ht_lookup_remove]; simp [hne]

theorem C10_pivot_preserves_dictionary_form_witness :
    dictionary_form ex_tableau ∧ columns_inverse_of_rows ex_tableau ∧
    ∃ s', simplex_solver_pivot ex_tableau ex_s2 ex_s1 = some s' ∧ dictionary_form s' ∧
      ht_lookup ex_s2 s'.rows = some 3 ∧ ht_lookup ex_s1 s'.rows = none :=
  ⟨by decide!, by decide!,
    C10_pivot_preserves_dictionary_form ex_tableau ex_s2 ex_s1 3 ⟨-5, [(ex_s2, 1)]⟩
      (by decide!) (by decide!) (by decide!) (by decide!) (by decide!)⟩

/-- C11 (code bug).  In `ex_subst` the row of `x` is `3 + 2·s2` and the
expression at address `3` is `5 + s1`.  After `substitute_out (s2, 5 + s1)` the
row of `x` has the constant `13 = 3 + 2·5` and no term for `s2`, but it has no
term for `s1` either: the coefficient of `s1` is `0`, not `0 + 2·1`. -/
theorem C11_substitute_out_drops_terms :
    ∃ s', simplex_solver_substitute_out ex_subst ex_s2 3 = some s' ∧
      ht_lookup ex_x s'.rows = some 2 ∧
      (expr_read ex_subst 2).map (fun r => expression_get_coefficient r ex_s2) = some 2 ∧
      (expr_read ex_subst 3).map (fun e => expression_get_coefficient e ex_s1) = some 1 ∧
      (expr_read s' 2).map expression_get_constant = some 13 ∧
      (expr_read s' 2).map (fun r => expression_get_coefficient r ex_s2) = some 0 ∧
      (expr_read s' 2).map (fun r => expression_get_coefficient r ex_s1) = some 0 ∧
      expr_read s' 2 = some ⟨13, []⟩ :=
  option_obs _ _ (by decide!)

/-- C12 (code bug).  In `ex_stale` the set `updated_externals` is `[y, x]`,
where `y` has no external row and the external row of `x` has the constant
`3`.  `set_external_variables` sets `y` to `0` and returns at once: `x` keeps
its value `7`, `updated_externals` still holds both variables and
`needs_solving` is still set. -/
theorem C12_early_return_skips_rest :
    ∃ s', simplex_solver_set_external_variables ex_stale = some s' ∧
      variable_get_value s' ex_y = 0 ∧
      (ht_lookup ex_x ex_stale.external_rows).bind (expr_read ex_stale) =
        some ⟨3, [(ex_s2, 2)]⟩ ∧
      variable_get_value s' ex_x = 7 ∧
      s'.updated_externals = [ex_y, ex_x] ∧
      s'.needs_solving = true :=
  option_obs _ _ (by decide!)

/-- C13 (counterexample).  In the test `emeus_solver_variable_leq_constant`,
`add_constraint (x, OPERATOR_TYPE_LE, 10)` with `x` at `100`, the residual
stored in the constraint is `x - 10`, constant `-10` and coefficient `+1` on
`x`; it is not `10 - x`. -/
theorem C13_counterexample :
    ∃ r, simplex_solver_add_constraint 1
        (simplex_solver_create_expression
          (simplex_solver_create_variable (simplex_solver_init 0) 1 100).2 10).2 0
        (simplex_solver_create_variable (simplex_solver_init 0) 1 100).1
        OperatorType.OPERATOR_TYPE_LE
        (simplex_solver_create_expression
          (simplex_solver_create_variable (simplex_solver_init 0) 1 100).2 10).1
        StrengthType.STRENGTH_REQUIRED = some r ∧
      r.1.op_type = OperatorType.OPERATOR_TYPE_LE ∧
      expr_read r.2 r.1.expression = some ⟨-10, [(ex_x, 1)]⟩ ∧
      expr_read r.2 r.1.expression ≠ some ⟨10, [(ex_x, -1)]⟩ :=
  option_obs _ _ (by decide!)

/-- C13 (amended).  The residual expression stored in the constraint that
`add_constraint (var, op, expression, strength)` returns does not depend on
`op`: for `OPERATOR_TYPE_GE`, `OPERATOR_TYPE_LE` and `OPERATOR_TYPE_EQ` alike
it is `var - expression`, built from `1·var` by adding `expression` times
`-1`, with the constant `-c` for the constant `c` of `expression` and, when
`expression` is a constant, the one term `1·var`.  The operator is recorded in
`op_type`, the strength in `strength`, and the constraint is neither a stay nor
an edit.  The solver is one in which every row is an expression object. -/
theorem C13_residual_is_var_minus_expression (fuel : Nat) (solver : SimplexSolver)
    (res_addr : Nat) (var : Variable) (op : OperatorType) (expression : Nat)
    (strength : StrengthType) (rhs : Expression) (cn : Constraint) (s' : SimplexSolver)
    (hlive : rows_live solver) (hrhs : expr_read solver expression = some rhs)
    (h : simplex_solver_add_constraint fuel solver res_addr var op expression strength =
      some (cn, s')) :
    cn.op_type = op ∧ cn.strength = strength ∧ cn.is_stay = false ∧ cn.is_edit = false ∧
    cn.addr = res_addr ∧
    ∃ residual, expr_read s' cn.expression = some residual ∧
      residual = expression_add_expression (expression_new_from_variable var) rhs (-1) ∧
      residual.constant = -rhs.constant ∧
      (rhs.terms = [] → residual = ⟨-rhs.constant, [(var, 1)]⟩) := by
  unfold simplex_solver_add_constraint at h
  simp only [hrhs] at h
  cases hint : simplex_solver_add_constraint_internal fuel
      (rhs.terms.foldl update_externals (expr_alloc solver
        (expression_add_expression (expression_new_from_variable var) rhs (-1))).2)
      { addr := res_addr
        expression := (expr_alloc solver
          (expression_add_expression (expression_new_from_variable var) rhs (-1))).1
        op_type := op, strength := strength, is_stay := false, is_edit := false } with
  | none => simp [hint] at h
  | some s3 =>
    simp only [hint, Option.some.injEq, Prod.mk.injEq] at h
    obtain ⟨hcn, hs3⟩ := h
    subst hcn
    subst hs3
    refine ⟨rfl, rfl, rfl, rfl, rfl, _, ?_, rfl, ?_, ?_⟩
    · obtain ⟨hrows, hexprs, _⟩ := fold_update_externals_frame rhs.terms
        (expr_alloc solver
          (expression_add_expression (expression_new_from_variable var) rhs (-1))).2
      have hfresh : ∀ v, ht_lookup v solver.rows ≠ some (expr_fresh solver) := by
        intro v hv
        obtain ⟨e, he⟩ := (rows_live_iff solver).mp hlive v _ hv
        rw [expr_fresh_unused] at he
        simp at he
      have hread0 : expr_read (rhs.terms.foldl update_externals (expr_alloc solver
          (expression_add_expression (expression_new_from_variable var) rhs (-1))).2)
          (expr_fresh solver) =
          some (expression_add_expression (expression_new_from_variable var) rhs (-1)) := by
        unfold expr_read
        rw [hexprs]
        simp only [expr_alloc, expr_write]
        exact ht_lookup_insert_self _ _ _
      unfold simplex_solver_add_constraint_internal at hint
      simp only at hint
      split_ifs at hint with hauto
      · have hfr := resolve_expr_frame fuel _ s3 (expr_fresh solver) hint (by
          intro v hv
          have : ht_lookup v solver.rows = some (expr_fresh solver) := by
            have h1 : ht_lookup v (rhs.terms.foldl update_externals (expr_alloc solver
              (expression_add_expression (expression_new_from_variable var) rhs (-1))).2).rows
                = some (expr_fresh solver) := hv
            rw [hrows] at h1
            exact h1
          exact hfresh v this)
        simp only [expr_alloc]
        rw [hfr]
        exact hread0
      · simp only [Option.some.injEq] at hint
        subst hint
        exact hread0
    · have hconst : ∀ (ts : List (Variable × ℚ)) (e : Expression),
          (ts.foldl (fun acc t => expression_add_variable acc t.1 (t.2 * (-1))) e).constant
            = e.constant := by
        intro ts
        induction ts with
        | nil => intro e; rfl
        | cons t ts ih =>
          intro e
          rw [List.foldl_cons, ih]
          unfold expression_add_variable expression_set_variable
          split_ifs <;> rfl
      simp only [expression_add_expression, hconst, expression_new_from_variable]
      ring
    · intro hterms
      simp only [expression_add_expression, hterms, List.foldl_nil,
        expression_new_from_variable]
      congr 1
      ring

/-- C13 (witness).  The test `emeus_solver_variable_leq_constant`: the
constraint `add_constraint (x, OPERATOR_TYPE_LE, 10)` returns keeps the
operator in `op_type` and has the residual `x - 10`. -/
theorem C13_residual_is_var_minus_expression_witness :
    ∃ cn s', simplex_solver_add_constraint 1
        (simplex_solver_create_expression
          (simplex_solver_create_variable (simplex_solver_init 0) 1 100).2 10).2 0
        ex_x OperatorType.OPERATOR_TYPE_LE
        (simplex_solver_create_expression
          (simplex_solver_create_variable (simplex_solver_init 0) 1 100).2 10).1
        StrengthType.STRENGTH_REQUIRED = some (cn, s') ∧
      cn.op_type = OperatorType.OPERATOR_TYPE_LE ∧
      ∃ residual, expr_read s' cn.expression = some residual ∧
        residual = ⟨-10, [(ex_x, 1)]⟩ := by
  cases h : simplex_solver_add_constraint 1
      (simplex_solver_create_expression
        (simplex_solver_create_variable (simplex_solver_init 0) 1 100).2 10).2 0
      ex_x OperatorType.OPERATOR_TYPE_LE
        (simplex_solver_create_expression
          (simplex_solver_create_variable (simplex_solver_init 0) 1 100).2 10).1
        StrengthType.STRENGTH_REQUIRED with
  | none => exact absurd h (by decide!)
  | some r =>
    obtain ⟨cn, s'⟩ := r
    obtain ⟨h1, _, _, _, _, residual, h2, _, _, h3⟩ :=
      C13_residual_is_var_minus_expression 1
        (simplex_solver_create_expression
          (simplex_solver_create_variable (simplex_solver_init 0) 1 100).2 10).2 0
        ex_x OperatorType.OPERATOR_TYPE_LE
        (simplex_solver_create_expression
          (simplex_solver_create_variable (simplex_solver_init 0) 1 100).2 10).1
        StrengthType.STRENGTH_REQUIRED ⟨10, []⟩ cn s'
        (by decide!) (by decide!) h
    exact ⟨cn, s', rfl, h1, residual, h2, h3 rfl⟩

/-- C14 (code bug).  Let every term of the expression be a dummy variable.
When the constant is near zero, `choose_subject` logs "unable to satisfy a
required constraint" and returns `NULL`, whether or not one of the dummies is
free to be the subject; when the constant is not near zero it returns what the
second pass recorded and logs nothing.  The test on the constant is the
opposite of the one `add_with_artificial_variable` applies before the same
message. -/
theorem C14_near_zero_constant_reported_unsatisfiable (s : SimplexSolver) (a : Nat)
    (e : Expression) (h : expr_read s a = some e)
    (hd : ∀ t ∈ e.terms, variable_is_dummy t.1 = true) :
    (approx_val (expression_get_constant e) 0 = true →
      simplex_solver_choose_subject s a =
        some (none, g_critical s Critical.unsatisfiable_required)) ∧
    (approx_val (expression_get_constant e) 0 = false →
      ∃ subject s', simplex_solver_choose_subject s a = some (subject, s') ∧
        s'.criticals = s.criticals) := by
  have h1 := find_subject_restricted_dummies s e.terms ChooseClosure.init hd rfl
  have h2 := find_subject_dummy_retval s e.terms ChooseClosure.init hd
  have h3 : ChooseClosure.init.retval = none := rfl
  have h4 : ChooseClosure.init.subject = none := rfl
  rw [h3] at h2
  constructor
  · intro hc
    simp [simplex_solver_choose_subject, h, h1, h2, h3, h4, hc]
  · intro hc
    simp only [simplex_solver_choose_subject, h, h1, h2, h3, h4, hc, Option.isSome_none,
      Bool.false_eq_true, if_false]
    split_ifs
    · exact ⟨_, _, rfl, rfl⟩
    · exact ⟨_, _, rfl, rfl⟩

/-- C14 (witness).  The expression `0 + d` on a freshly initialised solver: the
dummy `d` is not a key of `columns` and the constant is `0`, and
`choose_subject` reports the constraint as unsatisfiable. -/
theorem C14_near_zero_constant_reported_unsatisfiable_witness :
    simplex_solver_column_has_key ex_dummy_row.2 ex_d = false ∧
    simplex_solver_choose_subject ex_dummy_row.2 ex_dummy_row.1 =
      some (none, g_critical ex_dummy_row.2 Critical.unsatisfiable_required) :=
  ⟨by decide, (C14_near_zero_constant_reported_unsatisfiable ex_dummy_row.2 ex_dummy_row.1
    ⟨0, [(ex_d, 1)]⟩ (by decide!) (by decide)).1 (by decide!)⟩

/-- C15 (code bug).  The expression `5 + s1` on a freshly initialised solver
has no unrestricted variable, and the slack `s1` has the coefficient `+1`.
`choose_subject` returns `s1`: the second pass hands back the non-dummy
variable it stops at, without the sign test of the first pass. -/
theorem C15_positive_slack_returned :
    (expr_read ex_slack_row.2 ex_slack_row.1).map (fun e => e.terms) = some [(ex_s1, 1)] ∧
    variable_is_restricted ex_s1 = true ∧ variable_is_dummy ex_s1 = false ∧
    simplex_solver_choose_subject ex_slack_row.2 ex_slack_row.1 =
      some (some ex_s1, ex_slack_row.2) := by
  decide!

/-- C16.  When the expression has a term whose variable is unrestricted,
`choose_subject` returns a subject, the subject is an unrestricted variable of
the expression, and the solver (the expression included) is as it was. -/
theorem C16_unrestricted_subject (s : SimplexSolver) (a : Nat) (e : Expression)
    (h : expr_read s a = some e)
    (hu : ∃ t ∈ e.terms, variable_is_restricted t.1 = false) :
    ∃ v, simplex_solver_choose_subject s a = some (some v, s) ∧
      variable_is_restricted v = false ∧ v ∈ e.terms.map Prod.fst := by
  have hinit : choose_inv (e.terms.map Prod.fst) ChooseClosure.init :=
    ⟨fun hx => by simp [ChooseClosure.init] at hx, fun v hv => by
      simp [ChooseClosure.init] at hv⟩
  obtain ⟨⟨hs, hr⟩, hf⟩ := find_subject_restricted_fold s (e.terms.map Prod.fst) e.terms
    ChooseClosure.init (fun t ht => List.mem_map_of_mem _ ht) hinit
  obtain ⟨v, hv, hvr, hvK⟩ := hs (hf (Or.inr hu))
  simp only [simplex_solver_choose_subject, h]
  cases hret : (e.terms.foldl (find_subject_restricted s) ChooseClosure.init).retval with
  | some w =>
    obtain ⟨hwr, hwK⟩ := hr w hret
    exact ⟨w, by simp, hwr, hwK⟩
  | none =>
    exact ⟨v, by simp [hv], hvr, hvK⟩

/-- C16 (witness).  The expression `0 + x - y + d` on a freshly initialised
solver: `x` is unrestricted, and `choose_subject` returns an unrestricted
variable of the expression. -/
theorem C16_unrestricted_subject_witness :
    ∃ v, simplex_solver_choose_subject ex_equality_row.2 ex_equality_row.1 =
        some (some v, ex_equality_row.2) ∧
      variable_is_restricted v = false ∧
      v ∈ (⟨0, [(ex_x, 1), (ex_y, -1), (ex_d, 1)]⟩ : Expression).terms.map Prod.fst :=
  C16_unrestricted_subject ex_equality_row.2 ex_equality_row.1
    ⟨0, [(ex_x, 1), (ex_y, -1), (ex_d, 1)]⟩ (by decide!) ⟨(ex_x, 1), by decide!, by decide⟩

/-- C17 (code bug).  Let the scan of the objective row select the entering
variable `entry`, with a coefficient below `-DBL_EPSILON`, and let no pivotable
member of the column set of `entry` have a row with a negative coefficient on
`entry`.  Then an iteration of the loop of `optimize` logs the
unbounded-objective message, pivots nothing and goes round again on the same
tableau: there is no `return` after the message, and `optimize` does not
return whatever the fuel. -/
theorem C17_unbounded_never_returns (s : SimplexSolver) (zv : Variable) (z_row : Nat)
    (z : Expression) (entry : Variable) (column_vars : List Variable)
    (hzv : ht_lookup zv s.rows = some z_row)
    (hz : expr_read s z_row = some z)
    (hentry : (z.terms.foldl find_negative_coefficient
      { objective_coefficient := 0, entry_variable := none }).entry_variable = some entry)
    (hneg : (z.terms.foldl find_negative_coefficient
      { objective_coefficient := 0, entry_variable := none }).objective_coefficient
        < -DBL_EPSILON)
    (hcol : simplex_solver_get_column_set s entry = some column_vars)
    (hno : ∀ v ∈ column_vars, variable_is_pivotable v = true →
      ∃ a e, ht_lookup v s.rows = some a ∧ expr_read s a = some e ∧
        ¬ expression_get_coefficient e entry < 0) :
    (∀ fuel exit, optimize_loop z_row (fuel + 1) exit s =
      optimize_loop z_row fuel exit (g_critical s Critical.unbounded_objective)) ∧
    (∀ fuel, simplex_solver_optimize fuel s zv = none) := by
  constructor
  · intro fuel exit
    exact optimize_loop_unbounded_step s s z_row z entry column_vars hz hentry hneg hcol hno
      rfl rfl rfl fuel exit
  · intro fuel
    simp only [simplex_solver_optimize, hzv]
    exact optimize_loop_unbounded s z_row z entry column_vars hz hentry hneg hcol hno fuel
      none _ rfl rfl rfl

/-- C17 (witness).  In `ex_unbounded` the objective row is `0 - s2` and the
column of `s2` holds the objective variable alone: `optimize` logs the message
at every iteration and never returns. -/
theorem C17_unbounded_never_returns_witness :
    (∀ fuel exit, optimize_loop 1 (fuel + 1) exit ex_unbounded =
      optimize_loop 1 fuel exit (g_critical ex_unbounded Critical.unbounded_objective)) ∧
    (∀ fuel, simplex_solver_optimize fuel ex_unbounded ex_z = none) :=
  C17_unbounded_never_returns ex_unbounded ex_z 1 ⟨0, [(ex_s2, -1)]⟩ ex_s2 [ex_z]
    (by decide) (by decide!) (by decide!) (by decide!) (by decide!)
    (by intro v hv hp; simp only [List.mem_singleton] at hv; subst hv; exact absurd hp (by decide))

/-- C18.  An iteration of the loop of `optimize` scans the objective row `z`.
If no pivotable term of `z` has a coefficient below `-DBL_EPSILON`, the loop
returns at once, with the solver as it is.  If one has, the iteration takes as
`entry` a pivotable term of `z` whose coefficient is below `-DBL_EPSILON` and
is the least among the pivotable terms, and goes on with it: it searches the
column of `entry` for `exit`, pivots, and iterates.  When `optimize (z)`
returns, the solver is the one the pivots it has issued lead to from the
solver of the call (with `optimize_count` raised), and the expression object
that was the row of `z` at the call, which is still the row of `z` unless `z`
is pivotable, has no term with a pivotable variable and a coefficient below
`-DBL_EPSILON`, hence none below `-APPROX_EPS`. -/
theorem C18_optimize_returns_optimal (fuel : Nat) (s : SimplexSolver) (zv : Variable) :
    (∀ s', simplex_solver_optimize fuel s zv = some s' →
      pivots_apply (simplex_solver_optimize_pivots fuel s zv).1
        { s with optimize_count := s.optimize_count + 1 } = some s' ∧
      ∃ z_row z', ht_lookup zv s.rows = some z_row ∧ expr_read s' z_row = some z' ∧
        (variable_is_pivotable zv = false → ht_lookup zv s'.rows = some z_row) ∧
        ∀ t ∈ z'.terms, variable_is_pivotable t.1 = true →
          ¬ t.2 < -DBL_EPSILON ∧ ¬ t.2 < -APPROX_EPS) ∧
    (∀ z_row z exit, expr_read s z_row = some z →
      (∀ t ∈ z.terms, variable_is_pivotable t.1 = true → ¬ t.2 < -DBL_EPSILON) →
      optimize_loop z_row (fuel + 1) exit s = some s) ∧
    (∀ z_row z exit, expr_read s z_row = some z →
      (∃ t ∈ z.terms, variable_is_pivotable t.1 = true ∧ t.2 < -DBL_EPSILON) →
      ∃ entry c, (entry, c) ∈ z.terms ∧ variable_is_pivotable entry = true ∧
        c < -DBL_EPSILON ∧
        (∀ t ∈ z.terms, variable_is_pivotable t.1 = true → c ≤ t.2) ∧
        z.terms.foldl find_negative_coefficient
          { objective_coefficient := 0, entry_variable := none } =
          { objective_coefficient := c, entry_variable := some entry } ∧
        optimize_loop z_row (fuel + 1) exit s =
          match simplex_solver_get_column_set s entry with
          | none => none
          | some column_vars =>
            match optimize_exit_loop s entry column_vars (DBL_MAX, exit) with
            | none => none
            | some (min_ratio, exit1) =>
              if approx_val min_ratio DBL_MAX then
                optimize_loop z_row fuel exit1 (g_critical s Critical.unbounded_objective)
              else
                match exit1 with
                | none => none
                | some exit_var =>
                  match simplex_solver_pivot s entry exit_var with
                  | none => none
                  | some s1 => optimize_loop z_row fuel exit1 s1) := by
  refine ⟨?_, ?_, ?_⟩
  · intro s' h
    constructor
    · simp only [simplex_solver_optimize] at h
      simp only [simplex_solver_optimize_pivots]
      cases hz : ht_lookup zv s.rows with
      | none => simp [hz] at h
      | some z_row =>
        simp only [hz] at h ⊢
        exact optimize_loop_pivots_apply z_row fuel none _ s' h
    · simp only [simplex_solver_optimize] at h
      cases hz : ht_lookup zv s.rows with
      | none => simp [hz] at h
      | some z_row =>
        simp only [hz] at h
        obtain ⟨⟨z', hz', hopt⟩, _⟩ := optimize_loop_returns z_row
          ⟨0, VariableType.VARIABLE_OBJECTIVE⟩ (by decide) fuel none _ s' h
        refine ⟨z_row, z', rfl, hz', ?_, ?_⟩
        · intro hzp
          rw [(optimize_loop_returns z_row zv hzp fuel none _ s' h).2]
          exact hz
        · intro t ht hp
          have h1 := hopt t ht hp
          have h2 : -APPROX_EPS ≤ -DBL_EPSILON := by norm_num [APPROX_EPS, DBL_EPSILON]
          exact ⟨not_lt.mpr h1, not_lt.mpr (le_trans h2 h1)⟩
  · intro z_row z exit hz hopt
    obtain ⟨_, _, hsel⟩ := find_negative_fold z.terms
      { objective_coefficient := 0, entry_variable := none }
    have hge : (z.terms.foldl find_negative_coefficient
        { objective_coefficient := 0, entry_variable := none }).objective_coefficient
          ≥ -DBL_EPSILON := by
      rcases hsel with hsel | ⟨u, hu, hup, hsel⟩
      · rw [hsel]
        norm_num [DBL_EPSILON]
      · rw [hsel]
        exact not_lt.mp (hopt u hu hup)
    rw [optimize_loop]
    simp only [hz, hge, if_true]
  · intro z_row z exit hz ⟨t, ht, hp, hneg⟩
    obtain ⟨_, hmin, hsel⟩ := find_negative_fold z.terms
      { objective_coefficient := 0, entry_variable := none }
    have hlt := lt_of_le_of_lt (hmin t ht hp) hneg
    rcases hsel with hsel | ⟨u, hu, hup, hsel⟩
    · rw [hsel] at hlt
      exact absurd hlt (by norm_num [DBL_EPSILON])
    · have hc : u.2 < -DBL_EPSILON := by
        rw [hsel] at hlt
        exact hlt
      refine ⟨u.1, u.2, hu, hup, hc, ?_, hsel, ?_⟩
      · intro w hw hwp
        have := hmin w hw hwp
        rw [hsel] at this
        exact this
      · rw [optimize_loop]
        simp only [hz, hsel, ge_iff_le, not_le.mpr hc, if_false]

/-- C18 (witness).  In `ex_tie` the objective row is `0 - s2`: the iteration
takes `s2` as `entry`.  `optimize` returns after the one pivot `(s2, s4)`, in
the solver that pivot leads to, and the row of `z`, now the constant `-2`, has
no pivotable term with a coefficient below `-DBL_EPSILON`: an iteration on it
returns at once. -/
theorem C18_optimize_returns_optimal_witness :
    (∃ s', simplex_solver_optimize 2 ex_tie ex_z = some s' ∧
      (simplex_solver_optimize_pivots 2 ex_tie ex_z).1 = [(ex_s2, some ex_s4)] ∧
      (simplex_solver_pivot { ex_tie with optimize_count := 1 } ex_s2 ex_s4) = some s' ∧
      expr_read s' 1 = some ⟨-2, []⟩ ∧
      optimize_loop 1 3 none s' = some s' ∧
      pivots_apply (simplex_solver_optimize_pivots 2 ex_tie ex_z).1
        { ex_tie with optimize_count := ex_tie.optimize_count + 1 } = some s' ∧
      ∃ z_row z', ht_lookup ex_z ex_tie.rows = some z_row ∧ expr_read s' z_row = some z' ∧
        (variable_is_pivotable ex_z = false → ht_lookup ex_z s'.rows = some z_row) ∧
        ∀ t ∈ z'.terms, variable_is_pivotable t.1 = true →
          ¬ t.2 < -DBL_EPSILON ∧ ¬ t.2 < -APPROX_EPS) ∧
    (∃ entry c, (entry, c) ∈ [(ex_s2, (-1 : ℚ))] ∧ variable_is_pivotable entry = true ∧
      c < -DBL_EPSILON ∧
      (∀ t ∈ [(ex_s2, (-1 : ℚ))], variable_is_pivotable t.1 = true → c ≤ t.2) ∧
      ([(ex_s2, (-1 : ℚ))].foldl find_negative_coefficient
        { objective_coefficient := 0, entry_variable := none } =
        { objective_coefficient := c, entry_variable := some entry })) := by
  constructor
  · obtain ⟨s', h, h1, h2, h3⟩ := option_obs (simplex_solver_optimize 2 ex_tie ex_z)
      (fun s' => (simplex_solver_optimize_pivots 2 ex_tie ex_z).1 = [(ex_s2, some ex_s4)] ∧
        (simplex_solver_pivot { ex_tie with optimize_count := 1 } ex_s2 ex_s4) = some s' ∧
        expr_read s' 1 = some ⟨-2, []⟩) (by decide!)
    have key := C18_optimize_returns_optimal 2 ex_tie ex_z
    have key' := (C18_optimize_returns_optimal 2 s' ex_z).2.1 1 ⟨-2, []⟩ none h3
      (by intro t ht; simp at ht)
    exact ⟨s', h, h1, h2, h3, key', (key.1 s' h).1, (key.1 s' h).2⟩
  · obtain ⟨entry, c, h1, h2, h3, h4, h5, _⟩ :=
      (C18_optimize_returns_optimal 2 ex_tie ex_z).2.2 1 ⟨0, [(ex_s2, -1)]⟩ none (by decide!)
        ⟨(ex_s2, -1), by simp, by decide, by norm_num [DBL_EPSILON]⟩
    exact ⟨entry, c, h1, h2, h3, h4, h5⟩

/-- C19 (code bug).  In `ex_tie` the entering variable is `s2` and the rows of
`s4` and `s3` both give the ratio `2`; the address of `s3` is the smaller one.
The inner loop of `optimize` compares a tied candidate with `entry`, not with
the candidate it holds, so the one visited first stays: with the column
listed as `z, s4, s3` the exit variable is `s4` and `optimize` pivots `s4` out,
with the column listed as `z, s3, s4` it is `s3`. -/
theorem C19_tie_goes_to_first_visited :
    ex_s3.addr < ex_s4.addr ∧
    simplex_solver_get_column_set ex_tie ex_s2 = some [ex_z, ex_s4, ex_s3] ∧
    optimize_exit_loop ex_tie ex_s2 [ex_z, ex_s4, ex_s3] (DBL_MAX, none) =
      some (2, some ex_s4) ∧
    optimize_exit_loop ex_tie_swapped ex_s2 [ex_z, ex_s3, ex_s4] (DBL_MAX, none) =
      some (2, some ex_s3) ∧
    (∃ s', simplex_solver_optimize 2 ex_tie ex_z = some s' ∧
      ht_lookup ex_s4 s'.rows = none ∧ ht_lookup ex_s3 s'.rows = some 2 ∧
      ht_lookup ex_s2 s'.rows = some 3) ∧
    (∃ s', simplex_solver_optimize 2 ex_tie_swapped ex_z = some s' ∧
      ht_lookup ex_s3 s'.rows = none ∧ ht_lookup ex_s4 s'.rows = some 3 ∧
      ht_lookup ex_s2 s'.rows = some 2) :=
  ⟨by decide, by decide, by decide!, by decide!, option_obs _ _ (by decide!),
    option_obs _ _ (by decide!)⟩

/-- C20 (counterexample).  In `ex_drift` the infeasible row is
`s1 = -1 + t1 + t2 + t3` and the ratios of `t1`, `t2`, `t3` against the
objective row are `1`, `1 + 9e-9` and `1 + 1.8e-8`.  Each candidate is within
`APPROX_EPS` of the one before and has the smaller address, so `find_ratio`
moves on to it: `dual_optimize` pivots on `t3`, whose ratio exceeds that of
`t1` by more than `APPROX_EPS`. -/
theorem C20_counterexample :
    dual_optimize_entry (some 1) { ex_drift with infeasible_rows := [] } ex_s1 =
      some (some ex_t3) ∧
    (∃ d, simplex_solver_dual_optimize 1 ex_drift = some d ∧
      ht_lookup ex_t3 d.rows = some 2 ∧ ht_lookup ex_s1 d.rows = none) ∧
    expr_read ex_drift 2 = some ⟨-1, [(ex_t1, 1), (ex_t2, 1), (ex_t3, 1)]⟩ ∧
    ratio_candidate (ex_t1, 1) = true ∧ ratio_candidate (ex_t3, 1) = true ∧
    (expr_read ex_drift 1).map
      (fun z => decide (ratio_of z (ex_t1, 1) + APPROX_EPS < ratio_of z (ex_t3, 1))) =
      some true :=
  ⟨by decide!, option_obs _ _ (by decide!), by decide!, by decide, by decide, by decide!⟩

/-- C20 (amended).  Let `exit_var` be the variable an iteration of the loop of
`dual_optimize` drains.  The iteration pivots only when `dual_optimize_entry`
names an entering variable, and otherwise goes on with the solver as the
removal from `infeasible_rows` left it; it names none when `exit_var` has no
row or the constant of the row is `≥ 0`.  After a pivot the loop goes on,
unless the pivot has filed a new member in `infeasible_rows`: the iterator is
then invalid and the loop ends with GLib's message.  When it names `entry_var`, the row
`e` of `exit_var` has a negative constant and `entry_var` is a pivotable
variable with a term `cd > 0` in `e`; and if no candidate term of `e` has a
coefficient within `APPROX_EPS` of `0` and no two candidate ratios are within
`APPROX_EPS` of each other without being equal, the ratio of `entry_var` is
the least among the candidates, and its address the least among the
candidates of that ratio. -/
theorem C20_dual_optimize_entering_choice (z_row : Option Nat) (fuel : Nat)
    (s : SimplexSolver) (exit_var : Variable) (rest : List Variable)
    (h : s.infeasible_rows = exit_var :: rest) :
    (dual_optimize_loop z_row (fuel + 1) s =
      match dual_optimize_entry z_row
          { s with infeasible_rows := set_remove exit_var s.infeasible_rows } exit_var with
      | none => none
      | some none => dual_optimize_loop z_row fuel
          { s with infeasible_rows := set_remove exit_var s.infeasible_rows }
      | some (some entry_var) =>
        match simplex_solver_pivot
            { s with infeasible_rows := set_remove exit_var s.infeasible_rows }
            entry_var exit_var with
        | none => none
        | some s2 =>
          if iter_invalidated (set_remove exit_var s.infeasible_rows) s2.infeasible_rows then
            some (g_critical s2 Critical.iter_invalid)
          else dual_optimize_loop z_row fuel s2) ∧
    (ht_lookup exit_var s.rows = none →
      dual_optimize_entry z_row
        { s with infeasible_rows := set_remove exit_var s.infeasible_rows } exit_var =
        some none) ∧
    (∀ a e, ht_lookup exit_var s.rows = some a → expr_read s a = some e → e.constant ≥ 0 →
      dual_optimize_entry z_row
        { s with infeasible_rows := set_remove exit_var s.infeasible_rows } exit_var =
        some none) ∧
    (∀ entry_var, dual_optimize_entry z_row
        { s with infeasible_rows := set_remove exit_var s.infeasible_rows } exit_var =
        some (some entry_var) →
      ∃ a e za z cd, ht_lookup exit_var s.rows = some a ∧ expr_read s a = some e ∧
        e.constant < 0 ∧ z_row = some za ∧ expr_read s za = some z ∧
        (entry_var, cd) ∈ e.terms ∧ cd > 0 ∧ variable_is_pivotable entry_var = true ∧
        ((∀ t ∈ e.terms, ratio_candidate t = true → approx_val t.2 0 = false) →
          (∀ t ∈ e.terms, ∀ u ∈ e.terms, ratio_candidate t = true →
            ratio_candidate u = true →
            approx_val (ratio_of z t) (ratio_of z u) = true → ratio_of z t = ratio_of z u) →
          ∀ u ∈ e.terms, ratio_candidate u = true →
            ratio_of z (entry_var, cd) ≤ ratio_of z u ∧
            (ratio_of z u = ratio_of z (entry_var, cd) → entry_var.addr ≤ u.1.addr))) := by
  refine ⟨dual_optimize_loop_step z_row fuel s exit_var rest h, ?_, ?_, ?_⟩
  · intro hnone
    simp only [dual_optimize_entry, hnone]
  · intro a e ha he hge
    have he' : expr_read
        { s with infeasible_rows := set_remove exit_var s.infeasible_rows } a = some e := he
    simp only [dual_optimize_entry, ha, he', expression_get_constant, hge, if_true]
  · intro entry_var hentry
    exact dual_optimize_entry_spec z_row
      { s with infeasible_rows := set_remove exit_var s.infeasible_rows } exit_var entry_var
      hentry

/-- C20 (witness).  In `ex_tableau` the drained row is `s1 = -5 + s2` and the
objective row is `0 + s2`: the iteration names `s2`, the only candidate. -/
theorem C20_dual_optimize_entering_choice_witness :
    dual_optimize_entry (some 1) { ex_tableau with infeasible_rows := [] } ex_s1 =
      some (some ex_s2) ∧
    ∃ a e za z cd, ht_lookup ex_s1 ex_tableau.rows = some a ∧
      expr_read ex_tableau a = some e ∧
      e.constant < 0 ∧ some 1 = some za ∧ expr_read ex_tableau za = some z ∧
      (ex_s2, cd) ∈ e.terms ∧ cd > 0 ∧ variable_is_pivotable ex_s2 = true ∧
      ((∀ t ∈ e.terms, ratio_candidate t = true → approx_val t.2 0 = false) →
        (∀ t ∈ e.terms, ∀ u ∈ e.terms, ratio_candidate t = true →
          ratio_candidate u = true →
          approx_val (ratio_of z t) (ratio_of z u) = true → ratio_of z t = ratio_of z u) →
        ∀ u ∈ e.terms, ratio_candidate u = true →
          ratio_of z (ex_s2, cd) ≤ ratio_of z u ∧
          (ratio_of z u = ratio_of z (ex_s2, cd) → ex_s2.addr ≤ u.1.addr)) :=
  ⟨by decide!, (C20_dual_optimize_entering_choice (some 1) 0 ex_tableau ex_s1 []
    (by decide)).2.2.2 ex_s2 (by decide!)⟩

/-- C21 (code bug).  The residual `x - c` of the tests' `x ≥ c` and `x ≤ c`, on
a solver in which `x` is not basic: `normalize_expression` does not return,
because `replace_terms` hands the missing row of `x` to
`expression_add_expression`.  On a residual without terms, `-c`, the function
does return what the claim states: `-c - s` with `s` the marker and the
objective row untouched when the constraint is required, and
`-c - s + eminus` with the coefficient `weight strength` on `eminus` in the
objective row when it is not (and the weight is not below `APPROX_EPS`). -/
theorem C21_normalize_inequality (weight : StrengthType → ℚ) (internal : InternalExpression) (c : ℚ)
    (op : OperatorType) (strength : StrengthType)
    (hop : op ≠ OperatorType.OPERATOR_TYPE_EQ) :
    simplex_solver_normalize_expression weight (ex_residual_of ⟨-c, [(ex_x, 1)]⟩) internal
      (ex_constraint op strength false false) 10 11 = none ∧
    (strength = StrengthType.STRENGTH_REQUIRED →
      ∃ s', simplex_solver_normalize_expression weight (ex_residual_of ⟨-c, []⟩) internal
          (ex_constraint op strength false false) 10 11 = some (3, s', internal) ∧
        expr_read s' 3 = some ⟨-c, [(ex_n1, -1)]⟩ ∧
        ht_lookup (ex_constraint op strength false false) s'.marker_vars = some ex_n1 ∧
        expr_read s' 1 = some ⟨0, []⟩) ∧
    (strength ≠ StrengthType.STRENGTH_REQUIRED → ¬ |weight strength| < APPROX_EPS →
      ∃ s', simplex_solver_normalize_expression weight (ex_residual_of ⟨-c, []⟩) internal
          (ex_constraint op strength false false) 10 11 = some (3, s', internal) ∧
        expr_read s' 3 = some ⟨-c, [(ex_n1, -1), (ex_n2, 1)]⟩ ∧
        ht_lookup (ex_constraint op strength false false) s'.marker_vars = some ex_n1 ∧
        expr_read s' 1 = some ⟨0, [(ex_n2, weight strength)]⟩) := by
  refine ⟨?_, ?_, ?_⟩
  · exact normalize_expression_parametric weight _ internal _ 10 11 ⟨-c, [(ex_x, 1)]⟩
      (by simp [ex_residual_of, ex_constraint, expr_read, expr_write, simplex_solver_create_variable,
        variable_set_value, simplex_solver_init, ht_insert, ht_lookup])
      ⟨(ex_x, 1), by simp, by
        simp [ex_residual_of, expr_write, simplex_solver_create_variable, variable_set_value,
          simplex_solver_init, ht_lookup, variable_new, ex_x]⟩
  · intro hs
    subst hs
    norm_num [simplex_solver_normalize_expression, ex_residual_of, ex_constraint, ex_n1,
      simplex_solver_create_variable, variable_set_value,
      expr_write, expr_read, simplex_solver_init, ht_insert, ht_lookup,
      expr_alloc, expr_fresh, expression_new, expression_get_constant, replace_terms_foreach,
      constraint_is_inequality, expr_modify, expression_set_variable, APPROX_EPS, variable_new,
      hop]
  · intro hs hw
    norm_num [simplex_solver_normalize_expression, ex_residual_of, ex_constraint, ex_n1, ex_n2,
      simplex_solver_create_variable, variable_set_value,
      expr_write, expr_read, simplex_solver_init, ht_insert, ht_lookup,
      expr_alloc, expr_fresh, expression_new, expression_get_constant, replace_terms_foreach,
      constraint_is_inequality, expr_modify, expression_set_variable, APPROX_EPS, variable_new,
      hs, hop, simplex_solver_add_variable, simplex_solver_insert_error_variable,
      simplex_solver_insert_column_variable, g_critical, simplex_solver_get_column_set,
      set_add, ht_remove] at hw ⊢
    exact hw

/-- C21 (witness).  The constraint `x ≥ 100` of the test
`emeus_solver_variable_geq_constant`, required. -/
theorem C21_normalize_inequality_witness :
    simplex_solver_normalize_expression ex_weight (ex_residual_of ⟨-100, [(ex_x, 1)]⟩)
      InternalExpression.init
      (ex_constraint OperatorType.OPERATOR_TYPE_GE StrengthType.STRENGTH_REQUIRED false false)
      10 11 = none :=
  (C21_normalize_inequality ex_weight InternalExpression.init 100
    OperatorType.OPERATOR_TYPE_GE StrengthType.STRENGTH_REQUIRED (by decide)).1

/-- C22 (code bug).  The residual `x - y` of the test `emeus_solver_simple`, on
a solver in which `x` is not basic: `normalize_expression` does not return
(the defect of C21 and C23).  On a residual without terms, `c`, the function
does return what the claim states: `c + d` with the dummy `d` as marker when
the constraint is required, and `c - eplus + eminus` with `eplus` as marker
and the coefficient `weight strength` on both in the objective row when it is
not (and the weight is not below `APPROX_EPS`). -/
theorem C22_normalize_equality (weight : StrengthType → ℚ) (internal : InternalExpression)
    (c : ℚ) (strength : StrengthType) :
    simplex_solver_normalize_expression weight (ex_residual_of ⟨0, [(ex_x, 1), (ex_y, -1)]⟩)
      internal (ex_constraint OperatorType.OPERATOR_TYPE_EQ strength false false) 10 11 = none ∧
    (strength = StrengthType.STRENGTH_REQUIRED →
      ∃ s', simplex_solver_normalize_expression weight (ex_residual_of ⟨c, []⟩) internal
          (ex_constraint OperatorType.OPERATOR_TYPE_EQ strength false false) 10 11 =
          some (3, s', { eplus := some ex_nd, eminus := some ex_nd, prev_constant := c }) ∧
        expr_read s' 3 = some ⟨c, [(ex_nd, 1)]⟩ ∧
        ht_lookup (ex_constraint OperatorType.OPERATOR_TYPE_EQ strength false false)
          s'.marker_vars = some ex_nd ∧
        expr_read s' 1 = some ⟨0, []⟩) ∧
    (strength ≠ StrengthType.STRENGTH_REQUIRED → ¬ |weight strength| < APPROX_EPS →
      ∃ s', simplex_solver_normalize_expression weight (ex_residual_of ⟨c, []⟩) internal
          (ex_constraint OperatorType.OPERATOR_TYPE_EQ strength false false) 10 11 =
          some (3, s', internal) ∧
        expr_read s' 3 = some ⟨c, [(ex_n1, -1), (ex_n2, 1)]⟩ ∧
        ht_lookup (ex_constraint OperatorType.OPERATOR_TYPE_EQ strength false false)
          s'.marker_vars = some ex_n1 ∧
        expr_read s' 1 = some ⟨0, [(ex_n1, weight strength), (ex_n2, weight strength)]⟩) := by
  refine ⟨?_, ?_, ?_⟩
  · exact normalize_expression_parametric weight _ internal _ 10 11
      ⟨0, [(ex_x, 1), (ex_y, -1)]⟩
      (by simp [ex_residual_of, ex_constraint, expr_read, expr_write,
        simplex_solver_create_variable, variable_set_value, simplex_solver_init, ht_insert,
        ht_lookup])
      ⟨(ex_x, 1), by simp, by
        simp [ex_residual_of, expr_write, simplex_solver_create_variable, variable_set_value,
          simplex_solver_init, ht_lookup, variable_new, ex_x]⟩
  · intro hs
    subst hs
    norm_num [simplex_solver_normalize_expression, ex_residual_of, ex_constraint, ex_nd,
      simplex_solver_create_variable, variable_set_value,
      expr_write, expr_read, simplex_solver_init, ht_insert, ht_lookup,
      expr_alloc, expr_fresh, expression_new, expression_get_constant, replace_terms_foreach,
      constraint_is_inequality, constraint_is_required, expr_modify, expression_set_variable,
      APPROX_EPS, variable_new]
  · intro hs hw
    have hw1 : ¬ |weight strength| < 1 / 100000000 := by simpa [APPROX_EPS] using hw
    norm_num [simplex_solver_normalize_expression, ex_residual_of, ex_constraint, ex_n1, ex_n2,
      simplex_solver_create_variable, variable_set_value,
      expr_write, expr_read, simplex_solver_init, ht_insert, ht_lookup,
      expr_alloc, expr_fresh, expression_new, expression_get_constant, replace_terms_foreach,
      constraint_is_inequality, constraint_is_required, constraint_is_stay, constraint_is_edit,
      expr_modify, expression_set_variable, APPROX_EPS, variable_new,
      hs, simplex_solver_add_variable, simplex_solver_insert_error_variable,
      simplex_solver_insert_column_variable, g_critical, simplex_solver_get_column_set,
      set_add, ht_remove, hw1]

/-- C23 (code bug).  When the residual of the constraint has a term whose
variable is not basic, `normalize_expression` does not return: `replace_terms`
takes the branch for a missing row and hands the `NULL` to
`expression_add_expression`.  And when the variable is basic the term is
carried over as it is: in the worked tableau, where `x = 3 + 2·s2` is a row,
the residual `x - 10` of a required `≥` is returned as `-10 + x - s`, which
mentions the basic variable `x`. -/
theorem C23_replace_terms_inverted (weight : StrengthType → ℚ) (s : SimplexSolver)
    (internal : InternalExpression) (cn : Constraint) (addr1 addr2 : Nat) (e : Expression)
    (he : expr_read s cn.expression = some e)
    (hp : ∃ t ∈ e.terms, ht_lookup t.1 s.rows = none) :
    simplex_solver_normalize_expression weight s internal cn addr1 addr2 = none ∧
    (dictionary_form ex_basic_residual ∧
      ht_lookup ex_x ex_basic_residual.rows = some 2 ∧
      expr_read ex_basic_residual 2 = some ⟨3, [(ex_s2, 2)]⟩ ∧
      expr_read ex_basic_residual 4 = some ⟨-10, [(ex_x, 1)]⟩ ∧
      ∃ r, simplex_solver_normalize_expression ex_weight ex_basic_residual
          InternalExpression.init
          { addr := 0, expression := 4, op_type := OperatorType.OPERATOR_TYPE_GE,
            strength := StrengthType.STRENGTH_REQUIRED, is_stay := false, is_edit := false }
          10 11 = some r ∧
        expr_read r.2.1 r.1 = some ⟨-10, [(ex_x, 1), (ex_n1, -1)]⟩) :=
  ⟨normalize_expression_parametric weight s internal cn addr1 addr2 e he hp,
    by decide!, by decide, by decide!, by decide!, option_obs _ _ (by decide!)⟩

/-- C23 (witness).  The residual `x - 100` of the test
`emeus_solver_variable_geq_constant` on the solver of the test, in which only
the objective variable is basic. -/
theorem C23_replace_terms_inverted_witness :
    dictionary_form (ex_residual_of ⟨-100, [(ex_x, 1)]⟩) ∧
    simplex_solver_normalize_expression ex_weight (ex_residual_of ⟨-100, [(ex_x, 1)]⟩)
      InternalExpression.init
      (ex_constraint OperatorType.OPERATOR_TYPE_GE StrengthType.STRENGTH_REQUIRED false false)
      10 11 = none :=
  ⟨by decide!, (C23_replace_terms_inverted ex_weight (ex_residual_of ⟨-100, [(ex_x, 1)]⟩)
    InternalExpression.init
    (ex_constraint OperatorType.OPERATOR_TYPE_GE StrengthType.STRENGTH_REQUIRED false false)
    10 11 ⟨-100, [(ex_x, 1)]⟩ (by decide!) ⟨(ex_x, 1), by decide!, by decide⟩).1⟩

/-- C24.  When `eplus` is basic with the row `e`, `delta_edit_constant` returns
the solver in which the object of that row holds `e.constant + delta` with the
terms of `e`, `eplus` has been added to `infeasible_rows` if the new constant
is negative, and nothing else differs: `rows`, `columns` and every other
expression object are as before.  When `eplus` is not basic and `eminus` is,
the same holds for the row of `eminus` with `e.constant - delta`. -/
theorem C24_delta_edit_basic_row (s : SimplexSolver) (delta : ℚ) (eplus eminus : Variable) :
    (∀ a e, ht_lookup eplus s.rows = some a → expr_read s a = some e →
      ∃ s', simplex_solver_delta_edit_constant s delta eplus eminus = some s' ∧
        s' = { s with
               expressions := ht_insert a ⟨e.constant + delta, e.terms⟩ s.expressions
               infeasible_rows := if e.constant + delta < 0 then
                 set_add eplus s.infeasible_rows else s.infeasible_rows } ∧
        expr_read s' a = some ⟨e.constant + delta, e.terms⟩ ∧
        s'.rows = s.rows ∧ s'.columns = s.columns ∧
        ∀ a', a' ≠ a → expr_read s' a' = expr_read s a') ∧
    (ht_lookup eplus s.rows = none →
      ∀ a e, ht_lookup eminus s.rows = some a → expr_read s a = some e →
      ∃ s', simplex_solver_delta_edit_constant s delta eplus eminus = some s' ∧
        s' = { s with
               expressions := ht_insert a ⟨e.constant - delta, e.terms⟩ s.expressions
               infeasible_rows := if e.constant - delta < 0 then
                 set_add eminus s.infeasible_rows else s.infeasible_rows } ∧
        expr_read s' a = some ⟨e.constant - delta, e.terms⟩ ∧
        s'.rows = s.rows ∧ s'.columns = s.columns ∧
        ∀ a', a' ≠ a → expr_read s' a' = expr_read s a') := by
  constructor
  · intro a e ha he
    refine ⟨_, ?_, rfl, ?_, rfl, rfl, ?_⟩
    · simp only [simplex_solver_delta_edit_constant, ha, he, expression_get_constant,
        expression_set_constant, expr_write]
      split_ifs <;> rfl
    · simp [expr_read, ht_lookup_insert]
    · intro a' hne
      simp [expr_read, ht_lookup_insert, Ne.symm hne]
  · intro hnone a e ha he
    refine ⟨_, ?_, rfl, ?_, rfl, rfl, ?_⟩
    · simp only [simplex_solver_delta_edit_constant, hnone, ha, he, expression_get_constant,
        expression_set_constant, expr_write]
      split_ifs <;> rfl
    · simp [expr_read, ht_lookup_insert]
    · intro a' hne
      simp [expr_read, ht_lookup_insert, Ne.symm hne]

/-- C24 (witness).  In `ex_edit_basic` the row of `ep` is `1 + em`; a delta of
`-3` leaves it at `-2 + em` and files `ep` in `infeasible_rows`, and the rows
of `z` and `x` are as before. -/
theorem C24_delta_edit_basic_row_witness :
    ∃ s', simplex_solver_delta_edit_constant ex_edit_basic (-3) ex_ep ex_em = some s' ∧
      expr_read s' 3 = some ⟨1 + -3, [(ex_em, 1)]⟩ ∧
      s'.infeasible_rows = [ex_ep] ∧
      s'.rows = ex_edit_basic.rows ∧ s'.columns = ex_edit_basic.columns ∧
      ∀ a', a' ≠ 3 → expr_read s' a' = expr_read ex_edit_basic a' := by
  obtain ⟨s', h1, h2, h3, h4, h5, h6⟩ :=
    (C24_delta_edit_basic_row ex_edit_basic (-3) ex_ep ex_em).1 3 ⟨1, [(ex_em, 1)]⟩
      (by decide) (by decide!)
  refine ⟨s', h1, h3, ?_, h4, h5, h6⟩
  rw [h2]
  decide!

/-- C25 (code bug).  `delta_edit_constant` never changes `updated_externals`:
for an external row it calls `simplex_solver_update_variable`, which files the
variable in `external_vars`, a table that `simplex_solver_init` does not create
and `set_external_variables` does not read. -/
theorem C25_delta_edit_leaves_updated_externals (s s' : SimplexSolver) (delta : ℚ)
    (eplus eminus : Variable)
    (h : simplex_solver_delta_edit_constant s delta eplus eminus = some s') :
    s'.updated_externals = s.updated_externals :=
  delta_edit_constant_updated s s' delta eplus eminus h

/-- C25 (witness).  In `ex_edit` neither error variable is basic and the
column of `em` holds `z` and the external variable `x`, whose row is
`3 - ep + 2·em`.  A delta of `1` takes the constant of that row to `5`, as the
claim says, but `x` is not filed in `updated_externals`: the call has logged
the critical message of a `NULL` hash table, and `x` still holds `3`. -/
theorem C25_delta_edit_leaves_updated_externals_witness :
    ∃ s', simplex_solver_delta_edit_constant ex_edit 1 ex_ep ex_em = some s' ∧
      ht_lookup ex_em ex_edit.columns = some [ex_z, ex_x] ∧
      variable_is_external ex_x = true ∧
      expr_read s' 1 = some ⟨1, [(ex_ep, 1), (ex_em, 1)]⟩ ∧
      expr_read s' 2 = some ⟨5, [(ex_ep, -1), (ex_em, 2)]⟩ ∧
      s'.external_vars = none ∧ s'.criticals = [Critical.null_hash_table] ∧
      variable_get_value s' ex_x = 3 ∧
      s'.updated_externals = [] := by
  obtain ⟨s', h, h1, h2, h3, h4, h5, h6, h7⟩ :=
    option_obs (simplex_solver_delta_edit_constant ex_edit 1 ex_ep ex_em)
      (fun s' => ht_lookup ex_em ex_edit.columns = some [ex_z, ex_x] ∧
        variable_is_external ex_x = true ∧
        expr_read s' 1 = some ⟨1, [(ex_ep, 1), (ex_em, 1)]⟩ ∧
        expr_read s' 2 = some ⟨5, [(ex_ep, -1), (ex_em, 2)]⟩ ∧
        s'.external_vars = none ∧ s'.criticals = [Critical.null_hash_table] ∧
        variable_get_value s' ex_x = 3) (by decide!)
  exact ⟨s', h, h1, h2, h3, h4, h5, h6, h7,
    C25_delta_edit_leaves_updated_externals ex_edit s' 1 ex_ep ex_em h⟩

/-- C26.  On a tableau in which distinct rows own distinct expression
objects, I3 carries over from the solver before `substitute_out` or
`delta_edit_constant` to the solver the call returns.  The calls do return:
`substitute_out` when the members of the column sets are rows and the
substituted expression is an object, `delta_edit_constant` when in addition
every row is an object and one of the error variables is basic or
`minus_error_var` has a column set. -/
theorem C26_infeasible_tracked_preserved (s : SimplexSolver) (hown : rows_own s)
    (ht : infeasible_tracked s) :
    (∀ old e s', simplex_solver_substitute_out s old e = some s' → infeasible_tracked s') ∧
    (∀ delta eplus eminus s',
      simplex_solver_delta_edit_constant s delta eplus eminus = some s' →
      infeasible_tracked s') ∧
    (columns_within_rows s → ∀ old e, (expr_read s e).isSome = true →
      ∃ s', simplex_solver_substitute_out s old e = some s') ∧
    (rows_live s → columns_within_rows s → ∀ delta eplus eminus,
      ((ht_lookup eplus s.rows).isSome = true ∨ (ht_lookup eminus s.rows).isSome = true ∨
        (ht_lookup eminus s.columns).isSome = true) →
      ∃ s', simplex_solver_delta_edit_constant s delta eplus eminus = some s') :=
  ⟨fun old e s' h => substitute_out_tracked s s' old e h hown ht,
   fun delta eplus eminus s' h => delta_edit_constant_tracked s s' delta eplus eminus h hown ht,
   fun hcw old e he => substitute_out_some s old e hcw he,
   fun hlive hcw delta eplus eminus h =>
     delta_edit_constant_some s delta eplus eminus hlive hcw h⟩

/-- C26 (witness).  In the worked tableau, substituting the constant `-7` at
address `4` for `s2` takes the row of `x` to `-11` and that of `s1` to `-12`;
in `ex_edit_basic`, a delta of `-3` takes the row of `ep` to `-2`.  Both calls
return a solver in which I3 holds. -/
theorem C26_infeasible_tracked_preserved_witness :
    (infeasible_tracked (expr_write ex_tableau 4 ⟨-7, []⟩) ∧
      ∃ s', simplex_solver_substitute_out (expr_write ex_tableau 4 ⟨-7, []⟩) ex_s2 4 =
          some s' ∧ infeasible_tracked s') ∧
    (infeasible_tracked ex_edit_basic ∧
      ∃ s', simplex_solver_delta_edit_constant ex_edit_basic (-3) ex_ep ex_em = some s' ∧
        infeasible_tracked s') := by
  have h1 := C26_infeasible_tracked_preserved (expr_write ex_tableau 4 ⟨-7, []⟩)
    (by decide!) (by decide!)
  have h2 := C26_infeasible_tracked_preserved ex_edit_basic (by decide!) (by decide!)
  obtain ⟨s1, hs1⟩ := h1.2.2.1 (by decide!) ex_s2 4 (by decide!)
  obtain ⟨s2, hs2⟩ := h2.2.2.2 (by decide!) (by decide!) (-3) ex_ep ex_em (Or.inl (by decide))
  exact ⟨⟨by decide!, s1, hs1, h1.1 ex_s2 4 s1 hs1⟩,
    ⟨by decide!, s2, hs2, h2.2.1 (-3) ex_ep ex_em s2 hs2⟩⟩

/-- C27.  `add_row (v, e)` returns a solver in which `rows[v]` is `e`, `v` is a
member of `columns[t]` for every term variable `t` of `e`, and
`external_rows[v]` is `e` when `v` is external.  `remove_row (v)` returns a
solver in which `v` is not a key of `rows`, not in `infeasible_rows`, not a key
of `external_rows` (given that only external variables are keys of that
table), and a member of no column set (given that the members of the column
sets were rows mentioning the column variable).  And if every row that
mentions `t` is in `columns[t]`, this still holds after `add_row`, after
`remove_row`, and after `pivot` on a tableau whose rows own distinct
expression objects. -/
theorem C27_column_index_maintained (s : SimplexSolver) :
    (∀ v a e, expr_read s a = some e →
      ∃ s', simplex_solver_add_row s v a = some s' ∧
        ht_lookup v s'.rows = some a ∧ expr_read s' a = some e ∧
        (∀ t ∈ e.terms, ∃ set, ht_lookup t.1 s'.columns = some set ∧ v ∈ set) ∧
        (variable_is_external v = true → ht_lookup v s'.external_rows = some a) ∧
        (columns_cover_rows s → columns_cover_rows s')) ∧
    (∀ v a e, ht_lookup v s.rows = some a → expr_read s a = some e →
      ∃ s', simplex_solver_remove_row s v = some (a, s') ∧
        ht_lookup v s'.rows = none ∧ v ∉ s'.infeasible_rows ∧
        ((variable_is_external v = false → ht_lookup v s.external_rows = none) →
          ht_lookup v s'.external_rows = none) ∧
        (columns_within_rows s → ∀ t set, ht_lookup t s'.columns = some set → v ∉ set) ∧
        (columns_cover_rows s → columns_cover_rows s')) ∧
    (∀ entry exit s', rows_own s → columns_cover_rows s →
      simplex_solver_pivot s entry exit = some s' → columns_cover_rows s') := by
  refine ⟨?_, ?_, ?_⟩
  · intro v a e he
    obtain ⟨s1, C, hs1, heq, hC⟩ := add_row_eq s v a e he
    refine ⟨s1, hs1, ?_, ?_, ?_, ?_, fun hc => add_row_cover s s1 v a hs1 hc⟩
    · rw [heq]
      exact ht_lookup_insert_self v a s.rows
    · rw [heq]
      exact he
    · intro t ht
      have hcols : s1.columns = C := by rw [heq]
      rw [hcols, hC t.1]
      have : t.1 ∈ e.terms.map Prod.fst := List.mem_map.mpr ⟨t, ht, rfl⟩
      simp only [this, if_true]
      exact ⟨_, rfl, (mem_set_add _ _ _).mpr (Or.inl rfl)⟩
    · intro hx
      rw [heq]
      simp only [hx, if_true]
      exact ht_lookup_insert_self v a s.external_rows
  · intro v a e ha he
    obtain ⟨s1, C, hs1, heq, hC⟩ := remove_row_eq s v a e ha he
    refine ⟨s1, hs1, ?_, ?_, ?_, ?_, fun hc => remove_row_cover s s1 v a hs1 hc⟩
    · rw [heq]
      simp [ht_lookup_remove]
    · rw [heq]
      intro hmem
      exact ((mem_set_remove v v _).mp hmem).1 rfl
    · intro hext
      rw [heq]
      by_cases hx : variable_is_external v = true
      · simp [hx, ht_lookup_remove]
      · have hx' : variable_is_external v = false := by simpa using hx
        simp only [hx', Bool.false_eq_true, if_false]
        exact hext hx'
    · intro hcw t set hset
      rw [columns_within_rows_iff] at hcw
      have hcols : s1.columns = C := by rw [heq]
      rw [hcols, hC t] at hset
      by_cases ht : t ∈ e.terms.map Prod.fst
      · simp only [ht, if_true] at hset
        cases h0 : ht_lookup t s.columns with
        | none => simp [h0] at hset
        | some set0 =>
          simp only [h0, Option.map_some', Option.some.injEq] at hset
          rw [← hset]
          intro hmem
          exact ((mem_set_remove v v _).mp hmem).1 rfl
      · simp only [ht, if_false] at hset
        intro hmem
        obtain ⟨a', e', ha', he', hte⟩ := hcw t set v hset hmem
        rw [ha] at ha'
        simp only [Option.some.injEq] at ha'
        subst ha'
        rw [he] at he'
        simp only [Option.some.injEq] at he'
        subst he'
        exact ht hte
  · intro entry exit s' hown hcover hp
    exact pivot_cover s s' entry exit hown hcover hp

/-- C27 (witness).  In the worked tableau the index is the inverse of the
rows; removing the row of `s1`, adding it back and pivoting `s2` in for `s1`
each return a solver in which the columns cover the rows. -/
theorem C27_column_index_maintained_witness :
    columns_inverse_of_rows ex_tableau ∧ rows_own ex_tableau ∧
    (∃ s', simplex_solver_remove_row ex_tableau ex_s1 = some (3, s') ∧
      ht_lookup ex_s1 s'.rows = none ∧ columns_cover_rows s' ∧
      ∃ s'', simplex_solver_add_row s' ex_s1 3 = some s'' ∧
        ht_lookup ex_s1 s''.rows = some 3 ∧ columns_cover_rows s'') ∧
    (∃ s', simplex_solver_pivot ex_tableau ex_s2 ex_s1 = some s' ∧
      columns_cover_rows s') := by
  have hinv : columns_inverse_of_rows ex_tableau := by decide!
  have hown : rows_own ex_tableau := by decide!
  refine ⟨hinv, hown, ?_, ?_⟩
  · obtain ⟨s', h1, h2, _, _, _, h6⟩ :=
      (C27_column_index_maintained ex_tableau).2.1 ex_s1 3 ⟨-5, [(ex_s2, 1)]⟩
        (by decide) (by decide!)
    have hread : expr_read s' 3 = some ⟨-5, [(ex_s2, 1)]⟩ := by
      obtain ⟨s1, C, hs1, heq, _⟩ := remove_row_eq ex_tableau ex_s1 3 ⟨-5, [(ex_s2, 1)]⟩
        (by decide) (by decide!)
      rw [h1] at hs1
      simp only [Option.some.injEq, Prod.mk.injEq, true_and] at hs1
      rw [hs1, heq]
      exact (by decide! : expr_read ex_tableau 3 = some ⟨-5, [(ex_s2, 1)]⟩)
    obtain ⟨s'', h7, h8, _, _, _, h12⟩ :=
      (C27_column_index_maintained s').1 ex_s1 3 ⟨-5, [(ex_s2, 1)]⟩ hread
    exact ⟨s', h1, h2, h6 hinv.2.1, s'', h7, h8, h12 (h6 hinv.2.1)⟩
  · obtain ⟨s', hs'⟩ := option_obs (simplex_solver_pivot ex_tableau ex_s2 ex_s1)
      (fun _ => True) (by decide!)
    exact ⟨s', hs'.1,
      (C27_column_index_maintained ex_tableau).2.2 ex_s2 ex_s1 s' hown hinv.2.1 hs'.1⟩

/-- C28 (code bug).  On `ex_artificial` the expression is the constant `5`.
`add_with_artificial_variable` adds the rows of `az` and `av`, finds the
constant of the row of `az` not near zero, removes the row of `az`, calls
`remove_column (av)`, logs the message and returns: `az` is no longer a key of
`rows`, but `av` still is, with the expression `5` as its row. -/
theorem C28_artificial_variable_left_basic :
    ∃ s', simplex_solver_add_with_artificial_variable 1 ex_artificial 2 20 21 = some s' ∧
      s'.criticals = [Critical.unsatisfiable_required] ∧
      ht_lookup ex_az s'.rows = none ∧
      ht_lookup ex_av s'.columns = none ∧
      ht_lookup ex_av s'.rows = some 2 ∧
      expr_read s' 2 = some ⟨5, []⟩ :=
  option_obs _ _ (by decide!)

/-- C29.  When `resolve` runs with `needs_solving` set and returns, the
solver it returns has an empty `infeasible_rows` and `needs_solving` clear.
Compared with the solver `s2` that `dual_optimize` and
`set_external_variables` have left, the tables `rows` and the stay arrays are
the same, every row selected for a stay index has the constant `0` and the
terms it had, and every expression object that is not selected for any stay
index is as it was. -/
theorem C29_resolve_resets_stay_rows (fuel : Nat) (s s' : SimplexSolver)
    (hn : s.needs_solving = true) (hr : simplex_solver_resolve fuel s = some s') :
    s'.infeasible_rows = [] ∧ s'.needs_solving = false ∧
    ∃ s2, (simplex_solver_dual_optimize fuel s).bind simplex_solver_set_external_variables =
        some s2 ∧
      s'.rows = s2.rows ∧ s'.stay_plus_error_vars = s2.stay_plus_error_vars ∧
      s'.stay_minus_error_vars = s2.stay_minus_error_vars ∧
      (∀ i a, stay_selected s' i = some a →
        ∃ e, expr_read s2 a = some e ∧ expr_read s' a = some ⟨0, e.terms⟩) ∧
      (∀ a, (∀ i, stay_selected s' i ≠ some a) → expr_read s' a = expr_read s2 a) := by
  simp only [simplex_solver_resolve, hn, Bool.not_true, Bool.false_eq_true, if_false] at hr
  cases hd : simplex_solver_dual_optimize fuel s with
  | none => simp [hd] at hr
  | some s1 =>
    simp only [hd] at hr
    cases hx : simplex_solver_set_external_variables s1 with
    | none => simp [hx] at hr
    | some s2 =>
      simp only [hx] at hr
      cases hs : simplex_solver_reset_stay_constraints { s2 with infeasible_rows := [] } with
      | none => simp [hs] at hr
      | some s3 =>
        simp only [hs, Option.some.injEq] at hr
        subst hr
        unfold simplex_solver_reset_stay_constraints at hs
        obtain ⟨⟨exprs, hs3⟩, _⟩ := reset_stay_loop_spec _ 0 _ s3 hs
        obtain ⟨hA, hB⟩ := reset_stay_loop_selected _ 0 _ s3 hs
        have hsel : ∀ i, stay_selected { s3 with needs_solving := false } i =
            stay_selected { s2 with infeasible_rows := [] } i := by
          intro i
          rw [hs3]
          rfl
        refine ⟨by rw [hs3], rfl, s2, by simp [hx], by rw [hs3], by rw [hs3], by rw [hs3],
          ?_, ?_⟩
        · intro i a hi
          rw [hsel] at hi
          unfold stay_selected at hi
          cases hp : ({ s2 with infeasible_rows := [] } : SimplexSolver).stay_plus_error_vars[i]?
            with
          | none => simp [hp] at hi
          | some p =>
            simp only [hp] at hi
            cases hq : reset_stay_select { s2 with infeasible_rows := [] } p i with
            | none => simp [hq] at hi
            | some o =>
              cases o with
              | none => simp [hq] at hi
              | some a1 =>
                simp only [hq, Option.some.injEq] at hi
                subst hi
                obtain ⟨e, he, h3⟩ := hA i p a1 hp (by rw [Nat.zero_add]; exact hq)
                exact ⟨e, he, h3⟩
        · intro a hno
          have : expr_read s3 a = expr_read { s2 with infeasible_rows := [] } a := by
            apply hB
            intro k p hk hq
            apply hno k
            rw [hsel]
            unfold stay_selected
            rw [Nat.zero_add] at hq
            simp only [hk, hq]
          exact this

/-- C29 (witness).  On `ex_stays`, `resolve` returns; the rows of `sp1` and of
`sm2`, which held `4` and `6`, hold `0`, and the row of `x` still holds
`3`. -/
theorem C29_resolve_resets_stay_rows_witness :
    ∃ s', simplex_solver_resolve 1 ex_stays = some s' ∧
      stay_selected s' 0 = some 2 ∧ stay_selected s' 1 = some 3 ∧
      expr_read s' 2 = some ⟨0, [(ex_sm1, 1)]⟩ ∧ expr_read s' 3 = some ⟨0, [(ex_sp2, 1)]⟩ ∧
      expr_read s' 4 = some ⟨3, [(ex_sp2, 1)]⟩ ∧
      s'.infeasible_rows = [] ∧ s'.needs_solving = false := by
  obtain ⟨s', h, h1, h2, h3, h4, h5⟩ := option_obs (simplex_solver_resolve 1 ex_stays)
    (fun s' => stay_selected s' 0 = some 2 ∧ stay_selected s' 1 = some 3 ∧
      expr_read s' 2 = some ⟨0, [(ex_sm1, 1)]⟩ ∧ expr_read s' 3 = some ⟨0, [(ex_sp2, 1)]⟩ ∧
      expr_read s' 4 = some ⟨3, [(ex_sp2, 1)]⟩) (by decide!)
  obtain ⟨h6, h7, _⟩ := C29_resolve_resets_stay_rows 1 ex_stays s' (by decide) h
  exact ⟨s', h, h1, h2, h3, h4, h5, h6, h7⟩

/-- C30 (code bug).  `simplex_solver_init` leaves `error_vars` `NULL`, and
`normalize_expression` never creates the table: on a solver whose `error_vars`
is `NULL`, whatever the constraint, the solver it returns still has
`error_vars` `NULL`, so there is no entry for the constraint. -/
theorem C30_error_vars_never_created (weight : StrengthType → ℚ) (s : SimplexSolver)
    (internal : InternalExpression) (cn : Constraint) (addr1 addr2 : Nat)
    (r : Nat × SimplexSolver × InternalExpression)
    (hn : s.error_vars = none)
    (h : simplex_solver_normalize_expression weight s internal cn addr1 addr2 = some r) :
    (∀ objective_addr, (simplex_solver_init objective_addr).error_vars = none) ∧
    r.2.1.error_vars = none :=
  ⟨fun _ => rfl, normalize_expression_error_vars weight s internal cn addr1 addr2 r h hn⟩

/-- C30 (witness).  The weak `x == x` on a freshly initialised solver: the
residual has no terms, `normalize_expression` returns `0 - eplus + eminus`,
each of the two calls of `insert_error_variable` has logged two critical
messages, and `error_vars` is still `NULL`. -/
theorem C30_error_vars_never_created_witness :
    ∃ cn s r, ex_weak_self = some (cn, s) ∧
      cn.strength = StrengthType.STRENGTH_WEAK ∧ expr_read s cn.expression = some ⟨0, []⟩ ∧
      simplex_solver_normalize_expression ex_weight s InternalExpression.init cn 10 11 =
        some r ∧
      expr_read r.2.1 r.1 = some ⟨0, [(ex_n1, -1), (ex_n2, 1)]⟩ ∧
      r.2.1.criticals = s.criticals ++ [Critical.null_hash_table, Critical.null_hash_table,
        Critical.null_hash_table, Critical.null_hash_table] ∧
      r.2.1.error_vars = none := by
  obtain ⟨q, hq, h1, h2, h3, h5, h6⟩ := option_obs ex_weak_self_normalized
    (fun q => q.1.strength = StrengthType.STRENGTH_WEAK ∧
      expr_read q.2.1 q.1.expression = some ⟨0, []⟩ ∧ q.2.1.error_vars = none ∧
      expr_read q.2.2.2.1 q.2.2.1 = some ⟨0, [(ex_n1, -1), (ex_n2, 1)]⟩ ∧
      q.2.2.2.1.criticals = q.2.1.criticals ++ [Critical.null_hash_table,
        Critical.null_hash_table, Critical.null_hash_table, Critical.null_hash_table])
    (by decide!)
  unfold ex_weak_self_normalized at hq
  cases hp : ex_weak_self with
  | none => simp [hp] at hq
  | some p =>
    obtain ⟨cn, s⟩ := p
    simp only [hp] at hq
    cases hr : simplex_solver_normalize_expression ex_weight s InternalExpression.init cn 10 11 with
    | none => simp [hr] at hq
    | some r =>
      simp only [hr, Option.some.injEq] at hq
      subst hq
      exact ⟨cn, s, r, rfl, h1, h2, hr, h5, h6,
        (C30_error_vars_never_created ex_weight s InternalExpression.init cn 10 11 r h3 hr).2⟩

/-- C31.  Every call `simplex_solver_pivot (solver, entry, exit)` that
`optimize` issues has a pivotable `entry`, which is therefore no dummy, and a
pivotable `exit`, which is not `NULL`; every call that `dual_optimize` issues
has a pivotable `entry`, which is therefore no dummy.  This covers the calls
of a run that returns and those of a run that does not, whatever the fuel; the
functions that list the calls run as `simplex_solver_optimize` and
`simplex_solver_dual_optimize` do.  Hence no dummy enters the basis: the row
of a dummy is the same after `optimize` has returned as at the call, and a
dummy that is basic when `dual_optimize` returns was basic at the call.  In
`ex_optimize_dummies` a dummy has the most negative coefficient of the
objective row and the row of a dummy the smallest ratio, and the one pivot is
`(s2, s3)`; in `ex_dual_dummies` a dummy has the smallest ratio, and the one
pivot is `(s2, s1)`. -/
theorem C31_pivots_enter_pivotable (fuel : Nat) (solver : SimplexSolver) (z : Variable) :
    ((simplex_solver_optimize_pivots fuel solver z).2 = simplex_solver_optimize fuel solver z ∧
      ∀ p ∈ (simplex_solver_optimize_pivots fuel solver z).1,
        variable_is_pivotable p.1 = true ∧ variable_is_dummy p.1 = false ∧
        ∃ exit, p.2 = some exit ∧ variable_is_pivotable exit = true) ∧
    ((simplex_solver_dual_optimize_pivots fuel solver).2 =
        simplex_solver_dual_optimize fuel solver ∧
      ∀ p ∈ (simplex_solver_dual_optimize_pivots fuel solver).1,
        variable_is_pivotable p.1 = true ∧ variable_is_dummy p.1 = false) ∧
    (∀ s' d, simplex_solver_optimize fuel solver z = some s' → variable_is_dummy d = true →
      ht_lookup d s'.rows = ht_lookup d solver.rows) ∧
    (∀ s' d, simplex_solver_dual_optimize fuel solver = some s' →
      variable_is_dummy d = true → (ht_lookup d s'.rows).isSome = true →
      (ht_lookup d solver.rows).isSome = true) ∧
    (simplex_solver_optimize_pivots 2 ex_optimize_dummies ex_z).1 = [(ex_s2, some ex_s3)] ∧
    (simplex_solver_dual_optimize_pivots 1 ex_dual_dummies).1 = [(ex_s2, ex_s1)] := by
  have hdp : ∀ d : Variable, variable_is_dummy d = true → variable_is_pivotable d = false := by
    intro d hd
    cases hp : variable_is_pivotable d with
    | false => rfl
    | true => rw [pivotable_not_dummy d hp] at hd; exact absurd hd (by simp)
  refine ⟨⟨?_, ?_⟩, ⟨?_, ?_⟩, ?_, ?_, by decide!, by decide!⟩
  · simp only [simplex_solver_optimize_pivots, simplex_solver_optimize]
    cases ht_lookup z solver.rows with
    | none => rfl
    | some z_row => exact optimize_loop_pivots_run z_row fuel none _
  · intro p hp
    simp only [simplex_solver_optimize_pivots] at hp
    cases hz : ht_lookup z solver.rows with
    | none => simp [hz] at hp
    | some z_row =>
      simp only [hz] at hp
      obtain ⟨h1, h2⟩ := optimize_loop_pivots_pivotable z_row fuel none _ p hp
      exact ⟨h1, pivotable_not_dummy _ h1, h2⟩
  · exact dual_optimize_loop_pivots_run _ fuel solver
  · intro p hp
    have h1 := dual_optimize_loop_pivots_pivotable _ fuel solver p hp
    exact ⟨h1, pivotable_not_dummy _ h1⟩
  · intro s' d h hd
    simp only [simplex_solver_optimize] at h
    cases hz : ht_lookup z solver.rows with
    | none => simp [hz] at h
    | some z_row =>
      simp only [hz] at h
      have h2 := (optimize_loop_returns z_row d (hdp d hd) fuel none _ s' h).2
      exact h2
  · intro s' d h hd hw
    exact dual_optimize_loop_basis _ fuel solver s' h d (hdp d hd) hw

/-- C31 (witness).  On `ex_optimize_dummies`, `optimize` returns after the
pivot `(s2, s3)` with the dummy `d` basic on its row as before and the dummy
`d'` not basic; on `ex_dual_dummies`, `dual_optimize` returns after the pivot
`(s2, s1)` with the dummy `d` basic, as it was at the call, and the dummy `d'`
not basic. -/
theorem C31_pivots_enter_pivotable_witness :
    (∃ s', simplex_solver_optimize 2 ex_optimize_dummies ex_z = some s' ∧
      ht_lookup ex_d s'.rows = ht_lookup ex_d ex_optimize_dummies.rows ∧
      ht_lookup ex_d s'.rows = some 2 ∧ ht_lookup ex_nd s'.rows = none ∧
      ht_lookup ex_s2 s'.rows = some 3) ∧
    (∃ s', simplex_solver_dual_optimize 1 ex_dual_dummies = some s' ∧
      ((ht_lookup ex_d s'.rows).isSome = true →
        (ht_lookup ex_d ex_dual_dummies.rows).isSome = true) ∧
      ht_lookup ex_d s'.rows = some 3 ∧ ht_lookup ex_nd s'.rows = none ∧
      ht_lookup ex_s2 s'.rows = some 2) ∧
    (∀ p ∈ (simplex_solver_optimize_pivots 2 ex_optimize_dummies ex_z).1,
      variable_is_pivotable p.1 = true ∧ variable_is_dummy p.1 = false ∧
      ∃ exit, p.2 = some exit ∧ variable_is_pivotable exit = true) ∧
    (∀ p ∈ (simplex_solver_dual_optimize_pivots 1 ex_dual_dummies).1,
      variable_is_pivotable p.1 = true ∧ variable_is_dummy p.1 = false) := by
  refine ⟨?_, ?_, (C31_pivots_enter_pivotable 2 ex_optimize_dummies ex_z).1.2,
    (C31_pivots_enter_pivotable 1 ex_dual_dummies ex_z).2.1.2⟩
  · obtain ⟨s', h, h1, h2, h3⟩ := option_obs (simplex_solver_optimize 2 ex_optimize_dummies ex_z)
      (fun s' => ht_lookup ex_d s'.rows = some 2 ∧ ht_lookup ex_nd s'.rows = none ∧
        ht_lookup ex_s2 s'.rows = some 3) (by decide!)
    exact ⟨s', h, (C31_pivots_enter_pivotable 2 ex_optimize_dummies ex_z).2.2.1 s' ex_d h
      (by decide), h1, h2, h3⟩
  · obtain ⟨s', h, h1, h2, h3⟩ := option_obs (simplex_solver_dual_optimize 1 ex_dual_dummies)
      (fun s' => ht_lookup ex_d s'.rows = some 3 ∧ ht_lookup ex_nd s'.rows = none ∧
        ht_lookup ex_s2 s'.rows = some 2) (by decide!)
    exact ⟨s', h, (C31_pivots_enter_pivotable 1 ex_dual_dummies ex_z).2.2.2.1 s' ex_d h
      (by decide), h1, h2, h3⟩

end Emeus
